import Mathlib

/-!
DRM lease manager (`types/wlr_drm_lease_v1.c`).

A shallow embedding of the lease negotiation engine of wlroots' DRM lease
protocol implementation, followed by theorems about it.

Memory is explicit.  Every C object lives in a heap, one heap per struct type;
an address is an index into the heap.  A cell is `some obj` while the object is
allocated and `none` once it has been passed to `free`.  Reading or writing
through an address that is freed, was never allocated, or is `NULL` is
undefined behaviour in C; the embedding reports it as a `Fault` instead of
inventing a result.  A failing `assert` is a `Fault` as well.

Intrusive `wl_list`s are lists of addresses kept in the object that owns the
list head; `wl_list_insert(head, elm)` puts `elm` at the front.

Everything outside the file (the backend's lease primitives, the allocator,
the compositor's listener on the `request` signal) is a parameter, collected
in `Env`.  Everything sent to a client or asked of the backend is appended to
`State.events`.
-/

namespace DrmLease

/-- An address. `Option Ptr` is a nullable pointer, `none` being `NULL`. -/
abbrev Ptr := Nat

/-- A C string, as its bytes (without the terminating NUL). -/
abbrev CString := List Nat

/-- The ways a call can fail to return. -/
inductive Fault where
  | assertion (msg : String)
  | null_deref
  | use_after_free
  | invalid_pointer
  deriving DecidableEq, Repr

/-! ## Heaps -/

/-- Read through a pointer. -/
def deref {α : Type} (h : List (Option α)) (p : Ptr) : Except Fault α :=
  match h[p]? with
  | some (some a) => .ok a
  | some none => .error .use_after_free
  | none => .error .invalid_pointer

/-- Write through a pointer (the callers have read through it before). -/
def store {α : Type} (h : List (Option α)) (p : Ptr) (a : α) : List (Option α) :=
  h.set p (some a)

/-- The heap after `free(p)`. -/
def release {α : Type} (h : List (Option α)) (p : Ptr) : List (Option α) :=
  h.set p none

/-- The heap after a successful `calloc`; the new object's address is
`h.length`. -/
def alloc {α : Type} (h : List (Option α)) (a : α) : List (Option α) :=
  h ++ [some a]

/-! ## Data model -/

/-- The part of `struct wlr_output` (which is the first member of
`struct wlr_drm_connector`) that the lease code reads.  `ptr` is the address
of the output: outputs are compared by address. -/
structure Output where
  ptr : Ptr
  name : CString
  make : CString
  model : CString
  serial : CString
  id : Nat
  backend : Ptr
  deriving DecidableEq, Repr

/-- The four protocol interfaces a `wl_resource` of this file can have. -/
inductive Iface where
  | device
  | connector
  | request
  | lease
  deriving DecidableEq, Repr

/-- A `struct wl_resource`: its interface, its client and its user data. Its
link is represented by membership in the list that holds it. -/
structure Resource where
  iface : Iface
  client : Ptr
  user_data : Option Ptr
  deriving DecidableEq, Repr

/-- The `struct wlr_drm_lease_connector_v1`. Its `link` is represented by
membership in a device's `connectors`; its `drm_connector` member is never
read or written by the file and is left out. -/
structure Connector where
  resources : List Ptr
  output : Output
  active_lease : Option Ptr
  deriving DecidableEq, Repr

/-- The `struct wlr_drm_lease_request_v1`. -/
structure Request where
  resource : Option Ptr
  device : Option Ptr
  connector : Option Ptr
  invalid : Bool
  lease : Option Ptr
  deriving DecidableEq, Repr

/-- The `struct wlr_drm_lease_v1`. -/
structure Lease where
  resource : Option Ptr
  device : Option Ptr
  connector : Option Ptr
  lessee_id : Nat
  deriving DecidableEq, Repr

/-- The `struct wlr_drm_lease_device_v1`. Its `link` is represented by
membership in the manager's `devices`. -/
structure Device where
  resources : List Ptr
  global : Option Ptr
  manager : Option Ptr
  backend : Ptr
  connectors : List Ptr
  leases : List Ptr
  requests : List Ptr
  deriving DecidableEq, Repr

/-- The `struct wlr_drm_lease_manager`. -/
structure Manager where
  devices : List Ptr
  deriving DecidableEq, Repr

/-- What leaves the lease code: protocol events sent to a resource, error
posts, calls into the backend, and the `request` signal. -/
inductive Event where
  | lease_finished (resource : Ptr)
  | lease_fd (resource : Ptr) (fd : Int)
  | close (fd : Int)
  | withdrawn (resource : Ptr)
  | connector (device : Ptr) (resource : Ptr)
  | name (resource : Ptr) (name : CString)
  | description (resource : Ptr) (description : CString)
  | connector_id (resource : Ptr) (id : Nat)
  | drm_fd (resource : Ptr) (fd : Int)
  | device_finished (resource : Ptr)
  | client_no_memory (client : Ptr)
  | resource_no_memory (resource : Ptr)
  | create_lease (backend : Ptr) (output : Ptr)
  | terminate_lease (backend : Ptr) (lessee_id : Nat)
  | request_signal (manager : Ptr) (request : Ptr)
  deriving DecidableEq, Repr

/-- The whole program state. -/
structure State where
  managers : List (Option Manager)
  devices : List (Option Device)
  connectors : List (Option Connector)
  requests : List (Option Request)
  leases : List (Option Lease)
  resources : List (Option Resource)
  events : List Event
  deriving DecidableEq, Repr

/-- The state before anything is allocated. -/
def State.empty : State :=
  { managers := [], devices := [], connectors := [], requests := [],
    leases := [], resources := [], events := [] }

/-- What the surroundings answer during one call.
* `calloc_ok`: whether `calloc` returns memory;
* `wl_resource_ok`: whether a `wl_resource_create` of the entry point itself
  succeeds;
* `resource_ok connector device`: whether the `wl_resource_create` in
  `drm_lease_connector_v1_send_to_client connector _ device` succeeds;
* `create_lease backend output old`: the file descriptor returned by
  `wlr_drm_backend_create_lease` and the value of `*lessee_id` afterwards,
  `old` being its value before;
* `open_fd`: the result of `open` on the device node in `lease_device_bind`;
* `is_master`: the result of `drmIsMaster` after `drmDropMaster`;
* `device_calloc_ok backend`, `global_ok backend`: whether `calloc` and
  `wl_global_create` succeed in `drm_lease_device_v1_create` for `backend`. -/
structure Env where
  calloc_ok : Bool
  wl_resource_ok : Bool
  resource_ok : Ptr → Ptr → Bool
  create_lease : Ptr → Ptr → Nat → Int × Nat
  open_fd : Int
  is_master : Bool
  device_calloc_ok : Ptr → Bool
  global_ok : Ptr → Bool

/-- The position of a `wl_list_for_each` variable. The macro never leaves the
variable `NULL`: when the loop runs to its end the variable is
`wl_container_of(head, pos, member)`, an address computed from the list head
at which there is no object. -/
inductive Cursor where
  | elem (p : Ptr)
  | head
  deriving DecidableEq, Repr

/-! ## Small helpers -/

/-- Send a protocol event to a resource: `wl_resource_post_event` reads
through the resource. -/
def post_event (s : State) (resource : Option Ptr) (ev : Ptr → Event) :
    Except Fault State :=
  match resource with
  | none => .error .null_deref
  | some r =>
    match deref s.resources r with
    | .error f => .error f
    | .ok _ => .ok { s with events := s.events ++ [ev r] }

/-- The list of devices after `wl_list_remove(&connector->link)` followed by
`wl_list_init(&connector->link)`: the connector is in no list any more.
Removing a link that is already on its own is harmless. -/
def unlink_connector (connector : Ptr) (devices : List (Option Device)) :
    List (Option Device) :=
  devices.map (Option.map fun d =>
    { d with connectors := d.connectors.filter (fun c => c ≠ connector) })

/-- The devices and connectors after `wl_list_remove` and `wl_list_init` on
the link of a resource: the resource is in no list any more. -/
def unlink_resource (resource : Ptr) (s : State) : State :=
  { s with
    devices := s.devices.map (Option.map fun d =>
      { d with
        resources := d.resources.filter (fun r => r ≠ resource),
        leases := d.leases.filter (fun r => r ≠ resource),
        requests := d.requests.filter (fun r => r ≠ resource) }),
    connectors := s.connectors.map (Option.map fun c =>
      { c with resources := c.resources.filter (fun r => r ≠ resource) }) }

/-- The user data of a resource, after the `assert` that the resource has the
expected interface (the four `..._from_resource` functions). -/
def from_resource (iface : Iface) (s : State) (resource : Ptr) :
    Except Fault (Option Ptr) :=
  match deref s.resources resource with
  | .error f => .error f
  | .ok r =>
    if r.iface = iface then .ok r.user_data
    else .error (.assertion "wl_resource_instance_of")

/-- The text of `snprintf(description, 128, "%s %s %s (%s)", make, model,
serial, name)`: at most 127 bytes are kept. -/
def description (o : Output) : CString :=
  (o.make ++ [32] ++ o.model ++ [32] ++ o.serial ++ [32, 40] ++ o.name ++ [41]).take 127

/-! ## Announcing a connector -/

/-- The function `drm_lease_connector_v1_send_to_client`. -/
def drm_lease_connector_v1_send_to_client (env : Env) (s : State)
    (connector : Ptr) (wl_client : Ptr) (device : Ptr) : Except Fault State :=
  match deref s.connectors connector with
  | .error f => .error f
  | .ok c =>
    if c.active_lease.isSome then .ok s
    else if env.resource_ok connector device = false then
      .ok { s with events := s.events ++ [.client_no_memory wl_client] }
    else
      let wl_resource := s.resources.length
      .ok { s with
        resources := alloc s.resources
          { iface := .connector, client := wl_client, user_data := some connector },
        events := s.events ++
          [ .connector device wl_resource,
            .name wl_resource c.output.name,
            .description wl_resource (description c.output),
            .connector_id wl_resource c.output.id ],
        connectors := store s.connectors connector
          { c with resources := wl_resource :: c.resources } }

/-- The loop `wl_resource_for_each(resource, &device->resources)` around
`drm_lease_connector_v1_send_to_client(connector,
wl_resource_get_client(resource), resource)`, as it stands in
`wlr_drm_lease_v1_revoke` and in `wlr_drm_lease_manager_offer_output`. -/
def send_to_bound (env : Env) (connector : Ptr) :
    List Ptr → State → Except Fault State
  | [], s => .ok s
  | resource :: rest, s =>
    match deref s.resources resource with
    | .error f => .error f
    | .ok r =>
      match drm_lease_connector_v1_send_to_client env s connector r.client resource with
      | .error f => .error f
      | .ok s1 => send_to_bound env connector rest s1

/-- The loop `wl_resource_for_each_safe(wl_resource, tmp,
&connector->resources)` that sends `withdrawn`, clears the user data and
unlinks the resource, as it stands in `wlr_drm_lease_request_v1_grant` and in
`wlr_drm_lease_manager_withdraw_output`. -/
def withdraw_resources (connector : Ptr) :
    List Ptr → State → Except Fault State
  | [], s => .ok s
  | wl_resource :: rest, s =>
    match deref s.resources wl_resource with
    | .error f => .error f
    | .ok r =>
      match deref s.connectors connector with
      | .error f => .error f
      | .ok c =>
        withdraw_resources connector rest
          { s with
            events := s.events ++ [.withdrawn wl_resource],
            resources := store s.resources wl_resource { r with user_data := none },
            connectors := store s.connectors connector
              { c with resources := c.resources.filter (fun x => x ≠ wl_resource) } }

/-! ## Grant, reject, revoke -/

/-- The condition `request->invalid || request->connector->active_lease`:
the connector is read only when the request is not invalid. -/
def invalid_or_leased (s : State) (req : Request) : Except Fault Bool :=
  if req.invalid then .ok true
  else
    match req.connector with
    | none => .error .null_deref
    | some c =>
      match deref s.connectors c with
      | .error f => .error f
      | .ok conn => .ok conn.active_lease.isSome

/-- The function `wlr_drm_lease_request_v1_grant`. The result is the new state
and the returned lease pointer. -/
def wlr_drm_lease_request_v1_grant (env : Env) (s : State) (request : Ptr) :
    Except Fault (State × Option Ptr) :=
  match deref s.requests request with
  | .error f => .error f
  | .ok req =>
    match req.lease with
    | none => .error (.assertion "request->lease")
    | some lease =>
      match invalid_or_leased s req with
      | .error f => .error f
      | .ok true =>
        match deref s.leases lease with
        | .error f => .error f
        | .ok l =>
          match post_event s l.resource .lease_finished with
          | .error f => .error f
          | .ok s1 => .ok (s1, none)
      | .ok false =>
        match req.connector, req.device with
        | none, _ => .error .null_deref
        | _, none => .error .null_deref
        | some connector, some device =>
          let s1 := { s with devices := unlink_connector connector s.devices }
          match deref s1.devices device, deref s1.connectors connector,
              deref s1.leases lease with
          | .error f, _, _ => .error f
          | _, .error f, _ => .error f
          | _, _, .error f => .error f
          | .ok dev, .ok conn, .ok l =>
            let r := env.create_lease dev.backend conn.output.ptr l.lessee_id
            let l1 := { l with lessee_id := r.2 }
            let s2 := { s1 with
              leases := store s1.leases lease l1,
              events := s1.events ++ [.create_lease dev.backend conn.output.ptr] }
            if r.1 < 0 then
              match post_event s2 l1.resource .lease_finished with
              | .error f => .error f
              | .ok s3 => .ok (s3, none)
            else
              let s3 := { s2 with
                connectors := store s2.connectors connector
                  { conn with active_lease := some lease },
                leases := store s2.leases lease { l1 with connector := some connector } }
              match withdraw_resources connector conn.resources s3 with
              | .error f => .error f
              | .ok s4 =>
                match post_event s4 l1.resource (fun res => .lease_fd res r.1) with
                | .error f => .error f
                | .ok s5 =>
                  .ok ({ s5 with events := s5.events ++ [.close r.1] }, some lease)

/-- The function `wlr_drm_lease_request_v1_reject`. -/
def wlr_drm_lease_request_v1_reject (s : State) (request : Ptr) :
    Except Fault State :=
  match deref s.requests request with
  | .error f => .error f
  | .ok req =>
    match req.lease with
    | none => .error (.assertion "request && request->lease")
    | some lease =>
      match deref s.leases lease with
      | .error f => .error f
      | .ok l =>
        match post_event s l.resource .lease_finished with
        | .error f => .error f
        | .ok s1 =>
          .ok { s1 with requests := store s1.requests request { req with invalid := true } }

/-- The function `wlr_drm_lease_v1_revoke`. The result of
`wlr_drm_backend_terminate_lease` only decides whether a line is logged. -/
def wlr_drm_lease_v1_revoke (env : Env) (s : State) (lease : Ptr) :
    Except Fault State :=
  match deref s.leases lease with
  | .error f => .error f
  | .ok l =>
    let notified : Except Fault State :=
      match l.resource with
      | none => .ok s
      | some r => post_event s (some r) .lease_finished
    match notified with
    | .error f => .error f
    | .ok s1 =>
      let terminated : Except Fault State :=
        if l.lessee_id ≠ 0 then
          match l.device with
          | none => .error .null_deref
          | some device =>
            match deref s1.devices device with
            | .error f => .error f
            | .ok dev =>
              .ok { s1 with events := s1.events ++ [.terminate_lease dev.backend l.lessee_id] }
        else .ok s1
      match terminated with
      | .error f => .error f
      | .ok s2 =>
        match l.connector with
        | none => .error .null_deref
        | some connector =>
          match deref s2.connectors connector with
          | .error f => .error f
          | .ok conn =>
            let s3 := { s2 with
              connectors := store s2.connectors connector { conn with active_lease := none } }
            match l.device with
            | none => .error .null_deref
            | some device =>
              match deref s3.devices device with
              | .error f => .error f
              | .ok dev => send_to_bound env connector dev.resources s3

/-! ## Destroying resources -/

/-- The heap after `free(p)` for a nullable `p`: `free(NULL)` does nothing,
and freeing what is not allocated is a fault. -/
def free {α : Type} (h : List (Option α)) (p : Option Ptr) :
    Except Fault (List (Option α)) :=
  match p with
  | none => .ok h
  | some q =>
    match deref h q with
    | .error f => .error f
    | .ok _ => .ok (release h q)

/-- The function `drm_lease_v1_destroy`. -/
def drm_lease_v1_destroy (env : Env) (s : State) (lease : Ptr) :
    Except Fault State :=
  match wlr_drm_lease_v1_revoke env s lease with
  | .error f => .error f
  | .ok s1 =>
    match free s1.leases (some lease) with
    | .error f => .error f
    | .ok h => .ok { s1 with leases := h }

/-- The function `drm_lease_v1_handle_resource_destroy`. -/
def drm_lease_v1_handle_resource_destroy (env : Env) (s : State) (resource : Ptr) :
    Except Fault State :=
  match from_resource .lease s resource with
  | .error f => .error f
  | .ok none => .error .null_deref
  | .ok (some lease) =>
    let s1 := unlink_resource resource s
    match deref s1.leases lease with
    | .error f => .error f
    | .ok l =>
      drm_lease_v1_destroy env
        { s1 with leases := store s1.leases lease { l with resource := none } } lease

/-- The function `drm_lease_request_v1_destroy`. -/
def drm_lease_request_v1_destroy (s : State) (req : Option Ptr) :
    Except Fault State :=
  match req with
  | none => .ok s
  | some r =>
    match deref s.requests r with
    | .error f => .error f
    | .ok rq =>
      match free s.connectors rq.connector with
      | .error f => .error f
      | .ok h =>
        let s1 := { s with connectors := h }
        match free s1.requests (some r) with
        | .error f => .error f
        | .ok h1 => .ok { s1 with requests := h1 }

/-- The function `drm_lease_request_v1_handle_resource_destroy`. -/
def drm_lease_request_v1_handle_resource_destroy (s : State) (resource : Ptr) :
    Except Fault State :=
  match from_resource .request s resource with
  | .error f => .error f
  | .ok req =>
    match drm_lease_request_v1_destroy s req with
    | .error f => .error f
    | .ok s1 => .ok (unlink_resource resource s1)

/-- The function `drm_lease_device_v1_handle_resource_destroy`. -/
def drm_lease_device_v1_handle_resource_destroy (s : State) (resource : Ptr) : State :=
  unlink_resource resource s

/-- The function `drm_connector_v1_handle_resource_destroy`. -/
def drm_connector_v1_handle_resource_destroy (s : State) (resource : Ptr) : State :=
  unlink_resource resource s

/-- The library function `wl_resource_destroy`: run the destroy callback the
resource was given by `wl_resource_set_implementation`, then free it. The
functions `drm_lease_v1_handle_destroy` and `drm_connector_v1_handle_destroy`
are this call. -/
def wl_resource_destroy (env : Env) (s : State) (resource : Ptr) :
    Except Fault State :=
  match deref s.resources resource with
  | .error f => .error f
  | .ok r =>
    let destroyed : Except Fault State :=
      match r.iface with
      | .device => .ok (drm_lease_device_v1_handle_resource_destroy s resource)
      | .connector => .ok (drm_connector_v1_handle_resource_destroy s resource)
      | .request => drm_lease_request_v1_handle_resource_destroy s resource
      | .lease => drm_lease_v1_handle_resource_destroy env s resource
    match destroyed with
    | .error f => .error f
    | .ok s1 =>
      match free s1.resources (some resource) with
      | .error f => .error f
      | .ok h => .ok { s1 with resources := h }

/-! ## Requests from clients -/

/-- The function `drm_lease_request_v1_handle_request_connector`. -/
def drm_lease_request_v1_handle_request_connector (s : State)
    (request_resource connector_resource : Ptr) : Except Fault State :=
  match from_resource .request s request_resource,
      from_resource .connector s connector_resource with
  | .error f, _ => .error f
  | _, .error f => .error f
  | .ok none, _ => .error .null_deref
  | .ok (some request), .ok connector =>
    match deref s.requests request with
    | .error f => .error f
    | .ok req =>
      match connector with
      | none =>
        .ok { s with requests := store s.requests request { req with invalid := true } }
      | some c =>
        .ok { s with requests := store s.requests request { req with connector := some c } }

/-- The function `drm_lease_request_v1_handle_submit`. The listener of the
compositor on the manager's `request` signal is the parameter `handler`; it
runs where `wlr_signal_emit_safe` is called and is given the request. -/
def drm_lease_request_v1_handle_submit (env : Env)
    (handler : State → Ptr → Except Fault State)
    (s : State) (client resource : Ptr) : Except Fault State :=
  match from_resource .request s resource with
  | .error f => .error f
  | .ok request =>
    if env.calloc_ok = false then
      post_event s (some resource) .resource_no_memory
    else
      let lease := s.leases.length
      let s1 := { s with
        leases := alloc s.leases
          { resource := none, device := none, connector := none, lessee_id := 0 } }
      if env.wl_resource_ok = false then
        match post_event s1 (some resource) .resource_no_memory with
        | .error f => .error f
        | .ok s2 => .ok { s2 with leases := release s2.leases lease }
      else
        let wl_resource := s1.resources.length
        let s2 := { s1 with
          resources := alloc s1.resources
            { iface := .lease, client := client, user_data := none } }
        match request with
        | none => .error .null_deref
        | some rq =>
          match deref s2.requests rq with
          | .error f => .error f
          | .ok req =>
            let l : Lease :=
              { resource := some wl_resource, device := req.device,
                connector := none, lessee_id := 0 }
            let s3 := { s2 with
              leases := store s2.leases lease l,
              requests := store s2.requests rq { req with lease := some lease } }
            match req.device with
            | none => .error .null_deref
            | some device =>
              match deref s3.devices device with
              | .error f => .error f
              | .ok dev =>
                let s4 := { s3 with
                  devices := store s3.devices device
                    { dev with leases := wl_resource :: dev.leases },
                  resources := store s3.resources wl_resource
                    { iface := .lease, client := client, user_data := some lease } }
                let req1 : Request := { req with lease := some lease }
                let decided : Except Fault State :=
                  match invalid_or_leased s4 req1 with
                  | .error f => .error f
                  | .ok true => post_event s4 l.resource .lease_finished
                  | .ok false =>
                    match dev.manager with
                    | none => .error .null_deref
                    | some manager =>
                      match deref s4.managers manager with
                      | .error f => .error f
                      | .ok _ =>
                        handler
                          { s4 with events := s4.events ++ [.request_signal manager rq] } rq
                match decided with
                | .error f => .error f
                | .ok s5 => wl_resource_destroy env s5 resource

/-- The function `drm_lease_device_v1_handle_stop`. -/
def drm_lease_device_v1_handle_stop (env : Env) (s : State) (resource : Ptr) :
    Except Fault State :=
  match post_event s (some resource) .device_finished with
  | .error f => .error f
  | .ok s1 => wl_resource_destroy env s1 resource

/-- The function `drm_lease_device_v1_handle_create_lease_request`. -/
def drm_lease_device_v1_handle_create_lease_request (env : Env) (s : State)
    (client resource : Ptr) : Except Fault State :=
  match from_resource .device s resource with
  | .error f => .error f
  | .ok device =>
    if env.calloc_ok = false then
      post_event s (some resource) .resource_no_memory
    else
      let req := s.requests.length
      let s1 := { s with
        requests := alloc s.requests
          { resource := none, device := none, connector := none, invalid := false,
            lease := none } }
      if env.wl_resource_ok = false then
        match post_event s1 (some resource) .resource_no_memory with
        | .error f => .error f
        | .ok s2 => .ok { s2 with requests := release s2.requests req }
      else
        let wl_resource := s1.resources.length
        let s2 := { s1 with
          resources := alloc s1.resources
            { iface := .request, client := client, user_data := some req },
          requests := store s1.requests req
            { resource := some wl_resource, device := device, connector := none,
              invalid := false, lease := none } }
        match device with
        | none => .error .null_deref
        | some d =>
          match deref s2.devices d with
          | .error f => .error f
          | .ok dev =>
            .ok { s2 with
              devices := store s2.devices d
                { dev with requests := wl_resource :: dev.requests } }

/-- The loop `wl_list_for_each(connector, &device->connectors, link)` of
`lease_device_bind`. -/
def send_connectors (env : Env) (wl_client wl_resource : Ptr) :
    List Ptr → State → Except Fault State
  | [], s => .ok s
  | connector :: rest, s =>
    match drm_lease_connector_v1_send_to_client env s connector wl_client wl_resource with
    | .error f => .error f
    | .ok s1 => send_connectors env wl_client wl_resource rest s1

/-- The function `lease_device_bind`; `data` is the device the global was
created for. -/
def lease_device_bind (env : Env) (s : State) (wl_client : Ptr) (data : Ptr) :
    Except Fault State :=
  if env.wl_resource_ok = false then
    .ok { s with events := s.events ++ [.client_no_memory wl_client] }
  else
    let wl_resource := s.resources.length
    let s1 := { s with
      resources := alloc s.resources
        { iface := .device, client := wl_client, user_data := some data } }
    match deref s1.devices data with
    | .error f => .error f
    | .ok dev =>
      let cloned : Except Fault State :=
        if env.open_fd < 0 then .ok s1
        else if env.is_master then .error (.assertion "Won't send master fd to client")
        else .ok { s1 with
          events := s1.events ++ [.drm_fd wl_resource env.open_fd, .close env.open_fd] }
      match cloned with
      | .error f => .error f
      | .ok s2 =>
        send_connectors env wl_client wl_resource dev.connectors
          { s2 with
            devices := store s2.devices data
              { dev with resources := wl_resource :: dev.resources } }

/-! ## Offering and withdrawing outputs -/

/-- The loop
`wl_list_for_each(device, &manager->devices, link) { if (backend == drm_connector->backend) break; }`
of `wlr_drm_lease_manager_offer_output` and
`wlr_drm_lease_manager_withdraw_output`, where `backend` is
`get_drm_backend_from_backend(device->backend)`. The result is the value of
`device` after the loop. -/
def find_device (s : State) (backend : Ptr) : List Ptr → Except Fault Cursor
  | [] => .ok .head
  | d :: rest =>
    match deref s.devices d with
    | .error f => .error f
    | .ok dev => if dev.backend = backend then .ok (.elem d) else find_device s backend rest

/-- The loop of `wlr_drm_lease_manager_offer_output` that looks for a
connector of the device wrapping the output: `true` when the loop returns
false from the function. -/
def connector_exists (s : State) (output : Ptr) : List Ptr → Except Fault Bool
  | [] => .ok false
  | c :: rest =>
    match deref s.connectors c with
    | .error f => .error f
    | .ok conn => if conn.output.ptr = output then .ok true else connector_exists s output rest

/-- The function `wlr_drm_lease_manager_offer_output`. The `Output` type holds
DRM outputs only, which is what the second `assert` asks for. After the device
loop the variable `device` is never `NULL` (see `Cursor`), so the branch
`if (!device) return false` is not taken; when no device matched, the
connector loop reads `device->connectors` through the address computed from
the list head. -/
def wlr_drm_lease_manager_offer_output (env : Env) (s : State) (manager : Ptr)
    (output : Output) : Except Fault (State × Bool) :=
  match deref s.managers manager with
  | .error f => .error f
  | .ok m =>
    match find_device s output.backend m.devices with
    | .error f => .error f
    | .ok .head => .error .invalid_pointer
    | .ok (.elem device) =>
      match deref s.devices device with
      | .error f => .error f
      | .ok dev =>
        match connector_exists s output.ptr dev.connectors with
        | .error f => .error f
        | .ok true => .ok (s, false)
        | .ok false =>
          if env.calloc_ok = false then .ok (s, false)
          else
            let connector := s.connectors.length
            let s1 := { s with
              connectors := alloc s.connectors
                { resources := [], output := output, active_lease := none },
              devices := store s.devices device
                { dev with connectors := connector :: dev.connectors } }
            match send_to_bound env connector dev.resources s1 with
            | .error f => .error f
            | .ok s2 => .ok (s2, true)

/-- The loop of `wlr_drm_lease_manager_withdraw_output` that looks for the
connector of the output; the result is the value of `connector` after it. -/
def find_connector (s : State) (output : Ptr) : List Ptr → Except Fault (Option Ptr)
  | [] => .ok none
  | c :: rest =>
    match deref s.connectors c with
    | .error f => .error f
    | .ok conn => if conn.output.ptr = output then .ok (some c) else find_connector s output rest

/-- The loop `wl_resource_for_each(wl_resource, &device->requests)` of
`wlr_drm_lease_manager_withdraw_output`. -/
def invalidate_requests : List Ptr → State → Except Fault State
  | [], s => .ok s
  | wl_resource :: rest, s =>
    match from_resource .request s wl_resource with
    | .error f => .error f
    | .ok none => .error .null_deref
    | .ok (some request) =>
      match deref s.requests request with
      | .error f => .error f
      | .ok req =>
        invalidate_requests rest
          { s with requests := store s.requests request { req with invalid := true } }

/-- The function `wlr_drm_lease_manager_withdraw_output`. -/
def wlr_drm_lease_manager_withdraw_output (s : State) (manager : Ptr)
    (output : Output) : Except Fault State :=
  match deref s.managers manager with
  | .error f => .error f
  | .ok m =>
    match find_device s output.backend m.devices with
    | .error f => .error f
    | .ok .head => .error .invalid_pointer
    | .ok (.elem device) =>
      match deref s.devices device with
      | .error f => .error f
      | .ok dev =>
        match find_connector s output.ptr dev.connectors with
        | .error f => .error f
        | .ok none => .ok s
        | .ok (some connector) =>
          match deref s.connectors connector with
          | .error f => .error f
          | .ok conn =>
            if conn.active_lease.isSome then
              .error (.assertion "Cannot withdraw a leased output")
            else
              match withdraw_resources connector conn.resources s with
              | .error f => .error f
              | .ok s1 =>
                match deref s1.devices device with
                | .error f => .error f
                | .ok dev1 =>
                  match invalidate_requests dev1.requests s1 with
                  | .error f => .error f
                  | .ok s2 =>
                    let s3 := { s2 with devices := unlink_connector connector s2.devices }
                    match free s3.connectors (some connector) with
                    | .error f => .error f
                    | .ok h => .ok { s3 with connectors := h }

/-! ## Creating the manager -/

/-- A `struct wlr_backend` as `wlr_drm_lease_manager_create` sees it: its
address, the answers of `wlr_backend_is_multi` and `wlr_backend_is_drm`, and,
for a multi backend, the address and `wlr_backend_is_drm` of each backend that
`wlr_multi_for_each_backend` visits, in order. -/
structure Backend where
  ptr : Ptr
  is_multi : Bool
  is_drm : Bool
  children : List (Ptr × Bool)
  deriving DecidableEq, Repr

/-- The function `drm_lease_device_v1_create`; the result is the new state and
the returned device pointer. The global is not modelled beyond being there. -/
def drm_lease_device_v1_create (env : Env) (s : State) (backend : Ptr) :
    State × Option Ptr :=
  if env.device_calloc_ok backend = false then (s, none)
  else
    let lease_device := s.devices.length
    let dev : Device :=
      { resources := [], global := none, manager := none, backend := backend,
        connectors := [], leases := [], requests := [] }
    if env.global_ok backend = false then
      ({ s with devices := release (alloc s.devices dev) lease_device }, none)
    else
      ({ s with devices := alloc s.devices { dev with global := some lease_device } },
        some lease_device)

/-- The function `multi_backend_cb`, with `data->manager` as `manager`. -/
def multi_backend_cb (env : Env) (manager : Ptr) (s : State) (backend : Ptr × Bool) :
    Except Fault State :=
  if backend.2 = false then .ok s
  else
    match drm_lease_device_v1_create env s backend.1 with
    | (_, none) => .error .null_deref
    | (s1, some device) =>
      match deref s1.devices device, deref s1.managers manager with
      | .error f, _ => .error f
      | _, .error f => .error f
      | .ok dev, .ok m =>
        .ok { s1 with
          devices := store s1.devices device { dev with manager := some manager },
          managers := store s1.managers manager { m with devices := device :: m.devices } }

/-- The library function `wlr_multi_for_each_backend` applied to
`multi_backend_cb`. -/
def wlr_multi_for_each_backend (env : Env) (manager : Ptr) :
    List (Ptr × Bool) → State → Except Fault State
  | [], s => .ok s
  | b :: rest, s =>
    match multi_backend_cb env manager s b with
    | .error f => .error f
    | .ok s1 => wlr_multi_for_each_backend env manager rest s1

/-- The function `wlr_drm_lease_manager_create`; the result is the new state
and the returned manager pointer. -/
def wlr_drm_lease_manager_create (env : Env) (s : State) (backend : Backend) :
    Except Fault (State × Option Ptr) :=
  if env.calloc_ok = false then .ok (s, none)
  else
    let manager := s.managers.length
    let s1 := { s with managers := alloc s.managers { devices := [] } }
    if backend.is_multi then
      match wlr_multi_for_each_backend env manager backend.children s1 with
      | .error f => .error f
      | .ok s2 => .ok (s2, some manager)
    else if backend.is_drm then
      match drm_lease_device_v1_create env s1 backend.ptr with
      | (_, none) => .error .null_deref
      | (s2, some device) =>
        match deref s2.managers manager with
        | .error f => .error f
        | .ok m =>
          .ok ({ s2 with
            managers := store s2.managers manager { m with devices := device :: m.devices } },
            some manager)
    else
      .ok ({ s1 with managers := release s1.managers manager }, none)

/-! ## Sequences of operations -/

/-- What the compositor's listener on the `request` signal does with the
request it is given. -/
inductive Decision where
  | grant
  | reject
  | ignore
  deriving DecidableEq, Repr

/-- The listener that carries out a decision. -/
def listener (env : Env) (d : Decision) (s : State) (request : Ptr) :
    Except Fault State :=
  match d with
  | .grant =>
    match wlr_drm_lease_request_v1_grant env s request with
    | .error f => .error f
    | .ok r => .ok r.1
  | .reject => wlr_drm_lease_request_v1_reject s request
  | .ignore => .ok s

/-- One step of the system: a call of the compositor into the public
functions, or a request of a client. -/
inductive Op where
  | offer_output (manager : Ptr) (output : Output)
  | withdraw_output (manager : Ptr) (output : Output)
  | bind (client : Ptr) (device : Ptr)
  | create_lease_request (client : Ptr) (resource : Ptr)
  | request_connector (request_resource : Ptr) (connector_resource : Ptr)
  | submit (client : Ptr) (resource : Ptr) (decision : Decision)
  | grant (request : Ptr)
  | reject (request : Ptr)
  | revoke (lease : Ptr)
  | destroy (resource : Ptr)
  deriving DecidableEq, Repr

/-- Run one step. -/
def exec (env : Env) (s : State) : Op → Except Fault State
  | .offer_output manager output =>
    match wlr_drm_lease_manager_offer_output env s manager output with
    | .error f => .error f
    | .ok r => .ok r.1
  | .withdraw_output manager output => wlr_drm_lease_manager_withdraw_output s manager output
  | .bind client device => lease_device_bind env s client device
  | .create_lease_request client resource =>
    drm_lease_device_v1_handle_create_lease_request env s client resource
  | .request_connector request_resource connector_resource =>
    drm_lease_request_v1_handle_request_connector s request_resource connector_resource
  | .submit client resource decision =>
    drm_lease_request_v1_handle_submit env (listener env decision) s client resource
  | .grant request =>
    match wlr_drm_lease_request_v1_grant env s request with
    | .error f => .error f
    | .ok r => .ok r.1
  | .reject request => wlr_drm_lease_request_v1_reject s request
  | .revoke lease => wlr_drm_lease_v1_revoke env s lease
  | .destroy resource => wl_resource_destroy env s resource

/-- Run a sequence of steps, stopping at the first fault. -/
def run (env : Env) : List Op → State → Except Fault State
  | [], s => .ok s
  | op :: rest, s =>
    match exec env s op with
    | .error f => .error f
    | .ok s1 => run env rest s1


/-! ## Vocabulary for the statements -/

/-- Whether a pointer can be read through. -/
def is_live {α : Type} (h : List (Option α)) (p : Ptr) : Bool :=
  match deref h p with
  | .ok _ => true
  | .error _ => false

/-- The four events that announce a connector wrapping `o` to the client
behind the device resource `device`, through the new connector resource
`resource`. -/
def announcement (o : Output) (device resource : Ptr) : List Event :=
  [ .connector device resource,
    .name resource o.name,
    .description resource (description o),
    .connector_id resource o.id ]

/-- One announcement per device resource of the list, in order, the new
connector resources being `base`, `base + 1`, ... -/
def announcements (o : Output) : Nat → List Ptr → List Event
  | _, [] => []
  | base, device :: rest => announcement o device base ++ announcements o (base + 1) rest

/-- What `withdraw_resources connector rs` makes of a state `s` in which the
connector is `c`. -/
structure Withdrawn (connector : Ptr) (rs : List Ptr) (c : Connector) (s s1 : State) :
    Prop where
  events : s1.events = s.events ++ rs.map Event.withdrawn
  target : deref s1.connectors connector =
    .ok { c with resources := c.resources.filter (fun x => decide (x ∉ rs)) }
  others : ∀ p, p ≠ connector → deref s1.connectors p = deref s.connectors p
  connectors_length : s1.connectors.length = s.connectors.length
  leases : s1.leases = s.leases
  requests : s1.requests = s.requests
  devices : s1.devices = s.devices
  managers : s1.managers = s.managers
  resources_length : s1.resources.length = s.resources.length
  resources : ∀ p, p ∉ rs → deref s1.resources p = deref s.resources p
  live : ∀ p, is_live s.resources p = true → is_live s1.resources p = true
  cleared : ∀ r ∈ rs, ∀ x, deref s.resources r = .ok x →
    deref s1.resources r = .ok { x with user_data := none }

/-- What `send_to_bound env connector rs` makes of a state `s` in which the
connector is `c`, when every allocation succeeds. -/
structure Announced (connector : Ptr) (rs : List Ptr) (c : Connector) (s s1 : State) :
    Prop where
  events : s1.events = s.events ++ announcements c.output s.resources.length rs
  target : deref s1.connectors connector =
    .ok { c with
      resources := (List.range' s.resources.length rs.length).reverse ++ c.resources }
  others : ∀ p, p ≠ connector → deref s1.connectors p = deref s.connectors p
  connectors_length : s1.connectors.length = s.connectors.length
  leases : s1.leases = s.leases
  requests : s1.requests = s.requests
  devices : s1.devices = s.devices
  managers : s1.managers = s.managers
  resources_length : s1.resources.length = s.resources.length + rs.length
  resources : ∀ p, p < s.resources.length → deref s1.resources p = deref s.resources p
  handles : ∀ i r x, rs[i]? = some r → deref s.resources r = .ok x →
    deref s1.resources (s.resources.length + i) =
      .ok { iface := .connector, client := x.client, user_data := some connector }

/-- What a successful `wlr_drm_lease_request_v1_grant` makes of a state `s`:
`connector` is the target, `conn` its contents before the call, `lease` the
lease of the request, `l` its contents before the call, `res` its resource,
`backend` the backend of the request's device, and `fd`, `k` the answer of
the backend. -/
structure Granted (connector : Ptr) (conn : Connector) (lease : Ptr) (l : Lease)
    (res backend : Ptr) (fd : Int) (k : Nat) (s s1 : State) : Prop where
  events : s1.events = s.events ++ [Event.create_lease backend conn.output.ptr] ++
    conn.resources.map Event.withdrawn ++ [Event.lease_fd res fd, Event.close fd]
  target : deref s1.connectors connector =
    .ok { conn with resources := [], active_lease := some lease }
  others : ∀ p, p ≠ connector → deref s1.connectors p = deref s.connectors p
  connectors_length : s1.connectors.length = s.connectors.length
  granted : deref s1.leases lease = .ok { l with lessee_id := k, connector := some connector }
  other_leases : ∀ p, p ≠ lease → deref s1.leases p = deref s.leases p
  requests : s1.requests = s.requests
  devices : s1.devices = unlink_connector connector s.devices
  managers : s1.managers = s.managers
  resources_length : s1.resources.length = s.resources.length
  resources : ∀ p, p ∉ conn.resources → deref s1.resources p = deref s.resources p
  live : ∀ p, is_live s.resources p = true → is_live s1.resources p = true
  cleared : ∀ r ∈ conn.resources, ∀ x, deref s.resources r = .ok x →
    deref s1.resources r = .ok { x with user_data := none }

/-- What `wlr_drm_lease_v1_revoke` sends before it touches the connector:
`finished` to the lease resource when there is one, and the call of
`wlr_drm_backend_terminate_lease` when the lessee id is not zero. -/
def revoke_notices (l : Lease) (backend : Ptr) : List Event :=
  (match l.resource with
    | some r => [Event.lease_finished r]
    | none => []) ++
  (if l.lessee_id ≠ 0 then [Event.terminate_lease backend l.lessee_id] else [])

/-! ## A worked scenario

One DRM backend at address 9 inside a multi backend, the output `DP-1`, two
clients. The states below are the ones the scenario goes through; they serve
as concrete inputs. -/

/-- Surroundings in which every allocation succeeds and the backend grants
every lease with file descriptor 7 and lessee id 5. -/
def demo_env : Env :=
  { calloc_ok := true
    wl_resource_ok := true
    resource_ok := fun _ _ => true
    create_lease := fun _ _ _ => (7, 5)
    open_fd := 3
    is_master := false
    device_calloc_ok := fun _ => true
    global_ok := fun _ => true }

/-- The output `DP-1` of the backend at address 9. -/
def demo_output : Output :=
  { ptr := 100, name := [68, 80, 45, 49], make := [65], model := [66], serial := [67],
    id := 42, backend := 9 }

/-- A multi backend whose only child is the DRM backend at address 9. -/
def demo_backend : Backend :=
  { ptr := 50, is_multi := true, is_drm := false, children := [(9, true)] }

/-- The state after `wlr_drm_lease_manager_create` for `demo_backend`. -/
def demo_created : State :=
  { managers := [some { devices := [0] }],
    devices := [some { resources := [], global := some 0, manager := some 0, backend := 9,
                       connectors := [], leases := [], requests := [] }],
    connectors := [], requests := [], leases := [], resources := [], events := [] }

/-- The steps up to the submit of the first client's request: the output is
offered, clients 1 and 2 bind, client 1 creates a request and targets the
connector. -/
def demo_steps : List Op :=
  [ .offer_output 0 demo_output, .bind 1 0, .bind 2 0, .create_lease_request 1 0,
    .request_connector 4 1 ]

/-- What has been sent by the end of `demo_steps`. -/
def demo_history : List Event :=
  [ .drm_fd 0 3, .close 3,
    .connector 0 1, .name 1 [68, 80, 45, 49],
    .description 1 [65, 32, 66, 32, 67, 32, 40, 68, 80, 45, 49, 41], .connector_id 1 42,
    .drm_fd 2 3, .close 3,
    .connector 2 3, .name 3 [68, 80, 45, 49],
    .description 3 [65, 32, 66, 32, 67, 32, 40, 68, 80, 45, 49, 41], .connector_id 3 42 ]

/-- The five resources at the end of `demo_steps`: the two device resources,
the two connector resources and the request resource. -/
def demo_resources : List (Option Resource) :=
  [ some { iface := .device, client := 1, user_data := some 0 },
    some { iface := .connector, client := 1, user_data := some 0 },
    some { iface := .device, client := 2, user_data := some 0 },
    some { iface := .connector, client := 2, user_data := some 0 },
    some { iface := .request, client := 1, user_data := some 0 } ]

/-- The connector of `DP-1` while it is offered to both clients. -/
def demo_connector : Connector :=
  { resources := [3, 1], output := demo_output, active_lease := none }

/-- The state after `demo_steps`. -/
def demo_targeted : State :=
  { managers := [some { devices := [0] }],
    devices := [some { resources := [2, 0], global := some 0, manager := some 0,
                       backend := 9, connectors := [0], leases := [], requests := [4] }],
    connectors := [some demo_connector],
    requests := [some { resource := some 4, device := some 0, connector := some 0,
                        invalid := false, lease := none }],
    leases := [],
    resources := demo_resources,
    events := demo_history }

/-- The device while the request of client 1 is being submitted. -/
def demo_device : Device :=
  { resources := [2, 0], global := some 0, manager := some 0, backend := 9,
    connectors := [0], leases := [5], requests := [4] }

/-- The request of client 1 once submitted. -/
def demo_request : Request :=
  { resource := some 4, device := some 0, connector := some 0, invalid := false,
    lease := some 0 }

/-- The lease of client 1 before any decision. -/
def demo_lease : Lease :=
  { resource := some 5, device := some 0, connector := none, lessee_id := 0 }

/-- The state in which the listener on the `request` signal is called for the
request of client 1. -/
def demo_submitted : State :=
  { managers := [some { devices := [0] }],
    devices := [some demo_device],
    connectors := [some demo_connector],
    requests := [some demo_request],
    leases := [some demo_lease],
    resources := demo_resources ++ [some { iface := .lease, client := 1, user_data := some 0 }],
    events := demo_history ++ [.request_signal 0 0] }

/-- The contents of the connector of `DP-1` while leased to client 1. -/
def demo_leased_connector : Connector :=
  { resources := [], output := demo_output, active_lease := some 0 }

/-- A state in which connector 0 is leased through lease 0 and another
submitted request, request 1 with lease 1, targets the same connector. -/
def demo_contended : State :=
  { managers := [some { devices := [0] }],
    devices := [some { resources := [2, 0], global := some 0, manager := some 0,
                       backend := 9, connectors := [], leases := [7, 5], requests := [6] }],
    connectors := [some demo_leased_connector],
    requests := [none,
                 some { resource := some 6, device := some 0, connector := some 0,
                        invalid := false, lease := some 1 }],
    leases := [some { resource := some 5, device := some 0, connector := some 0,
                      lessee_id := 5 },
               some { resource := some 7, device := some 0, connector := none,
                      lessee_id := 0 }],
    resources :=
      [ some { iface := .device, client := 1, user_data := some 0 },
        some { iface := .connector, client := 1, user_data := none },
        some { iface := .device, client := 2, user_data := some 0 },
        some { iface := .connector, client := 2, user_data := none },
        none,
        some { iface := .lease, client := 1, user_data := some 0 },
        some { iface := .request, client := 2, user_data := some 1 },
        some { iface := .lease, client := 2, user_data := some 1 } ],
    events := [] }

/-- Surroundings like `demo_env`, except that the backend refuses every lease:
`wlr_drm_backend_create_lease` returns -1 and leaves `*lessee_id` alone. -/
def demo_env_refused : Env :=
  { demo_env with create_lease := fun _ _ old => (-1, old) }

/-- Surroundings like `demo_env`, except that the backend answers with lessee
id 0 and that no connector resource can be allocated for the client behind
device resource 2. -/
def demo_env_zero : Env :=
  { demo_env with
    create_lease := fun _ _ _ => (7, 0)
    resource_ok := fun _ device => decide (device ≠ 2) }

/-- The device once the connector has been granted away. -/
def demo_device_granted : Device :=
  { resources := [2, 0], global := some 0, manager := some 0, backend := 9,
    connectors := [], leases := [5], requests := [4] }

/-- The lease of client 1 once granted. -/
def demo_lease_granted : Lease :=
  { resource := some 5, device := some 0, connector := some 0, lessee_id := 5 }

/-- The state after the grant of the request of client 1 in `demo_submitted`,
before the listener returns. -/
def demo_granted : State :=
  { managers := [some { devices := [0] }],
    devices := [some demo_device_granted],
    connectors := [some demo_leased_connector],
    requests := [some demo_request],
    leases := [some demo_lease_granted],
    resources :=
      [ some { iface := .device, client := 1, user_data := some 0 },
        some { iface := .connector, client := 1, user_data := none },
        some { iface := .device, client := 2, user_data := some 0 },
        some { iface := .connector, client := 2, user_data := none },
        some { iface := .request, client := 1, user_data := some 0 },
        some { iface := .lease, client := 1, user_data := some 0 } ],
    events := demo_history ++
      [ .request_signal 0 0, .create_lease 9 100, .withdrawn 3, .withdrawn 1,
        .lease_fd 5 7, .close 7 ] }

/-- A second output, `HDMI-A-1`, of the backend at address 9. -/
def demo_output2 : Output :=
  { ptr := 101, name := [72, 68, 77, 73, 45, 65, 45, 49], make := [68], model := [69],
    serial := [70], id := 43, backend := 9 }

/-- An output of a DRM backend at address 10, for which the manager has no
device. -/
def demo_foreign_output : Output :=
  { ptr := 102, name := [68, 80, 45, 50], make := [65], model := [66], serial := [71],
    id := 44, backend := 10 }

/-- A multi backend without any child. -/
def demo_no_drm : Backend :=
  { ptr := 51, is_multi := true, is_drm := false, children := [] }

/-- The state after `wlr_drm_lease_manager_create` for `demo_no_drm`: a
manager with an empty device list. -/
def demo_no_device : State :=
  { State.empty with managers := [some { devices := [] }] }

/-- Surroundings like `demo_env`, except that `calloc` fails. -/
def demo_env_oom : Env :=
  { demo_env with calloc_ok := false }

/-- The state after `DP-1` has been offered in `demo_created`. -/
def demo_offered : State :=
  { demo_created with
    devices := [some { resources := [], global := some 0, manager := some 0, backend := 9,
                       connectors := [0], leases := [], requests := [] }],
    connectors := [some { resources := [], output := demo_output, active_lease := none }] }

/-! ## Backend destruction -/

/-- A loop `wl_resource_for_each_safe(resource, tmp_resource, head)` around
`wl_resource_destroy(resource)`, as it stands twice in
`handle_backend_destroy`; the list is the content of `head` when the loop
starts. -/
def destroy_resources (env : Env) : List Ptr → State → Except Fault State
  | [], s => .ok s
  | resource :: rest, s =>
    match wl_resource_destroy env s resource with
    | .error f => .error f
    | .ok s1 => destroy_resources env rest s1

/-- The loop of `handle_backend_destroy` over `device->leases` that revokes
every lease. -/
def revoke_leases (env : Env) : List Ptr → State → Except Fault State
  | [], s => .ok s
  | resource :: rest, s =>
    match from_resource .lease s resource with
    | .error f => .error f
    | .ok none => .error (.assertion "lease")
    | .ok (some lease) =>
      match wlr_drm_lease_v1_revoke env s lease with
      | .error f => .error f
      | .ok s1 => revoke_leases env rest s1

/-- The loop of `handle_backend_destroy` over `device->connectors` that
unlinks and frees every connector. -/
def free_connectors : List Ptr → State → Except Fault State
  | [], s => .ok s
  | connector :: rest, s =>
    match free s.connectors (some connector) with
    | .error f => .error f
    | .ok h =>
      free_connectors rest
        { s with devices := unlink_connector connector s.devices, connectors := h }

/-- The function `handle_backend_destroy`, for the device whose
`backend_destroy` listener is called. Each list is read from the device when
its loop starts. -/
def handle_backend_destroy (env : Env) (s : State) (device : Ptr) : Except Fault State :=
  match deref s.devices device with
  | .error f => .error f
  | .ok dev =>
    match destroy_resources env dev.resources s with
    | .error f => .error f
    | .ok s1 =>
      match deref s1.devices device with
      | .error f => .error f
      | .ok dev1 =>
        match destroy_resources env dev1.requests s1 with
        | .error f => .error f
        | .ok s2 =>
          match deref s2.devices device with
          | .error f => .error f
          | .ok dev2 =>
            match revoke_leases env dev2.leases s2 with
            | .error f => .error f
            | .ok s3 =>
              match deref s3.devices device with
              | .error f => .error f
              | .ok dev3 =>
                match free_connectors dev3.connectors s3 with
                | .error f => .error f
                | .ok s4 =>
                  match free s4.devices (some device) with
                  | .error f => .error f
                  | .ok h => .ok { s4 with devices := h }

/-! ## More vocabulary -/

/-- The request behind a request resource, when the resource can be read, has
the request interface, and points to an allocated request. -/
def request_of (s : State) (resource : Ptr) : Option Ptr :=
  match from_resource .request s resource with
  | .ok (some request) => if is_live s.requests request then some request else none
  | _ => none

/-- The state in `drm_lease_request_v1_handle_submit` once the new lease and
its resource are set up and linked, before the request is looked at:
`request` is the request behind the submitted resource, `req` its contents
and `dev` the contents of its device `device`. The new lease is at
`s.leases.length` and its resource at `s.resources.length`. -/
def submitted (s : State) (client request device : Ptr) (req : Request) (dev : Device) :
    State :=
  { s with
    leases := alloc s.leases
      { resource := some s.resources.length, device := req.device, connector := none,
        lessee_id := 0 },
    requests := store s.requests request { req with lease := some s.leases.length },
    devices := store s.devices device
      { dev with leases := s.resources.length :: dev.leases },
    resources := alloc s.resources
      { iface := .lease, client := client, user_data := some s.leases.length } }

/-! ## More of the worked scenario -/

/-- The state after `demo_steps` followed by the submit of the request of
client 1, when the listener grants: the lease is lease 0, the request and its
connector are freed. -/
def demo_leased : State :=
  { managers := [some { devices := [0] }],
    devices := [some { resources := [2, 0], global := some 0, manager := some 0,
                       backend := 9, connectors := [], leases := [5], requests := [] }],
    connectors := [none],
    requests := [none],
    leases := [some demo_lease_granted],
    resources :=
      [ some { iface := .device, client := 1, user_data := some 0 },
        some { iface := .connector, client := 1, user_data := none },
        some { iface := .device, client := 2, user_data := some 0 },
        some { iface := .connector, client := 2, user_data := none },
        none,
        some { iface := .lease, client := 1, user_data := some 0 } ],
    events := demo_granted.events }

/-- A run in which the request of client 1 goes stale: the output is offered,
client 1 binds and creates a request, the output is withdrawn, and the client
then targets the withdrawn connector handle and submits; the listener would
grant. -/
def demo_stale_steps : List Op :=
  [ .offer_output 0 demo_output, .bind 1 0, .create_lease_request 1 0,
    .withdraw_output 0 demo_output, .request_connector 2 1, .submit 1 2 .grant ]

/-- A multi backend whose only child, at address 11, is not a DRM backend. -/
def demo_multi_other : Backend :=
  { ptr := 52, is_multi := true, is_drm := false, children := [(11, false)] }

/-- A single backend that is not a DRM backend. -/
def demo_other : Backend :=
  { ptr := 53, is_multi := false, is_drm := false, children := [] }

/-- The state after `handle_backend_destroy` for device 0 in `demo_created`:
the device is freed and the manager's list still holds its address. -/
def demo_destroyed : State :=
  { demo_created with devices := [none] }

/-! ## Reachable states -/

/-- No connector with an active lease has a client handle. -/
def handles_hidden (connectors : List (Option Connector)) : Prop :=
  ∀ c conn, deref connectors c = .ok conn → conn.active_lease ≠ none → conn.resources = []

/-- An entry into the file: the creation of a manager, a step, the `stop`
request of a client on a device resource, or the `destroy` signal of the
backend of a device. -/
inductive Call where
  | create (backend : Backend)
  | step (op : Op)
  | stop (resource : Ptr)
  | backend_destroy (device : Ptr)
  deriving DecidableEq, Repr

/-- Run one entry. -/
def call (env : Env) (s : State) : Call → Except Fault State
  | .create backend =>
    match wlr_drm_lease_manager_create env s backend with
    | .error f => .error f
    | .ok r => .ok r.1
  | .step op => exec env s op
  | .stop resource => drm_lease_device_v1_handle_stop env s resource
  | .backend_destroy device => handle_backend_destroy env s device

/-- Run a sequence of entries, each in surroundings of its own, stopping at
the first fault. -/
def run_each : List (Env × Call) → State → Except Fault State
  | [], s => .ok s
  | (env, c) :: rest, s =>
    match call env s c with
    | .error f => .error f
    | .ok s1 => run_each rest s1

/-! ## Further scenarios -/

/-- A single DRM backend at address 9, not wrapped in a multi backend. -/
def demo_single : Backend :=
  { ptr := 9, is_multi := false, is_drm := true, children := [] }

/-- The state after `wlr_drm_lease_manager_create` for `demo_single`. -/
def demo_created_single : State :=
  { demo_created with
    devices := [some { resources := [], global := some 0, manager := none, backend := 9,
                       connectors := [], leases := [], requests := [] }] }

/-- Client 1 binds to the device on which `DP-1` is offered, creates a request
and submits it without ever targeting a connector. -/
def demo_open_steps : List Op :=
  [ .offer_output 0 demo_output, .bind 1 0, .create_lease_request 1 0, .submit 1 2 .grant ]

/-- Both outputs are offered, client 1 binds, creates a request that targets
the connector of `DP-1`, and creates a second request that targets
nothing. -/
def demo_two_steps : List Op :=
  [ .offer_output 0 demo_output, .offer_output 0 demo_output2, .bind 1 0,
    .create_lease_request 1 0, .request_connector 3 2, .create_lease_request 1 0 ]

/-- The device at the end of `demo_two_steps`. -/
def demo_two_device : Device :=
  { resources := [0], global := some 0, manager := some 0, backend := 9,
    connectors := [1, 0], leases := [], requests := [4, 3] }

/-- The connector of `HDMI-A-1` at the end of `demo_two_steps`. -/
def demo_two_connector : Connector :=
  { resources := [1], output := demo_output2, active_lease := none }

/-- The state at the end of `demo_two_steps`: connector 0 wraps `DP-1`,
connector 1 wraps `HDMI-A-1`, request 0 targets connector 0 and request 1
targets nothing. -/
def demo_two_requests : State :=
  { managers := [some { devices := [0] }],
    devices := [some demo_two_device],
    connectors :=
      [ some { resources := [2], output := demo_output, active_lease := none },
        some demo_two_connector ],
    requests :=
      [ some { resource := some 3, device := some 0, connector := some 0, invalid := false,
               lease := none },
        some { resource := some 4, device := some 0, connector := none, invalid := false,
               lease := none } ],
    leases := [],
    resources :=
      [ some { iface := .device, client := 1, user_data := some 0 },
        some { iface := .connector, client := 1, user_data := some 1 },
        some { iface := .connector, client := 1, user_data := some 0 },
        some { iface := .request, client := 1, user_data := some 0 },
        some { iface := .request, client := 1, user_data := some 1 } ],
    events :=
      [ .drm_fd 0 3, .close 3,
        .connector 0 1, .name 1 [72, 68, 77, 73, 45, 65, 45, 49],
        .description 1 [68, 32, 69, 32, 70, 32, 40, 72, 68, 77, 73, 45, 65, 45, 49, 41],
        .connector_id 1 43,
        .connector 0 2, .name 2 [68, 80, 45, 49],
        .description 2 [65, 32, 66, 32, 67, 32, 40, 68, 80, 45, 49, 41],
        .connector_id 2 42 ] }

/-! ## Lemmas about the heaps -/

theorem deref_ok_iff {α : Type} (h : List (Option α)) (p : Ptr) (a : α) :
    deref h p = .ok a ↔ h[p]? = some (some a) := by
  unfold deref
  cases hh : h[p]? with
  | none => simp
  | some x => cases x <;> simp

theorem deref_ok_lt {α : Type} {h : List (Option α)} {p : Ptr} {a : α}
    (hp : deref h p = .ok a) : p < h.length := by
  rw [deref_ok_iff] at hp
  exact (List.getElem?_eq_some.mp hp).1

theorem deref_store_self {α : Type} {h : List (Option α)} {p : Ptr} (a : α)
    (hp : p < h.length) : deref (store h p a) p = .ok a := by
  rw [deref_ok_iff]
  simp [store, List.getElem?_set, hp]

theorem deref_store_ne {α : Type} (h : List (Option α)) {p q : Ptr} (a : α)
    (hne : p ≠ q) : deref (store h p a) q = deref h q := by
  unfold deref store
  rw [List.getElem?_set_ne hne]

theorem deref_release_ne {α : Type} (h : List (Option α)) {p q : Ptr}
    (hne : p ≠ q) : deref (release h p) q = deref h q := by
  unfold deref release
  rw [List.getElem?_set_ne hne]

theorem deref_release_self {α : Type} {h : List (Option α)} {p : Ptr}
    (hp : p < h.length) : deref (release h p) p = .error .use_after_free := by
  unfold deref release
  simp [List.getElem?_set, hp]

theorem deref_alloc_lt {α : Type} {h : List (Option α)} {p : Ptr} (a : α)
    (hp : p < h.length) : deref (alloc h a) p = deref h p := by
  unfold deref alloc
  rw [List.getElem?_append_left hp]

theorem deref_alloc_new {α : Type} (h : List (Option α)) (a : α) :
    deref (alloc h a) h.length = .ok a := by
  rw [deref_ok_iff]
  simp [alloc]

theorem length_store {α : Type} (h : List (Option α)) (p : Ptr) (a : α) :
    (store h p a).length = h.length := by
  simp [store]

theorem length_alloc {α : Type} (h : List (Option α)) (a : α) :
    (alloc h a).length = h.length + 1 := by
  simp [alloc]


theorem is_live_iff {α : Type} (h : List (Option α)) (p : Ptr) :
    is_live h p = true ↔ ∃ a, deref h p = .ok a := by
  unfold is_live
  cases deref h p <;> simp

theorem is_live_store {α : Type} (h : List (Option α)) (p q : Ptr) (a : α)
    (hq : is_live h q = true) : is_live (store h p a) q = true := by
  obtain ⟨b, hb⟩ := (is_live_iff h q).mp hq
  by_cases hpq : p = q
  · subst hpq
    exact (is_live_iff _ _).mpr ⟨a, deref_store_self a (deref_ok_lt hb)⟩
  · exact (is_live_iff _ _).mpr ⟨b, by rw [deref_store_ne h a hpq]; exact hb⟩

theorem withdraw_resources_ok (connector : Ptr) :
    ∀ (rs : List Ptr) (s : State) (c : Connector),
      deref s.connectors connector = .ok c →
      (∀ r ∈ rs, is_live s.resources r = true) →
      ∃ s1, withdraw_resources connector rs s = .ok s1 ∧ Withdrawn connector rs c s s1 := by
  intro rs
  induction rs with
  | nil =>
    intro s c hc _
    exact ⟨s, rfl,
      { events := by simp
        target := by simp [hc]
        others := fun _ _ => rfl
        connectors_length := rfl
        leases := rfl
        requests := rfl
        devices := rfl
        managers := rfl
        resources_length := rfl
        resources := fun _ _ => rfl
        live := fun _ h => h
        cleared := by simp }⟩
  | cons r rest ih =>
    intro s c hc hlive
    obtain ⟨x, hx⟩ := (is_live_iff _ _).mp (hlive r (List.mem_cons_self _ _))
    have hlt := deref_ok_lt hc
    have hrlt := deref_ok_lt hx
    obtain ⟨s1, hrun, post⟩ := ih
      { s with
        events := s.events ++ [.withdrawn r],
        resources := store s.resources r { x with user_data := none },
        connectors := store s.connectors connector
          { c with resources := c.resources.filter (fun y => y ≠ r) } }
      { c with resources := c.resources.filter (fun y => y ≠ r) }
      (deref_store_self _ hlt)
      (fun q hq => is_live_store _ _ _ _ (hlive q (List.mem_cons_of_mem _ hq)))
    refine ⟨s1, ?_, ?_⟩
    · simp only [withdraw_resources, hx, hc]
      exact hrun
    · exact
        { events := by rw [post.events]; simp
          target := by
            rw [post.target]
            simp only [List.filter_filter]
            congr 2
            apply List.filter_congr
            intro y _
            by_cases h1 : y = r <;> by_cases h2 : y ∈ rest <;> simp [h1, h2]
          others := by
            intro p hp
            rw [post.others p hp]
            exact deref_store_ne _ _ (Ne.symm hp)
          connectors_length := by rw [post.connectors_length]; simp [length_store]
          leases := by rw [post.leases]
          requests := by rw [post.requests]
          devices := by rw [post.devices]
          managers := by rw [post.managers]
          resources_length := by rw [post.resources_length]; simp [length_store]
          resources := by
            intro p hp
            have hp1 : p ∉ rest := fun h => hp (List.mem_cons_of_mem _ h)
            have hp2 : r ≠ p := fun h => hp (h ▸ List.mem_cons_self _ _)
            rw [post.resources p hp1]
            exact deref_store_ne _ _ hp2
          live := by
            intro p hp
            exact post.live p (is_live_store _ _ _ _ hp)
          cleared := by
            intro q hq y hy
            by_cases hqr : q = r
            · subst hqr
              have hxy : x = y := by
                have := hx.symm.trans hy
                injection this
              subst hxy
              by_cases hmem : q ∈ rest
              · have := post.cleared q hmem { x with user_data := none }
                  (deref_store_self _ hrlt)
                simpa using this
              · rw [post.resources q hmem]
                exact deref_store_self _ hrlt
            · have hmem : q ∈ rest := by
                rcases List.mem_cons.mp hq with h | h
                · exact absurd h hqr
                · exact h
              apply post.cleared q hmem y
              show deref (store s.resources r _) q = .ok y
              rw [deref_store_ne _ _ (Ne.symm hqr)]
              exact hy }


/-! ## Lemmas about the loops -/

theorem is_live_alloc {α : Type} (h : List (Option α)) (q : Ptr) (a : α)
    (hq : is_live h q = true) : is_live (alloc h a) q = true := by
  obtain ⟨b, hb⟩ := (is_live_iff h q).mp hq
  exact (is_live_iff _ _).mpr ⟨b, by rw [deref_alloc_lt a (deref_ok_lt hb)]; exact hb⟩

theorem send_to_client_ok (env : Env) (s : State) (connector client device : Ptr)
    (c : Connector) (hc : deref s.connectors connector = .ok c)
    (hfree : c.active_lease = none) (hmem : env.resource_ok connector device = true) :
    drm_lease_connector_v1_send_to_client env s connector client device =
      .ok { s with
        resources := alloc s.resources
          { iface := .connector, client := client, user_data := some connector },
        events := s.events ++ announcement c.output device s.resources.length,
        connectors := store s.connectors connector
          { c with resources := s.resources.length :: c.resources } } := by
  simp [drm_lease_connector_v1_send_to_client, hc, hfree, hmem, announcement]

theorem send_to_bound_ok (env : Env) (connector : Ptr) :
    ∀ (rs : List Ptr) (s : State) (c : Connector),
      deref s.connectors connector = .ok c →
      c.active_lease = none →
      (∀ r ∈ rs, is_live s.resources r = true) →
      (∀ r ∈ rs, env.resource_ok connector r = true) →
      ∃ s1, send_to_bound env connector rs s = .ok s1 ∧ Announced connector rs c s s1 := by
  intro rs
  induction rs with
  | nil =>
    intro s c hc _ _ _
    exact ⟨s, rfl,
      { events := by simp [announcements]
        target := by simp [hc]
        others := fun _ _ => rfl
        connectors_length := rfl
        leases := rfl
        requests := rfl
        devices := rfl
        managers := rfl
        resources_length := rfl
        resources := fun _ _ => rfl
        handles := by simp }⟩
  | cons r rest ih =>
    intro s c hc hfree hlive hmem
    obtain ⟨x, hx⟩ := (is_live_iff _ _).mp (hlive r (List.mem_cons_self _ _))
    have hlt := deref_ok_lt hc
    have hstep := send_to_client_ok env s connector x.client r c hc hfree
      (hmem r (List.mem_cons_self _ _))
    obtain ⟨s1, hrun, post⟩ := ih
      { s with
        resources := alloc s.resources
          { iface := .connector, client := x.client, user_data := some connector },
        events := s.events ++ announcement c.output r s.resources.length,
        connectors := store s.connectors connector
          { c with resources := s.resources.length :: c.resources } }
      { c with resources := s.resources.length :: c.resources }
      (deref_store_self (h := s.connectors) _ hlt) hfree
      (fun q hq => is_live_alloc s.resources q
        { iface := .connector, client := x.client, user_data := some connector }
        (hlive q (List.mem_cons_of_mem _ hq)))
      (fun q hq => hmem q (List.mem_cons_of_mem _ hq))
    refine ⟨s1, ?_, ?_⟩
    · simp only [send_to_bound, hx, hstep]
      exact hrun
    · have hlen : (alloc s.resources
          ({ iface := .connector, client := x.client, user_data := some connector } :
            Resource)).length = s.resources.length + 1 := length_alloc _ _
      exact
        { events := by
            rw [post.events]
            simp [announcements, hlen]
          target := by
            rw [post.target]
            simp [hlen, List.range'_succ]
          others := by
            intro p hp
            rw [post.others p hp]
            exact deref_store_ne _ _ (Ne.symm hp)
          connectors_length := by rw [post.connectors_length]; simp [length_store]
          leases := by rw [post.leases]
          requests := by rw [post.requests]
          devices := by rw [post.devices]
          managers := by rw [post.managers]
          resources_length := by
            rw [post.resources_length]
            simp [hlen]
            omega
          resources := by
            intro p hp
            rw [post.resources p (by simp [hlen]; omega)]
            exact deref_alloc_lt _ hp
          handles := by
            intro i q y hi hy
            cases i with
            | zero =>
              simp at hi
              subst hi
              have hxy : x = y := by
                have := hx.symm.trans hy
                injection this
              subst hxy
              rw [post.resources _ (by simp [hlen])]
              exact deref_alloc_new _ _
            | succ j =>
              simp at hi
              have := post.handles j q y hi
                (by
                  show deref (alloc s.resources _) q = .ok y
                  rw [deref_alloc_lt _ (deref_ok_lt hy)]
                  exact hy)
              simp only [hlen] at this
              rw [← this]
              congr 1
              show s.resources.length + (j + 1) = s.resources.length + 1 + j
              omega }



/-! ## Lemmas about grant -/

theorem deref_unlink_connector (connector : Ptr) (devices : List (Option Device))
    (d : Ptr) (dev : Device) (hd : deref devices d = .ok dev) :
    deref (unlink_connector connector devices) d =
      .ok { dev with connectors := dev.connectors.filter (fun c => c ≠ connector) } := by
  rw [deref_ok_iff] at hd ⊢
  simp [unlink_connector, List.getElem?_map, hd]

theorem not_mem_unlink_connector (connector : Ptr) (devices : List (Option Device))
    (d : Ptr) (dev : Device) (hd : deref (unlink_connector connector devices) d = .ok dev) :
    connector ∉ dev.connectors := by
  rw [deref_ok_iff] at hd
  simp only [unlink_connector, List.getElem?_map] at hd
  cases h : devices[d]? with
  | none => simp [h] at hd
  | some o =>
    cases o with
    | none => simp [h] at hd
    | some dev0 =>
      simp [h] at hd
      subst hd
      simp

theorem post_event_ok (s : State) (res : Ptr) (ev : Ptr → Event)
    (h : is_live s.resources res = true) :
    post_event s (some res) ev = .ok { s with events := s.events ++ [ev res] } := by
  obtain ⟨x, hx⟩ := (is_live_iff _ _).mp h
  simp [post_event, hx]

theorem grant_ok (env : Env) (s : State) (request : Ptr) (req : Request)
    (lease connector device res : Ptr) (dev : Device) (conn : Connector) (l : Lease)
    (fd : Int) (k : Nat)
    (hreq : deref s.requests request = .ok req)
    (hlease : req.lease = some lease)
    (hvalid : req.invalid = false)
    (hconn : req.connector = some connector)
    (hdev : req.device = some device)
    (hd : deref s.devices device = .ok dev)
    (hc : deref s.connectors connector = .ok conn)
    (hfree : conn.active_lease = none)
    (hl : deref s.leases lease = .ok l)
    (hres : l.resource = some res)
    (hreslive : is_live s.resources res = true)
    (hhandles : ∀ r ∈ conn.resources, is_live s.resources r = true)
    (hbackend : env.create_lease dev.backend conn.output.ptr l.lessee_id = (fd, k))
    (hfd : 0 ≤ fd) :
    ∃ s1, wlr_drm_lease_request_v1_grant env s request = .ok (s1, some lease) ∧
      Granted connector conn lease l res dev.backend fd k s s1 := by
  have hclt := deref_ok_lt hc
  have hllt := deref_ok_lt hl
  obtain ⟨s4, hrun, post⟩ := withdraw_resources_ok connector conn.resources
    { s with
      devices := unlink_connector connector s.devices,
      leases := store (store s.leases lease { l with lessee_id := k }) lease
        { l with lessee_id := k, connector := some connector },
      events := s.events ++ [.create_lease dev.backend conn.output.ptr],
      connectors := store s.connectors connector { conn with active_lease := some lease } }
    { conn with active_lease := some lease }
    (deref_store_self _ hclt) hhandles
  have hres4 : is_live s4.resources res = true := post.live res hreslive
  refine ⟨{ s4 with events := s4.events ++ [.lease_fd res fd] ++ [.close fd] }, ?_, ?_⟩
  · have hud := deref_unlink_connector connector s.devices device dev hd
    have hnot : ¬ (fd < 0) := not_lt.mpr hfd
    simp only [hres] at hrun
    simp only [wlr_drm_lease_request_v1_grant, hreq, hlease, invalid_or_leased, hvalid,
      hconn, hc, hfree, hdev, hud, hl, hbackend, hres, hrun, hnot,
      post_event_ok s4 res _ hres4]
    simp
  · exact
      { events := by simp [post.events]
        target := by
          rw [post.target]
          simp
        others := by
          intro p hp
          show deref s4.connectors p = _
          rw [post.others p hp]
          exact deref_store_ne _ _ (Ne.symm hp)
        connectors_length := by
          show s4.connectors.length = _
          rw [post.connectors_length]
          simp [length_store]
        granted := by
          show deref s4.leases lease = _
          rw [post.leases]
          exact deref_store_self _ (by simpa [length_store] using hllt)
        other_leases := by
          intro p hp
          show deref s4.leases p = _
          rw [post.leases]
          show deref (store (store s.leases lease _) lease _) p = _
          rw [deref_store_ne _ _ (Ne.symm hp), deref_store_ne _ _ (Ne.symm hp)]
        requests := by show s4.requests = _; rw [post.requests]
        devices := by show s4.devices = _; rw [post.devices]
        managers := by show s4.managers = _; rw [post.managers]
        resources_length := by show s4.resources.length = _; rw [post.resources_length]
        resources := fun p hp => post.resources p hp
        live := fun p hp => post.live p hp
        cleared := fun r hr x hx => post.cleared r hr x hx }



/-! ## The worked scenario is what the code produces -/

theorem demo_created_eq :
    wlr_drm_lease_manager_create demo_env State.empty demo_backend =
      .ok (demo_created, some 0) := by
  rfl

theorem demo_targeted_eq : run demo_env demo_steps demo_created = .ok demo_targeted := by
  rfl

theorem demo_submitted_eq (handler : State → Ptr → Except Fault State) :
    drm_lease_request_v1_handle_submit demo_env handler demo_targeted 1 4 =
      match handler demo_submitted 0 with
      | .error f => .error f
      | .ok s => wl_resource_destroy demo_env s 4 := by
  rfl

/-! ## Grant -/

/-- C2: granting a submitted request whose target connector already has an
active lease returns `NULL`, sends `finished` to the lease resource of the
request and nothing else (no `lease_fd`, no call of the backend), and leaves
every object as it was: the connector still has its active lease and every
lease has the fields it had. -/
theorem grant_already_leased (env : Env) (s : State) (request : Ptr) (req : Request)
    (lease connector res other : Ptr) (conn : Connector) (l : Lease)
    (hreq : deref s.requests request = .ok req)
    (hlease : req.lease = some lease)
    (hconn : req.connector = some connector)
    (hc : deref s.connectors connector = .ok conn)
    (hactive : conn.active_lease = some other)
    (hother : other ≠ lease)
    (hl : deref s.leases lease = .ok l)
    (hres : l.resource = some res)
    (hreslive : is_live s.resources res = true) :
    ∃ s1, wlr_drm_lease_request_v1_grant env s request = .ok (s1, none) ∧
      s1.events = s.events ++ [Event.lease_finished res] ∧
      deref s1.connectors connector = .ok conn ∧
      deref s1.leases other = deref s.leases other ∧
      s1 = { s with events := s.events ++ [Event.lease_finished res] } := by
  have _ := hother
  refine ⟨{ s with events := s.events ++ [Event.lease_finished res] }, ?_, rfl, hc, rfl, rfl⟩
  cases hinv : req.invalid <;>
    simp [wlr_drm_lease_request_v1_grant, hreq, hlease, invalid_or_leased, hinv, hconn, hc,
      hactive, hl, hres, post_event_ok s res _ hreslive]

theorem grant_already_leased_witness :
    ∃ s1, wlr_drm_lease_request_v1_grant demo_env demo_contended 1 = .ok (s1, none) ∧
      s1.events = demo_contended.events ++ [Event.lease_finished 7] ∧
      deref s1.connectors 0 = .ok demo_leased_connector ∧
      deref s1.leases 0 = deref demo_contended.leases 0 ∧
      s1 = { demo_contended with
        events := demo_contended.events ++ [Event.lease_finished 7] } :=
  grant_already_leased demo_env demo_contended 1
    { resource := some 6, device := some 0, connector := some 0, invalid := false,
      lease := some 1 }
    1 0 7 0 demo_leased_connector
    { resource := some 7, device := some 0, connector := none, lessee_id := 0 }
    rfl rfl rfl rfl rfl (by decide) rfl rfl rfl

/-- C3: granting a submitted, valid request whose target connector has no
active lease, when the backend answers with a file descriptor `fd ≥ 0` and
lessee id `k`, returns the lease of the request; afterwards the connector's
active lease is that lease, the lease's connector is that connector and its
lessee id is `k`, and among the events of the call there is exactly one
`lease_fd` for the lease resource, carrying `fd`, and no `finished`. -/
theorem grant_success (env : Env) (s : State) (request : Ptr) (req : Request)
    (lease connector device res : Ptr) (dev : Device) (conn : Connector) (l : Lease)
    (fd : Int) (k : Nat)
    (hreq : deref s.requests request = .ok req)
    (hlease : req.lease = some lease)
    (hvalid : req.invalid = false)
    (hconn : req.connector = some connector)
    (hdev : req.device = some device)
    (hd : deref s.devices device = .ok dev)
    (hc : deref s.connectors connector = .ok conn)
    (hfree : conn.active_lease = none)
    (hl : deref s.leases lease = .ok l)
    (hres : l.resource = some res)
    (hreslive : is_live s.resources res = true)
    (hhandles : ∀ r ∈ conn.resources, is_live s.resources r = true)
    (hbackend : env.create_lease dev.backend conn.output.ptr l.lessee_id = (fd, k))
    (hfd : 0 ≤ fd) :
    ∃ s1 new, wlr_drm_lease_request_v1_grant env s request = .ok (s1, some lease) ∧
      (∃ c1, deref s1.connectors connector = .ok c1 ∧ c1.active_lease = some lease) ∧
      (∃ l1, deref s1.leases lease = .ok l1 ∧ l1.connector = some connector ∧
        l1.lessee_id = k) ∧
      s1.events = s.events ++ new ∧
      new = [Event.create_lease dev.backend conn.output.ptr] ++
        conn.resources.map Event.withdrawn ++ [Event.lease_fd res fd, Event.close fd] ∧
      new.count (Event.lease_fd res fd) = 1 ∧
      (∀ fd1, Event.lease_fd res fd1 ∈ new → fd1 = fd) ∧
      Event.lease_finished res ∉ new := by
  obtain ⟨s1, hrun, post⟩ := grant_ok env s request req lease connector device res dev conn l
    fd k hreq hlease hvalid hconn hdev hd hc hfree hl hres hreslive hhandles hbackend hfd
  refine ⟨s1, _, hrun, ⟨_, post.target, rfl⟩, ⟨_, post.granted, rfl, rfl⟩, ?_, rfl, ?_, ?_, ?_⟩
  · rw [post.events]; simp
  · simp [List.count_eq_zero]
  · intro fd1 h
    simp at h
    exact h
  · simp

theorem grant_success_witness :
    ∃ s1 new, wlr_drm_lease_request_v1_grant demo_env demo_submitted 0 = .ok (s1, some 0) ∧
      (∃ c1, deref s1.connectors 0 = .ok c1 ∧ c1.active_lease = some 0) ∧
      (∃ l1, deref s1.leases 0 = .ok l1 ∧ l1.connector = some 0 ∧ l1.lessee_id = 5) ∧
      s1.events = demo_submitted.events ++ new ∧
      new = [Event.create_lease 9 100] ++ [Event.withdrawn 3, Event.withdrawn 1] ++
        [Event.lease_fd 5 7, Event.close 7] ∧
      new.count (Event.lease_fd 5 7) = 1 ∧
      (∀ fd1, Event.lease_fd 5 fd1 ∈ new → fd1 = 7) ∧
      Event.lease_finished 5 ∉ new :=
  grant_success demo_env demo_submitted 0 demo_request 0 0 0 5 demo_device demo_connector
    demo_lease 7 5 rfl rfl rfl rfl rfl rfl rfl rfl rfl rfl rfl (by decide) rfl (by decide)



/-- C1, evaluated: from a freshly created manager, the output is offered,
two clients bind, client 1 requests the connector and submits, and the
listener grants. The grant succeeds (the lease is lease 0, it holds connector
0 with lessee id 5, and `lease_fd` was sent to its resource 5), the lease is
neither revoked nor destroyed (no `finished` was sent), and yet connector 0
cannot be read any more: the submit ends with the destruction of the request
resource, which frees the request's connector. -/
theorem grant_then_connector_freed :
    ∃ s, run demo_env (demo_steps ++ [Op.submit 1 4 Decision.grant]) demo_created = .ok s ∧
      deref s.leases 0 =
        .ok { resource := some 5, device := some 0, connector := some 0, lessee_id := 5 } ∧
      Event.lease_fd 5 7 ∈ s.events ∧
      Event.lease_finished 5 ∉ s.events ∧
      deref s.connectors 0 = .error Fault.use_after_free :=
  ⟨_, rfl, rfl, by decide, by decide, rfl⟩

/-- C4, evaluated: in the state in which the listener is called for the
request of client 1, with a backend that refuses the lease, the grant returns
`NULL` and sends `finished`, but the connector, which was in the connector
list of the device before the call, is in it no more. -/
theorem grant_refused_unlinks_connector :
    ∃ s1 dev1, wlr_drm_lease_request_v1_grant demo_env_refused demo_submitted 0 =
        .ok (s1, none) ∧
      s1.events = demo_submitted.events ++
        [Event.create_lease 9 100, Event.lease_finished 5] ∧
      deref demo_submitted.devices 0 = .ok demo_device ∧
      demo_device.connectors = [0] ∧
      deref s1.devices 0 = .ok dev1 ∧
      dev1.connectors = [] ∧
      deref s1.connectors 0 = .ok demo_connector :=
  ⟨_, _, rfl, rfl, rfl, rfl, rfl, rfl, rfl⟩



/-! ## Revoke -/

theorem revoke_ok (env : Env) (s : State) (lease connector device : Ptr) (l : Lease)
    (conn : Connector) (dev : Device)
    (hl : deref s.leases lease = .ok l)
    (hres : ∀ r, l.resource = some r → is_live s.resources r = true)
    (hconn : l.connector = some connector)
    (hc : deref s.connectors connector = .ok conn)
    (hdev : l.device = some device)
    (hd : deref s.devices device = .ok dev)
    (hbound : ∀ r ∈ dev.resources, is_live s.resources r = true)
    (hmem : ∀ r ∈ dev.resources, env.resource_ok connector r = true) :
    ∃ s1, wlr_drm_lease_v1_revoke env s lease = .ok s1 ∧
      Announced connector dev.resources { conn with active_lease := none }
        { s with
          events := s.events ++ revoke_notices l dev.backend,
          connectors := store s.connectors connector { conn with active_lease := none } }
        s1 := by
  obtain ⟨s1, hrun, post⟩ := send_to_bound_ok env connector dev.resources
    { s with
      events := s.events ++ revoke_notices l dev.backend,
      connectors := store s.connectors connector { conn with active_lease := none } }
    { conn with active_lease := none }
    (deref_store_self _ (deref_ok_lt hc)) rfl hbound hmem
  refine ⟨s1, ?_, post⟩
  rw [← hrun]
  cases hr : l.resource with
  | none =>
    by_cases hk : l.lessee_id = 0
    · simp [wlr_drm_lease_v1_revoke, hl, hr, hk, hconn, hc, hdev, hd, revoke_notices]
    · simp [wlr_drm_lease_v1_revoke, hl, hr, hk, hconn, hc, hdev, hd, revoke_notices]
  | some r =>
    have hp := post_event_ok s r Event.lease_finished (hres r hr)
    by_cases hk : l.lessee_id = 0
    · simp [wlr_drm_lease_v1_revoke, hl, hr, hk, hconn, hc, hdev, hd, revoke_notices, hp]
    · simp [wlr_drm_lease_v1_revoke, hl, hr, hk, hconn, hc, hdev, hd, revoke_notices, hp]



theorem demo_granted_eq :
    wlr_drm_lease_request_v1_grant demo_env demo_submitted 0 = .ok (demo_granted, some 0) := by
  rfl

/-- C5, as stated, fails: lease 0 holds connector 0 with lessee id 0, and for
the client behind device resource 2 no connector resource can be allocated.
The revoke sends `finished`, never calls `terminate_lease`, and announces the
connector to the client behind device resource 0 only. -/
theorem revoke_skips_terminate_and_client :
    ∃ s1 s2 new, wlr_drm_lease_request_v1_grant demo_env_zero demo_submitted 0 =
        .ok (s1, some 0) ∧
      deref s1.leases 0 =
        .ok { resource := some 5, device := some 0, connector := some 0, lessee_id := 0 } ∧
      deref s1.devices 0 = .ok demo_device_granted ∧
      wlr_drm_lease_v1_revoke demo_env_zero s1 0 = .ok s2 ∧
      s2.events = s1.events ++ new ∧
      new =
        [ Event.lease_finished 5, Event.client_no_memory 2,
          Event.connector 0 6, Event.name 6 [68, 80, 45, 49],
          Event.description 6 [65, 32, 66, 32, 67, 32, 40, 68, 80, 45, 49, 41],
          Event.connector_id 6 42 ] ∧
      (∀ backend lessee, Event.terminate_lease backend lessee ∉ new) ∧
      (∀ resource, Event.connector 2 resource ∉ new) :=
  ⟨_, _,
    [ Event.lease_finished 5, Event.client_no_memory 2,
      Event.connector 0 6, Event.name 6 [68, 80, 45, 49],
      Event.description 6 [65, 32, 66, 32, 67, 32, 40, 68, 80, 45, 49, 41],
      Event.connector_id 6 42 ],
    rfl, rfl, rfl, rfl, rfl, rfl, by simp, by simp⟩

/-- C5, amended: for a lease that holds a connector, the revoke sends
`finished` to the lease resource exactly when there is one, calls
`terminate_lease` with the lessee id exactly when the lessee id is not zero
(the result of the call is not looked at), clears the connector's active
lease, and then, provided the connector resources can be allocated, announces
the connector once to every device resource of the lease's device, each
announcement carrying the name, the description and the connector id of the
connector's output; the new resources become the connector's handles. -/
theorem revoke_effects (env : Env) (s : State) (lease connector device : Ptr) (l : Lease)
    (conn : Connector) (dev : Device)
    (hl : deref s.leases lease = .ok l)
    (hres : ∀ r, l.resource = some r → is_live s.resources r = true)
    (hconn : l.connector = some connector)
    (hc : deref s.connectors connector = .ok conn)
    (hdev : l.device = some device)
    (hd : deref s.devices device = .ok dev)
    (hbound : ∀ r ∈ dev.resources, is_live s.resources r = true)
    (hmem : ∀ r ∈ dev.resources, env.resource_ok connector r = true) :
    ∃ s1, wlr_drm_lease_v1_revoke env s lease = .ok s1 ∧
      s1.events = s.events ++
        (match l.resource with
          | some r => [Event.lease_finished r]
          | none => []) ++
        (if l.lessee_id ≠ 0 then [Event.terminate_lease dev.backend l.lessee_id] else []) ++
        announcements conn.output s.resources.length dev.resources ∧
      deref s1.connectors connector =
        .ok { conn with
          active_lease := none,
          resources :=
            (List.range' s.resources.length dev.resources.length).reverse ++
              conn.resources } ∧
      (∀ i r x, dev.resources[i]? = some r → deref s.resources r = .ok x →
        deref s1.resources (s.resources.length + i) =
          .ok { iface := .connector, client := x.client, user_data := some connector }) := by
  obtain ⟨s1, hrun, post⟩ := revoke_ok env s lease connector device l conn dev hl hres hconn
    hc hdev hd hbound hmem
  refine ⟨s1, hrun, ?_, post.target, post.handles⟩
  rw [post.events]
  simp [revoke_notices, List.append_assoc]

theorem revoke_effects_witness :
    ∃ s1, wlr_drm_lease_v1_revoke demo_env demo_granted 0 = .ok s1 ∧
      s1.events = demo_granted.events ++
        (match demo_lease_granted.resource with
          | some r => [Event.lease_finished r]
          | none => []) ++
        (if demo_lease_granted.lessee_id ≠ 0 then
          [Event.terminate_lease demo_device_granted.backend demo_lease_granted.lessee_id]
          else []) ++
        announcements demo_leased_connector.output demo_granted.resources.length
          demo_device_granted.resources ∧
      deref s1.connectors 0 =
        .ok { demo_leased_connector with
          active_lease := none,
          resources :=
            (List.range' demo_granted.resources.length
              demo_device_granted.resources.length).reverse ++
              demo_leased_connector.resources } ∧
      (∀ i r x, demo_device_granted.resources[i]? = some r →
        deref demo_granted.resources r = .ok x →
        deref s1.resources (demo_granted.resources.length + i) =
          .ok { iface := .connector, client := x.client, user_data := some 0 }) :=
  revoke_effects demo_env demo_granted 0 0 0 demo_lease_granted demo_leased_connector
    demo_device_granted rfl (by decide) rfl rfl rfl rfl (by decide) (by decide)



/-! ## Grant followed by revoke -/

theorem send_to_client_other (env : Env) (s s1 : State) (connector client device p : Ptr)
    (hne : p ≠ connector)
    (h : drm_lease_connector_v1_send_to_client env s connector client device = .ok s1) :
    deref s1.connectors p = deref s.connectors p := by
  unfold drm_lease_connector_v1_send_to_client at h
  cases hc : deref s.connectors connector with
  | error f => simp [hc] at h
  | ok c =>
    simp only [hc] at h
    split at h
    · injection h with h; subst h; rfl
    · split at h
      · injection h with h; subst h; rfl
      · injection h with h
        subst h
        exact deref_store_ne _ _ (Ne.symm hne)

theorem send_connectors_other (env : Env) (client resource p : Ptr) :
    ∀ (cs : List Ptr) (s s1 : State), p ∉ cs →
      send_connectors env client resource cs s = .ok s1 →
      deref s1.connectors p = deref s.connectors p := by
  intro cs
  induction cs with
  | nil =>
    intro s s1 _ h
    simp only [send_connectors] at h
    injection h with h
    subst h
    rfl
  | cons c rest ih =>
    intro s s1 hp h
    simp only [send_connectors] at h
    cases hstep : drm_lease_connector_v1_send_to_client env s c client resource with
    | error f => simp [hstep] at h
    | ok s0 =>
      simp only [hstep] at h
      have hpc : p ≠ c := fun e => hp (e ▸ List.mem_cons_self _ _)
      have hprest : p ∉ rest := fun e => hp (List.mem_cons_of_mem _ e)
      rw [ih s0 s1 hprest h]
      exact send_to_client_other env s s0 c client resource p hpc hstep

theorem bind_other (env : Env) (s s1 : State) (client device p : Ptr)
    (hp : ∀ dev, deref s.devices device = .ok dev → p ∉ dev.connectors)
    (h : lease_device_bind env s client device = .ok s1) :
    deref s1.connectors p = deref s.connectors p := by
  unfold lease_device_bind at h
  split at h
  · injection h with h; subst h; rfl
  · cases hd : deref s.devices device with
    | error f => simp [hd] at h
    | ok dev =>
      simp only [hd] at h
      split at h
      · simp at h
      · rename_i s2 hs2
        have hconn : s2.connectors = s.connectors := by
          split at hs2
          · injection hs2 with hs2; subst hs2; rfl
          · split at hs2
            · simp at hs2
            · injection hs2 with hs2; subst hs2; rfl
        rw [send_connectors_other env client _ p dev.connectors _ s1 (hp dev hd) h]
        show deref s2.connectors p = _
        rw [hconn]



/-- C6, evaluated: in the worked scenario connector 0 is in the connector list
of device 0; the request of client 1 is granted and the resulting lease is
revoked at once. Afterwards the connector has no active lease, but the grant
has taken it out of the connector list and the revoke has not put it back:
the list of the device is empty, and a client 3 that binds to the device is
sent the DRM file descriptor and no connector at all. -/
theorem grant_revoke_not_offered_again :
    ∃ s1 s2 s3 dev2 c2,
      wlr_drm_lease_request_v1_grant demo_env demo_submitted 0 = .ok (s1, some 0) ∧
      wlr_drm_lease_v1_revoke demo_env s1 0 = .ok s2 ∧
      deref demo_submitted.devices 0 = .ok demo_device ∧
      demo_device.connectors = [0] ∧
      deref s2.connectors 0 = .ok c2 ∧
      c2.active_lease = none ∧
      deref s2.devices 0 = .ok dev2 ∧
      dev2.connectors = [] ∧
      lease_device_bind demo_env s2 3 0 = .ok s3 ∧
      s3.events = s2.events ++ [Event.drm_fd 8 3, Event.close 3] :=
  ⟨_, _, _, _, _, rfl, rfl, rfl, rfl, rfl, rfl, rfl, rfl, rfl, rfl⟩

/-- The connector is lost to the device after every grant and revoke, not
only in the worked scenario: after a successful grant on a connector of the
device's connector list, followed by the revoke of the resulting lease, the
connector has no active lease and has been announced again to every client
bound to the device at the time of the revoke (provided the connector
resources could be allocated), but it is a member of no device's connector
list, and a bind that follows leaves the connector's handles as they are. -/
theorem grant_revoke_unlisted (env : Env) (s : State) (request : Ptr) (req : Request)
    (lease connector device res : Ptr) (dev : Device) (conn : Connector) (l : Lease)
    (fd : Int) (k : Nat)
    (hreq : deref s.requests request = .ok req)
    (hlease : req.lease = some lease)
    (hvalid : req.invalid = false)
    (hconn : req.connector = some connector)
    (hdev : req.device = some device)
    (hd : deref s.devices device = .ok dev)
    (hlisted : connector ∈ dev.connectors)
    (hc : deref s.connectors connector = .ok conn)
    (hfree : conn.active_lease = none)
    (hl : deref s.leases lease = .ok l)
    (hres : l.resource = some res)
    (hldev : l.device = some device)
    (hreslive : is_live s.resources res = true)
    (hhandles : ∀ r ∈ conn.resources, is_live s.resources r = true)
    (hbackend : env.create_lease dev.backend conn.output.ptr l.lessee_id = (fd, k))
    (hfd : 0 ≤ fd)
    (hbound : ∀ r ∈ dev.resources, is_live s.resources r = true)
    (hmem : ∀ r ∈ dev.resources, env.resource_ok connector r = true) :
    ∃ s1 s2, wlr_drm_lease_request_v1_grant env s request = .ok (s1, some lease) ∧
      wlr_drm_lease_v1_revoke env s1 lease = .ok s2 ∧
      deref s2.connectors connector =
        .ok { conn with
          active_lease := none,
          resources := (List.range' s.resources.length dev.resources.length).reverse } ∧
      s2.events = s1.events ++ [Event.lease_finished res] ++
        (if k ≠ 0 then [Event.terminate_lease dev.backend k] else []) ++
        announcements conn.output s.resources.length dev.resources ∧
      (∀ d dev2, deref s2.devices d = .ok dev2 → connector ∉ dev2.connectors) ∧
      (∀ env3 client d s3, lease_device_bind env3 s2 client d = .ok s3 →
        deref s3.connectors connector = deref s2.connectors connector) := by
  have _ := hlisted
  obtain ⟨s1, hgrant, g⟩ := grant_ok env s request req lease connector device res dev conn l
    fd k hreq hlease hvalid hconn hdev hd hc hfree hl hres hreslive hhandles hbackend hfd
  have hd1 : deref s1.devices device =
      .ok { dev with connectors := dev.connectors.filter (fun c => c ≠ connector) } := by
    rw [g.devices]
    exact deref_unlink_connector connector s.devices device dev hd
  obtain ⟨s2, hrevoke, r⟩ := revoke_ok env s1 lease connector device
    { l with lessee_id := k, connector := some connector }
    { conn with resources := [], active_lease := some lease }
    { dev with connectors := dev.connectors.filter (fun c => c ≠ connector) }
    g.granted
    (by
      intro q hq
      have hq1 : l.resource = some q := hq
      rw [hres] at hq1
      injection hq1 with hq1
      subst hq1
      exact g.live _ hreslive)
    rfl g.target hldev hd1
    (fun q hq => g.live q (hbound q hq))
    hmem
  have hunlisted : ∀ d dev2, deref s2.devices d = .ok dev2 → connector ∉ dev2.connectors := by
    intro d dev2 hd2
    rw [r.devices] at hd2
    have hd3 : deref (unlink_connector connector s.devices) d = .ok dev2 := by
      rw [← g.devices]; exact hd2
    exact not_mem_unlink_connector connector s.devices d dev2 hd3
  refine ⟨s1, s2, hgrant, hrevoke, ?_, ?_, hunlisted, ?_⟩
  · rw [r.target]
    simp [g.resources_length]
  · rw [r.events]
    simp [revoke_notices, hres, g.resources_length, List.append_assoc]
  · intro env3 client d s3 hbind
    exact bind_other env3 s2 s3 client d connector (fun dev2 h => hunlisted d dev2 h) hbind

theorem grant_revoke_unlisted_witness :
    ∃ s1 s2, wlr_drm_lease_request_v1_grant demo_env demo_submitted 0 = .ok (s1, some 0) ∧
      wlr_drm_lease_v1_revoke demo_env s1 0 = .ok s2 ∧
      deref s2.connectors 0 =
        .ok { demo_connector with
          active_lease := none,
          resources :=
            (List.range' demo_submitted.resources.length
              demo_device.resources.length).reverse } ∧
      s2.events = s1.events ++ [Event.lease_finished 5] ++
        (if 5 ≠ 0 then [Event.terminate_lease demo_device.backend 5] else []) ++
        announcements demo_connector.output demo_submitted.resources.length
          demo_device.resources ∧
      (∀ d dev2, deref s2.devices d = .ok dev2 → 0 ∉ dev2.connectors) ∧
      (∀ env3 client d s3, lease_device_bind env3 s2 client d = .ok s3 →
        deref s3.connectors 0 = deref s2.connectors 0) :=
  grant_revoke_unlisted demo_env demo_submitted 0 demo_request 0 0 0 5 demo_device
    demo_connector demo_lease 7 5 rfl rfl rfl rfl rfl rfl (by decide) rfl rfl rfl rfl rfl rfl
    (by decide) rfl (by decide) (by decide) (by decide)



/-! ## Offer -/

theorem find_device_congr (s s1 : State) (backend : Ptr)
    (h : ∀ d, Except.map Device.backend (deref s1.devices d) =
      Except.map Device.backend (deref s.devices d)) :
    ∀ l, find_device s1 backend l = find_device s backend l := by
  intro l
  induction l with
  | nil => rfl
  | cons d rest ih =>
    have hd := h d
    simp only [find_device]
    cases h1 : deref s1.devices d with
    | error f =>
      cases h0 : deref s.devices d with
      | error g =>
        rw [h1, h0] at hd
        simp only [Except.map] at hd
        injection hd with hd
        subst hd
        rfl
      | ok dev0 => rw [h1, h0] at hd; simp [Except.map] at hd
    | ok dev1 =>
      cases h0 : deref s.devices d with
      | error g => rw [h1, h0] at hd; simp [Except.map] at hd
      | ok dev0 =>
        rw [h1, h0] at hd
        simp only [Except.map] at hd
        injection hd with hd
        simp only [hd, ih]

theorem find_device_elem (s : State) (backend : Ptr) :
    ∀ (l : List Ptr) (d : Ptr), find_device s backend l = .ok (.elem d) →
      d ∈ l ∧ ∃ dev, deref s.devices d = .ok dev ∧ dev.backend = backend := by
  intro l
  induction l with
  | nil => intro d h; simp [find_device] at h
  | cons x rest ih =>
    intro d h
    simp only [find_device] at h
    cases hx : deref s.devices x with
    | error f => simp [hx] at h
    | ok dev =>
      simp only [hx] at h
      by_cases hb : dev.backend = backend
      · simp only [hb, if_true] at h
        injection h with h
        injection h with h
        subst h
        exact ⟨List.mem_cons_self _ _, dev, hx, hb⟩
      · simp only [hb, if_false] at h
        obtain ⟨hm, hrest⟩ := ih d h
        exact ⟨List.mem_cons_of_mem _ hm, hrest⟩

theorem connector_exists_false (s : State) (output : Ptr) :
    ∀ cs : List Ptr,
      (∀ c ∈ cs, ∃ conn, deref s.connectors c = .ok conn ∧ conn.output.ptr ≠ output) →
      connector_exists s output cs = .ok false := by
  intro cs
  induction cs with
  | nil => intro _; rfl
  | cons c rest ih =>
    intro h
    obtain ⟨conn, hc, hne⟩ := h c (List.mem_cons_self _ _)
    simp only [connector_exists, hc, hne, if_false]
    exact ih (fun q hq => h q (List.mem_cons_of_mem _ hq))

theorem connector_exists_true (s : State) (output : Ptr) :
    ∀ cs : List Ptr,
      (∀ c ∈ cs, is_live s.connectors c = true) →
      (∃ c ∈ cs, ∃ conn, deref s.connectors c = .ok conn ∧ conn.output.ptr = output) →
      connector_exists s output cs = .ok true := by
  intro cs
  induction cs with
  | nil => intro _ h; simp at h
  | cons c rest ih =>
    intro hlive h
    obtain ⟨conn, hc⟩ := (is_live_iff _ _).mp (hlive c (List.mem_cons_self _ _))
    simp only [connector_exists, hc]
    by_cases hp : conn.output.ptr = output
    · simp [hp]
    · simp only [hp, if_false]
      apply ih (fun q hq => hlive q (List.mem_cons_of_mem _ hq))
      obtain ⟨q, hq, cq, hcq, hpq⟩ := h
      rcases List.mem_cons.mp hq with e | e
      · subst e
        rw [hc] at hcq
        injection hcq with hcq
        subst hcq
        exact absurd hpq hp
      · exact ⟨q, e, cq, hcq, hpq⟩

theorem offer_new (env : Env) (s : State) (manager device : Ptr) (output : Output)
    (m : Manager) (dev : Device)
    (hm : deref s.managers manager = .ok m)
    (hfind : find_device s output.backend m.devices = .ok (.elem device))
    (hd : deref s.devices device = .ok dev)
    (hnone : ∀ c ∈ dev.connectors,
      ∃ conn, deref s.connectors c = .ok conn ∧ conn.output.ptr ≠ output.ptr)
    (halloc : env.calloc_ok = true)
    (hbound : ∀ r ∈ dev.resources, is_live s.resources r = true)
    (hmem : ∀ r ∈ dev.resources, env.resource_ok s.connectors.length r = true) :
    ∃ s1, wlr_drm_lease_manager_offer_output env s manager output = .ok (s1, true) ∧
      Announced s.connectors.length dev.resources
        { resources := [], output := output, active_lease := none }
        { s with
          connectors := alloc s.connectors
            { resources := [], output := output, active_lease := none },
          devices := store s.devices device
            { dev with connectors := s.connectors.length :: dev.connectors } }
        s1 := by
  obtain ⟨s1, hrun, post⟩ := send_to_bound_ok env s.connectors.length dev.resources
    { s with
      connectors := alloc s.connectors
        { resources := [], output := output, active_lease := none },
      devices := store s.devices device
        { dev with connectors := s.connectors.length :: dev.connectors } }
    { resources := [], output := output, active_lease := none }
    (deref_alloc_new _ _) rfl hbound hmem
  refine ⟨s1, ?_, post⟩
  simp only [wlr_drm_lease_manager_offer_output, hm, hfind, hd,
    connector_exists_false s output.ptr dev.connectors hnone, halloc, hrun]
  simp



theorem find_device_head (s : State) (backend : Ptr) :
    ∀ l : List Ptr,
      (∀ d ∈ l, ∃ dev, deref s.devices d = .ok dev ∧ dev.backend ≠ backend) →
      find_device s backend l = .ok .head := by
  intro l
  induction l with
  | nil => intro _; rfl
  | cons d rest ih =>
    intro h
    obtain ⟨dev, hd, hne⟩ := h d (List.mem_cons_self _ _)
    simp only [find_device, hd, hne, if_false]
    exact ih (fun q hq => h q (List.mem_cons_of_mem _ hq))

theorem offer_no_device (env : Env) (s : State) (manager : Ptr) (output : Output)
    (m : Manager)
    (hm : deref s.managers manager = .ok m)
    (hnone : ∀ d ∈ m.devices, ∃ dev, deref s.devices d = .ok dev ∧
      dev.backend ≠ output.backend) :
    wlr_drm_lease_manager_offer_output env s manager output = .error .invalid_pointer := by
  simp [wlr_drm_lease_manager_offer_output, hm, find_device_head s output.backend m.devices hnone]

theorem demo_no_device_eq :
    wlr_drm_lease_manager_create demo_env State.empty demo_no_drm =
      .ok (demo_no_device, some 0) := by
  rfl

/-- C9, evaluated: for an output whose backend is the backend of no device of
the manager, the call does not return false. With one device of another
backend, and with an empty device list, the device loop ends with `device`
computed from the list head, the test `!device` does not fire, and the
connector loop reads through that address. -/
theorem offer_foreign_output_faults :
    deref demo_created.managers 0 = .ok { devices := [0] } ∧
    deref demo_created.devices 0 = .ok
      { resources := [], global := some 0, manager := some 0, backend := 9,
        connectors := [], leases := [], requests := [] } ∧
    demo_foreign_output.backend = 10 ∧
    wlr_drm_lease_manager_offer_output demo_env demo_created 0 demo_foreign_output =
      .error Fault.invalid_pointer ∧
    deref demo_no_device.managers 0 = .ok { devices := [] } ∧
    wlr_drm_lease_manager_offer_output demo_env demo_no_device 0 demo_output =
      .error Fault.invalid_pointer :=
  ⟨rfl, rfl, rfl, rfl, rfl, rfl⟩

/-- C10: when the device loop finds the device of the output's backend, no
connector of that device wraps the output, and the allocations succeed, the
call returns true; the device gets exactly one new connector, at the front of
its list, wrapping the output and without active lease; every other device
and connector, every request, lease and manager is unchanged; and every
device resource bound to the device is sent exactly one announcement, whose
new connector resource belongs to the same client, points to the new
connector and is one of the new connector's handles. -/
theorem offer_success (env : Env) (s : State) (manager device : Ptr) (output : Output)
    (m : Manager) (dev : Device)
    (hm : deref s.managers manager = .ok m)
    (hfind : find_device s output.backend m.devices = .ok (.elem device))
    (hd : deref s.devices device = .ok dev)
    (hnone : ∀ c ∈ dev.connectors,
      ∃ conn, deref s.connectors c = .ok conn ∧ conn.output.ptr ≠ output.ptr)
    (halloc : env.calloc_ok = true)
    (hbound : ∀ r ∈ dev.resources, is_live s.resources r = true)
    (hmem : ∀ r ∈ dev.resources, env.resource_ok s.connectors.length r = true) :
    ∃ s1, wlr_drm_lease_manager_offer_output env s manager output = .ok (s1, true) ∧
      deref s1.devices device =
        .ok { dev with connectors := s.connectors.length :: dev.connectors } ∧
      (∀ d, d ≠ device → deref s1.devices d = deref s.devices d) ∧
      s.connectors.length ∉ dev.connectors ∧
      deref s1.connectors s.connectors.length =
        .ok { resources := (List.range' s.resources.length dev.resources.length).reverse,
              output := output, active_lease := none } ∧
      (∀ p, p ≠ s.connectors.length → deref s1.connectors p = deref s.connectors p) ∧
      s1.requests = s.requests ∧ s1.leases = s.leases ∧ s1.managers = s.managers ∧
      s1.events = s.events ++ announcements output s.resources.length dev.resources ∧
      (∀ i r x, dev.resources[i]? = some r → deref s.resources r = .ok x →
        deref s1.resources (s.resources.length + i) =
          .ok { iface := .connector, client := x.client,
                user_data := some s.connectors.length }) ∧
      (∀ p, p < s.resources.length → deref s1.resources p = deref s.resources p) := by
  obtain ⟨s1, hrun, post⟩ := offer_new env s manager device output m dev hm hfind hd hnone
    halloc hbound hmem
  have hdlt := deref_ok_lt hd
  refine ⟨s1, hrun, ?_, ?_, ?_, ?_, ?_, post.requests, post.leases, post.managers, post.events,
    post.handles, post.resources⟩
  · rw [post.devices]
    exact deref_store_self _ hdlt
  · intro d hne
    rw [post.devices]
    exact deref_store_ne _ _ (Ne.symm hne)
  · intro hmem1
    obtain ⟨conn, hc, _⟩ := hnone _ hmem1
    exact absurd (deref_ok_lt hc) (lt_irrefl _)
  · rw [post.target]
    simp
  · intro p hp
    rw [post.others p hp]
    by_cases hlt : p < s.connectors.length
    · exact deref_alloc_lt _ hlt
    · have hgt : s.connectors.length < p := by omega
      unfold deref alloc
      rw [List.getElem?_eq_none (by simp; omega), List.getElem?_eq_none (by omega)]

theorem offer_success_witness :
    ∃ s1, wlr_drm_lease_manager_offer_output demo_env demo_targeted 0 demo_output2 =
        .ok (s1, true) ∧
      deref s1.devices 0 =
        .ok { resources := [2, 0], global := some 0, manager := some 0, backend := 9,
              connectors := demo_targeted.connectors.length :: [0], leases := [],
              requests := [4] } ∧
      (∀ d, d ≠ 0 → deref s1.devices d = deref demo_targeted.devices d) ∧
      demo_targeted.connectors.length ∉ [0] ∧
      deref s1.connectors demo_targeted.connectors.length =
        .ok { resources := (List.range' demo_targeted.resources.length
                ([2, 0] : List Ptr).length).reverse,
              output := demo_output2, active_lease := none } ∧
      (∀ p, p ≠ demo_targeted.connectors.length →
        deref s1.connectors p = deref demo_targeted.connectors p) ∧
      s1.requests = demo_targeted.requests ∧ s1.leases = demo_targeted.leases ∧
      s1.managers = demo_targeted.managers ∧
      s1.events = demo_targeted.events ++
        announcements demo_output2 demo_targeted.resources.length [2, 0] ∧
      (∀ i r x, ([2, 0] : List Ptr)[i]? = some r → deref demo_targeted.resources r = .ok x →
        deref s1.resources (demo_targeted.resources.length + i) =
          .ok { iface := .connector, client := x.client,
                user_data := some demo_targeted.connectors.length }) ∧
      (∀ p, p < demo_targeted.resources.length →
        deref s1.resources p = deref demo_targeted.resources p) :=
  offer_success demo_env demo_targeted 0 0 demo_output2 { devices := [0] }
    { resources := [2, 0], global := some 0, manager := some 0, backend := 9,
      connectors := [0], leases := [], requests := [4] }
    rfl rfl rfl
    (by
      intro c hc
      have hc0 : c = 0 := by simpa using hc
      subst hc0
      exact ⟨demo_connector, rfl, by decide⟩)
    rfl (by decide) (by decide)



/-! ## Offer, twice -/

theorem send_to_client_frame (env : Env) (s s1 : State) (connector client device : Ptr)
    (h : drm_lease_connector_v1_send_to_client env s connector client device = .ok s1) :
    s1.managers = s.managers ∧ s1.devices = s.devices ∧ s1.requests = s.requests ∧
      s1.leases = s.leases ∧
      ∀ c, deref s.connectors connector = .ok c →
        ∃ c1, deref s1.connectors connector = .ok c1 ∧ c1.output = c.output ∧
          c1.active_lease = c.active_lease := by
  unfold drm_lease_connector_v1_send_to_client at h
  cases hc : deref s.connectors connector with
  | error f => simp [hc] at h
  | ok c0 =>
    simp only [hc] at h
    split at h
    · injection h with h
      subst h
      exact ⟨rfl, rfl, rfl, rfl, fun c e => ⟨c, hc.trans e, rfl, rfl⟩⟩
    · split at h
      · injection h with h
        subst h
        exact ⟨rfl, rfl, rfl, rfl, fun c e => ⟨c, hc.trans e, rfl, rfl⟩⟩
      · injection h with h
        subst h
        refine ⟨rfl, rfl, rfl, rfl, fun c e => ?_⟩
        injection e with e
        subst e
        exact ⟨_, deref_store_self _ (deref_ok_lt hc), rfl, rfl⟩

theorem send_to_bound_frame (env : Env) (connector : Ptr) :
    ∀ (rs : List Ptr) (s s1 : State), send_to_bound env connector rs s = .ok s1 →
      s1.managers = s.managers ∧ s1.devices = s.devices ∧ s1.requests = s.requests ∧
        s1.leases = s.leases ∧
        ∀ c, deref s.connectors connector = .ok c →
          ∃ c1, deref s1.connectors connector = .ok c1 ∧ c1.output = c.output ∧
            c1.active_lease = c.active_lease := by
  intro rs
  induction rs with
  | nil =>
    intro s s1 h
    simp only [send_to_bound] at h
    injection h with h
    subst h
    exact ⟨rfl, rfl, rfl, rfl, fun c e => ⟨c, e, rfl, rfl⟩⟩
  | cons r rest ih =>
    intro s s1 h
    simp only [send_to_bound] at h
    cases hr : deref s.resources r with
    | error f => simp [hr] at h
    | ok x =>
      simp only [hr] at h
      cases hstep : drm_lease_connector_v1_send_to_client env s connector x.client r with
      | error f => simp [hstep] at h
      | ok s0 =>
        simp only [hstep] at h
        obtain ⟨a1, a2, a3, a4, a5⟩ := send_to_client_frame env s s0 connector x.client r hstep
        obtain ⟨b1, b2, b3, b4, b5⟩ := ih s0 s1 h
        refine ⟨b1.trans a1, b2.trans a2, b3.trans a3, b4.trans a4, fun c e => ?_⟩
        obtain ⟨c0, e0, o0, l0⟩ := a5 c e
        obtain ⟨c1, e1, o1, l1⟩ := b5 c0 e0
        exact ⟨c1, e1, o1.trans o0, l1.trans l0⟩

theorem backend_store_same (devices : List (Option Device)) (device : Ptr) (dev dev1 : Device)
    (hd : deref devices device = .ok dev) (hb : dev1.backend = dev.backend) (d : Ptr) :
    Except.map Device.backend (deref (store devices device dev1) d) =
      Except.map Device.backend (deref devices d) := by
  by_cases e : device = d
  · subst e
    rw [deref_store_self _ (deref_ok_lt hd), hd]
    simp [Except.map, hb]
  · rw [deref_store_ne _ _ e]

/-- C7, amended: when a call of `wlr_drm_lease_manager_offer_output` has
returned, true or false, without its `calloc` having failed, the same call
made again returns false and leaves the whole state as it is: the connector
lists, every connector with its handles, every request and lease, and the
list of events, to which nothing is added. -/
theorem offer_twice_unchanged (env1 env2 : Env) (s s1 : State) (manager : Ptr) (output : Output)
    (b : Bool)
    (h1 : wlr_drm_lease_manager_offer_output env1 s manager output = .ok (s1, b))
    (hmem : env1.calloc_ok = true) :
    wlr_drm_lease_manager_offer_output env2 s1 manager output = .ok (s1, false) := by
  unfold wlr_drm_lease_manager_offer_output at h1
  cases hm : deref s.managers manager with
  | error f => simp [hm] at h1
  | ok m =>
    simp only [hm] at h1
    cases hf : find_device s output.backend m.devices with
    | error f => simp [hf] at h1
    | ok cur =>
      cases cur with
      | head => simp [hf] at h1
      | elem device =>
        simp only [hf] at h1
        cases hd : deref s.devices device with
        | error f => simp [hd] at h1
        | ok dev =>
          simp only [hd] at h1
          cases hex : connector_exists s output.ptr dev.connectors with
          | error f => simp [hex] at h1
          | ok found =>
            cases found with
            | true =>
              simp only [hex] at h1
              injection h1 with h1
              injection h1 with hs hb
              subst hs
              simp [wlr_drm_lease_manager_offer_output, hm, hf, hd, hex]
            | false =>
              simp only [hex, hmem] at h1
              cases hsend : send_to_bound env1 s.connectors.length dev.resources
                  { s with
                    connectors := alloc s.connectors
                      { resources := [], output := output, active_lease := none },
                    devices := store s.devices device
                      { dev with connectors := s.connectors.length :: dev.connectors } } with
              | error f => simp [hsend] at h1
              | ok s2 =>
                simp [hsend] at h1
                obtain ⟨hs, _⟩ := h1
                subst hs
                obtain ⟨f1, f2, _, _, f5⟩ := send_to_bound_frame env1 s.connectors.length
                  dev.resources _ s2 hsend
                obtain ⟨c1, hc1, ho1, _⟩ := f5 _ (deref_alloc_new _ _)
                have hm2 : deref s2.managers manager = .ok m := by rw [f1]; exact hm
                have hd2 : deref s2.devices device =
                    .ok { dev with connectors := s.connectors.length :: dev.connectors } := by
                  rw [f2]; exact deref_store_self _ (deref_ok_lt hd)
                have hf2 : find_device s2 output.backend m.devices = .ok (.elem device) := by
                  rw [← hf]
                  apply find_device_congr
                  intro d
                  rw [f2]
                  exact backend_store_same s.devices device dev
                    { dev with connectors := s.connectors.length :: dev.connectors } hd rfl d
                have ho2 : c1.output.ptr = output.ptr := by rw [ho1]
                simp [wlr_drm_lease_manager_offer_output, hm2, hf2, hd2, connector_exists, hc1,
                  ho2]



/-! ## Offer after the connector has left the list -/

theorem withdraw_resources_frame (connector : Ptr) :
    ∀ (rs : List Ptr) (s s1 : State), withdraw_resources connector rs s = .ok s1 →
      s1.managers = s.managers ∧ s1.devices = s.devices ∧ s1.requests = s.requests ∧
        s1.leases = s.leases ∧ s1.connectors.length = s.connectors.length ∧
        (∀ p, p ≠ connector → deref s1.connectors p = deref s.connectors p) ∧
        (∀ p, is_live s.resources p = true → is_live s1.resources p = true) ∧
        (∀ c, deref s.connectors connector = .ok c →
          ∃ c1, deref s1.connectors connector = .ok c1 ∧ c1.output = c.output ∧
            c1.active_lease = c.active_lease) := by
  intro rs
  induction rs with
  | nil =>
    intro s s1 h
    simp only [withdraw_resources] at h
    injection h with h
    subst h
    exact ⟨rfl, rfl, rfl, rfl, rfl, fun _ _ => rfl, fun _ h => h, fun c e => ⟨c, e, rfl, rfl⟩⟩
  | cons r rest ih =>
    intro s s1 h
    simp only [withdraw_resources] at h
    cases hr : deref s.resources r with
    | error f => simp [hr] at h
    | ok x =>
      simp only [hr] at h
      cases hc : deref s.connectors connector with
      | error f => simp [hc] at h
      | ok c0 =>
        simp only [hc] at h
        obtain ⟨b1, b2, b3, b4, b5, b6, b7, b8⟩ := ih _ s1 h
        refine ⟨b1, b2, b3, b4, ?_, ?_, ?_, ?_⟩
        · rw [b5]; simp [length_store]
        · intro p hp
          rw [b6 p hp]
          exact deref_store_ne _ _ (Ne.symm hp)
        · intro p hp
          exact b7 p (is_live_store _ _ _ _ hp)
        · intro c e
          injection e with e
          subst e
          obtain ⟨c1, e1, o1, l1⟩ := b8 _ (deref_store_self _ (deref_ok_lt hc))
          exact ⟨c1, e1, o1, l1⟩

theorem invalidate_requests_frame :
    ∀ (rs : List Ptr) (s s1 : State), invalidate_requests rs s = .ok s1 →
      s1.managers = s.managers ∧ s1.devices = s.devices ∧ s1.connectors = s.connectors ∧
        s1.leases = s.leases ∧ s1.resources = s.resources ∧ s1.events = s.events := by
  intro rs
  induction rs with
  | nil =>
    intro s s1 h
    simp only [invalidate_requests] at h
    injection h with h
    subst h
    exact ⟨rfl, rfl, rfl, rfl, rfl, rfl⟩
  | cons r rest ih =>
    intro s s1 h
    simp only [invalidate_requests] at h
    cases hr : from_resource .request s r with
    | error f => simp [hr] at h
    | ok u =>
      cases u with
      | none => simp [hr] at h
      | some request =>
        simp only [hr] at h
        cases hq : deref s.requests request with
        | error f => simp [hq] at h
        | ok req =>
          simp only [hq] at h
          have hrest := ih _ _ h
          exact hrest

theorem find_connector_unique (s : State) (output connector : Ptr) (conn : Connector)
    (hc : deref s.connectors connector = .ok conn) (hwraps : conn.output.ptr = output) :
    ∀ cs : List Ptr, connector ∈ cs →
      (∀ c ∈ cs, c ≠ connector →
        ∃ cc, deref s.connectors c = .ok cc ∧ cc.output.ptr ≠ output) →
      find_connector s output cs = .ok (some connector) := by
  intro cs
  induction cs with
  | nil => intro h; simp at h
  | cons c rest ih =>
    intro hmem hothers
    by_cases e : c = connector
    · subst e
      simp [find_connector, hc, hwraps]
    · obtain ⟨cc, hcc, hne⟩ := hothers c (List.mem_cons_self _ _) e
      simp only [find_connector, hcc, hne, if_false]
      apply ih
      · rcases List.mem_cons.mp hmem with h | h
        · exact absurd h.symm e
        · exact h
      · exact fun q hq => hothers q (List.mem_cons_of_mem _ hq)

theorem free_some_ok {α : Type} (h h1 : List (Option α)) (p : Ptr)
    (e : free h (some p) = .ok h1) : h1 = release h p ∧ p < h.length := by
  unfold free at e
  cases hp : deref h p with
  | error f => simp [hp] at e
  | ok a =>
    simp only [hp] at e
    injection e with e
    exact ⟨e.symm, deref_ok_lt hp⟩

theorem withdraw_frame (s s1 : State) (manager device connector : Ptr) (output : Output)
    (m : Manager) (dev : Device)
    (hm : deref s.managers manager = .ok m)
    (hfind : find_device s output.backend m.devices = .ok (.elem device))
    (hd : deref s.devices device = .ok dev)
    (hfc : find_connector s output.ptr dev.connectors = .ok (some connector))
    (hw : wlr_drm_lease_manager_withdraw_output s manager output = .ok s1) :
    s1.managers = s.managers ∧ s1.devices = unlink_connector connector s.devices ∧
      s1.connectors.length = s.connectors.length ∧
      (∀ p, p ≠ connector → deref s1.connectors p = deref s.connectors p) ∧
      deref s1.connectors connector = .error .use_after_free ∧
      (∀ p, is_live s.resources p = true → is_live s1.resources p = true) := by
  unfold wlr_drm_lease_manager_withdraw_output at hw
  simp only [hm, hfind, hd, hfc] at hw
  cases hc : deref s.connectors connector with
  | error f => simp [hc] at hw
  | ok conn =>
    simp only [hc] at hw
    split at hw
    · simp at hw
    · cases hwr : withdraw_resources connector conn.resources s with
      | error f => simp [hwr] at hw
      | ok sa =>
        simp only [hwr] at hw
        obtain ⟨a1, a2, _, _, a5, a6, a7, _⟩ :=
          withdraw_resources_frame connector conn.resources s sa hwr
        cases hda : deref sa.devices device with
        | error f => simp [hda] at hw
        | ok dev1 =>
          simp only [hda] at hw
          cases hir : invalidate_requests dev1.requests sa with
          | error f => simp [hir] at hw
          | ok sb =>
            simp only [hir] at hw
            obtain ⟨b1, b2, b3, _, b5, _⟩ := invalidate_requests_frame dev1.requests sa sb hir
            cases hfr : free sb.connectors (some connector) with
            | error f => simp [hfr] at hw
            | ok h =>
              simp [hfr] at hw
              subst hw
              obtain ⟨hh, hlt⟩ := free_some_ok _ _ _ hfr
              subst hh
              refine ⟨b1.trans a1, ?_, ?_, ?_, ?_, ?_⟩
              · show unlink_connector connector sb.devices = _
                rw [b2, a2]
              · show (release sb.connectors connector).length = _
                rw [b3, ← a5]
                simp [release]
              · intro p hp
                show deref (release sb.connectors connector) p = _
                rw [deref_release_ne _ (Ne.symm hp), b3, a6 p hp]
              · exact deref_release_self hlt
              · intro p hp
                show is_live sb.resources p = true
                rw [b5]
                exact a7 p hp



theorem post_event_frame (s s1 : State) (res : Option Ptr) (ev : Ptr → Event)
    (h : post_event s res ev = .ok s1) :
    s1.managers = s.managers ∧ s1.devices = s.devices ∧ s1.connectors = s.connectors ∧
      s1.requests = s.requests ∧ s1.leases = s.leases ∧ s1.resources = s.resources := by
  unfold post_event at h
  cases res with
  | none => simp at h
  | some r =>
    simp only at h
    cases hr : deref s.resources r with
    | error f => simp [hr] at h
    | ok x =>
      simp only [hr] at h
      injection h with h
      subst h
      exact ⟨rfl, rfl, rfl, rfl, rfl, rfl⟩

theorem grant_frame (env : Env) (s s1 : State) (request lease connector : Ptr)
    (req : Request)
    (hreq : deref s.requests request = .ok req)
    (hconn : req.connector = some connector)
    (hg : wlr_drm_lease_request_v1_grant env s request = .ok (s1, some lease)) :
    s1.managers = s.managers ∧ s1.devices = unlink_connector connector s.devices ∧
      s1.connectors.length = s.connectors.length ∧
      (∀ p, p ≠ connector → deref s1.connectors p = deref s.connectors p) ∧
      (∀ p, is_live s.resources p = true → is_live s1.resources p = true) ∧
      (∀ conn, deref s.connectors connector = .ok conn →
        ∃ c1, deref s1.connectors connector = .ok c1 ∧ c1.output = conn.output ∧
          c1.active_lease = some lease) := by
  unfold wlr_drm_lease_request_v1_grant at hg
  simp only [hreq] at hg
  cases hl : req.lease with
  | none => simp [hl] at hg
  | some lease0 =>
    simp only [hl] at hg
    cases hv : invalid_or_leased s req with
    | error f => simp [hv] at hg
    | ok bad =>
      cases bad with
      | true =>
        simp only [hv] at hg
        cases h1 : deref s.leases lease0 with
        | error f => simp [h1] at hg
        | ok l =>
          simp only [h1] at hg
          cases h2 : post_event s l.resource Event.lease_finished with
          | error f => simp [h2] at hg
          | ok s0 => simp [h2] at hg
      | false =>
        simp only [hv, hconn] at hg
        cases hdv : req.device with
        | none => simp [hdv] at hg
        | some device =>
          simp only [hdv] at hg
          cases h1 : deref (unlink_connector connector s.devices) device with
          | error f => simp [h1] at hg
          | ok dev =>
            cases h2 : deref s.connectors connector with
            | error f => simp [h1, h2] at hg
            | ok conn =>
              cases h3 : deref s.leases lease0 with
              | error f => simp [h1, h2, h3] at hg
              | ok l =>
                simp only [h1, h2, h3] at hg
                split at hg
                · split at hg
                  · simp at hg
                  · simp at hg
                · cases h4 : withdraw_resources connector conn.resources
                      { s with
                        devices := unlink_connector connector s.devices,
                        leases := store (store s.leases lease0
                          { l with
                            lessee_id :=
                              (env.create_lease dev.backend conn.output.ptr l.lessee_id).2 })
                          lease0
                          { l with
                            lessee_id :=
                              (env.create_lease dev.backend conn.output.ptr l.lessee_id).2,
                            connector := some connector },
                        events := s.events ++ [.create_lease dev.backend conn.output.ptr],
                        connectors := store s.connectors connector
                          { conn with active_lease := some lease0 } } with
                  | error f => simp [h4] at hg
                  | ok s4 =>
                    simp only [h4] at hg
                    split at hg
                    · simp at hg
                    · rename_i s5 h5
                      simp at hg
                      obtain ⟨hs, hlease⟩ := hg
                      subst hs hlease
                      obtain ⟨p1, p2, p3, _, _, p6⟩ := post_event_frame s4 s5 _ _ h5
                      obtain ⟨a1, a2, _, _, a5, a6, a7, a8⟩ :=
                        withdraw_resources_frame connector conn.resources _ s4 h4
                      refine ⟨?_, ?_, ?_, ?_, ?_, ?_⟩
                      · show s5.managers = _
                        rw [p1, a1]
                      · show s5.devices = _
                        rw [p2, a2]
                      · show s5.connectors.length = _
                        rw [p3, a5]
                        simp [length_store]
                      · intro p hp
                        show deref s5.connectors p = _
                        rw [p3, a6 p hp]
                        exact deref_store_ne _ _ (Ne.symm hp)
                      · intro p hp
                        show is_live s5.resources p = true
                        rw [p6]
                        exact a7 p hp
                      · intro c e
                        injection e with e
                        subst e
                        obtain ⟨c1, e1, o1, l1⟩ :=
                          a8 _ (deref_store_self _ (deref_ok_lt h2))
                        exact ⟨c1, by show deref s5.connectors connector = _; rw [p3]; exact e1,
                          o1, l1⟩



theorem backend_unlink_connector (connector : Ptr) (devices : List (Option Device)) (d : Ptr) :
    Except.map Device.backend (deref (unlink_connector connector devices) d) =
      Except.map Device.backend (deref devices d) := by
  unfold deref unlink_connector
  rw [List.getElem?_map]
  cases devices[d]? with
  | none => rfl
  | some o =>
    cases o with
    | none => rfl
    | some dev => rfl

theorem offer_after_unlink (env : Env) (s s1 : State) (manager device connector : Ptr)
    (output : Output) (m : Manager) (dev : Device)
    (hm : deref s.managers manager = .ok m)
    (hfind : find_device s output.backend m.devices = .ok (.elem device))
    (hd : deref s.devices device = .ok dev)
    (hothers : ∀ c ∈ dev.connectors, c ≠ connector →
      ∃ cc, deref s.connectors c = .ok cc ∧ cc.output.ptr ≠ output.ptr)
    (halloc : env.calloc_ok = true)
    (hbound : ∀ r ∈ dev.resources, is_live s.resources r = true)
    (hmem : ∀ r ∈ dev.resources, env.resource_ok s.connectors.length r = true)
    (h1 : s1.managers = s.managers)
    (h2 : s1.devices = unlink_connector connector s.devices)
    (h3 : s1.connectors.length = s.connectors.length)
    (h4 : ∀ p, p ≠ connector → deref s1.connectors p = deref s.connectors p)
    (h5 : ∀ p, is_live s.resources p = true → is_live s1.resources p = true) :
    ∃ s2, wlr_drm_lease_manager_offer_output env s1 manager output = .ok (s2, true) ∧
      deref s2.devices device =
        .ok { dev with
          connectors :=
            s.connectors.length :: dev.connectors.filter (fun c => c ≠ connector) } ∧
      deref s2.connectors s.connectors.length =
        .ok { resources := (List.range' s1.resources.length dev.resources.length).reverse,
              output := output, active_lease := none } ∧
      (∀ p, p ≠ s.connectors.length → deref s2.connectors p = deref s1.connectors p) := by
  have hd1 : deref s1.devices device =
      .ok { dev with connectors := dev.connectors.filter (fun c => c ≠ connector) } := by
    rw [h2]; exact deref_unlink_connector connector s.devices device dev hd
  have hf1 : find_device s1 output.backend m.devices = .ok (.elem device) := by
    rw [← hfind]
    apply find_device_congr
    intro d
    rw [h2]
    exact backend_unlink_connector connector s.devices d
  obtain ⟨s2, hrun, post⟩ := offer_new env s1 manager device output m
    { dev with connectors := dev.connectors.filter (fun c => c ≠ connector) }
    (by rw [h1]; exact hm) hf1 hd1
    (by
      intro c hc
      have hc1 : c ∈ dev.connectors.filter (fun c => decide (c ≠ connector)) := hc
      rw [List.mem_filter] at hc1
      have hne : c ≠ connector := by simpa using hc1.2
      obtain ⟨cc, hcc, hp⟩ := hothers c hc1.1 hne
      exact ⟨cc, by rw [h4 c hne]; exact hcc, hp⟩)
    halloc
    (fun r hr => h5 r (hbound r hr))
    (by rw [h3]; exact hmem)
  refine ⟨s2, hrun, ?_, ?_, ?_⟩
  · rw [post.devices, ← h3]
    exact deref_store_self _ (deref_ok_lt hd1)
  · rw [← h3, post.target]
    simp
  · intro p hp
    rw [← h3] at hp
    rw [post.others p hp]
    by_cases hlt : p < s1.connectors.length
    · exact deref_alloc_lt _ hlt
    · have hgt : s1.connectors.length < p := by omega
      unfold deref alloc
      rw [List.getElem?_eq_none (by simp; omega), List.getElem?_eq_none (by omega)]



theorem offer_twice_unchanged_witness :
    wlr_drm_lease_manager_offer_output demo_env demo_created 0 demo_output =
        .ok (demo_offered, true) ∧
      demo_env.calloc_ok = true ∧
      wlr_drm_lease_manager_offer_output demo_env demo_offered 0 demo_output =
        .ok (demo_offered, false) :=
  ⟨rfl, rfl,
    offer_twice_unchanged demo_env demo_env demo_created demo_offered 0 demo_output true
      rfl rfl⟩

/-- C7, as stated, fails: in `demo_created` the first call cannot allocate the
connector and returns false without changing anything; the second call, made
right after it, returns true and adds the connector. -/
theorem offer_after_failed_allocation :
    wlr_drm_lease_manager_offer_output demo_env_oom demo_created 0 demo_output =
        .ok (demo_created, false) ∧
      wlr_drm_lease_manager_offer_output demo_env demo_created 0 demo_output =
        .ok (demo_offered, true) ∧
      demo_offered.connectors ≠ demo_created.connectors :=
  ⟨rfl, rfl, by decide⟩

/-- C8, as stated, fails: `DP-1` is offered successfully and then withdrawn,
which frees its connector; the next offer of `DP-1` returns true and creates
connector 1, a new connector for `DP-1` in the connector list of the
device. -/
theorem offer_after_withdraw_accepted :
    ∃ s1 s2 dev2,
      wlr_drm_lease_manager_offer_output demo_env demo_created 0 demo_output =
        .ok (demo_offered, true) ∧
      wlr_drm_lease_manager_withdraw_output demo_offered 0 demo_output = .ok s1 ∧
      deref s1.connectors 0 = .error Fault.use_after_free ∧
      wlr_drm_lease_manager_offer_output demo_env s1 0 demo_output = .ok (s2, true) ∧
      deref s2.connectors 1 =
        .ok { resources := [], output := demo_output, active_lease := none } ∧
      deref s2.devices 0 = .ok dev2 ∧
      dev2.connectors = [1] :=
  ⟨_, _, _, rfl, rfl, rfl, rfl, rfl, rfl, rfl⟩

/-- A consequence of the unlink in `wlr_drm_lease_request_v1_grant`: in
`demo_granted` the connector of `DP-1` is under the active lease 0 and in no
connector list, so the loop of `wlr_drm_lease_manager_offer_output` that
looks for a connector of the output finds none, and the offer of `DP-1`
returns true and creates connector 1 next to the leased one. -/
theorem offer_while_leased_adds_connector :
    ∃ s3,
      deref demo_granted.connectors 0 = .ok demo_leased_connector ∧
      demo_leased_connector.output = demo_output ∧
      demo_leased_connector.active_lease = some 0 ∧
      wlr_drm_lease_manager_offer_output demo_env demo_granted 0 demo_output =
        .ok (s3, true) ∧
      deref s3.connectors 0 = .ok demo_leased_connector ∧
      deref s3.connectors 1 =
        .ok { resources := [7, 6], output := demo_output, active_lease := none } :=
  ⟨_, rfl, rfl, rfl, rfl, rfl, rfl⟩

/-- C8, amended: let the connector of output `o` be in the connector list of
the device of `o`'s backend, and be the only one in it that wraps `o`. Then
(1) an offer of `o` returns false and changes nothing; (2) once
`wlr_drm_lease_manager_withdraw_output` has removed the connector, an offer
of `o` returns true (when the allocations succeed) and puts a new connector
for `o`, without a lease and with one handle for each bound device resource,
at the front of the list. -/
theorem offer_again_by_history (env : Env) (s : State) (manager device connector : Ptr)
    (output : Output) (m : Manager) (dev : Device) (conn : Connector)
    (hm : deref s.managers manager = .ok m)
    (hfind : find_device s output.backend m.devices = .ok (.elem device))
    (hd : deref s.devices device = .ok dev)
    (hlisted : connector ∈ dev.connectors)
    (hc : deref s.connectors connector = .ok conn)
    (hwraps : conn.output.ptr = output.ptr)
    (hothers : ∀ c ∈ dev.connectors, c ≠ connector →
      ∃ cc, deref s.connectors c = .ok cc ∧ cc.output.ptr ≠ output.ptr)
    (halloc : env.calloc_ok = true)
    (hbound : ∀ r ∈ dev.resources, is_live s.resources r = true)
    (hmem : ∀ r ∈ dev.resources, env.resource_ok s.connectors.length r = true) :
    wlr_drm_lease_manager_offer_output env s manager output = .ok (s, false) ∧
    (∀ s1, wlr_drm_lease_manager_withdraw_output s manager output = .ok s1 →
      deref s1.connectors connector = .error .use_after_free ∧
      ∃ s2, wlr_drm_lease_manager_offer_output env s1 manager output = .ok (s2, true) ∧
        deref s2.devices device =
          .ok { dev with
            connectors :=
              s.connectors.length :: dev.connectors.filter (fun c => c ≠ connector) } ∧
        deref s2.connectors s.connectors.length =
          .ok { resources := (List.range' s1.resources.length dev.resources.length).reverse,
                output := output, active_lease := none }) := by
  refine ⟨?_, ?_⟩
  · have hex : connector_exists s output.ptr dev.connectors = .ok true := by
      apply connector_exists_true
      · intro c hcm
        by_cases e : c = connector
        · subst e
          exact (is_live_iff _ _).mpr ⟨conn, hc⟩
        · obtain ⟨cc, hcc, _⟩ := hothers c hcm e
          exact (is_live_iff _ _).mpr ⟨cc, hcc⟩
      · exact ⟨connector, hlisted, conn, hc, hwraps⟩
    simp [wlr_drm_lease_manager_offer_output, hm, hfind, hd, hex]
  · intro s1 hw
    have hfc := find_connector_unique s output.ptr connector conn hc hwraps dev.connectors
      hlisted hothers
    obtain ⟨w1, w2, w3, w4, w5, w6⟩ :=
      withdraw_frame s s1 manager device connector output m dev hm hfind hd hfc hw
    obtain ⟨s2, hrun, p1, p2, _⟩ := offer_after_unlink env s s1 manager device connector output
      m dev hm hfind hd hothers halloc hbound hmem w1 w2 w3 w4 w6
    exact ⟨w5, s2, hrun, p1, p2⟩

theorem offer_again_by_history_witness :
    wlr_drm_lease_manager_offer_output demo_env demo_submitted 0 demo_output =
        .ok (demo_submitted, false) ∧
    (∃ s1 s2, wlr_drm_lease_manager_withdraw_output demo_submitted 0 demo_output = .ok s1 ∧
      deref s1.connectors 0 = .error .use_after_free ∧
      wlr_drm_lease_manager_offer_output demo_env s1 0 demo_output = .ok (s2, true) ∧
      deref s2.devices 0 = .ok { demo_device with connectors := [1] } ∧
      deref s2.connectors 1 =
        .ok { resources := (List.range' s1.resources.length 2).reverse,
              output := demo_output, active_lease := none }) := by
  have h := offer_again_by_history demo_env demo_submitted 0 0 0 demo_output { devices := [0] }
    demo_device demo_connector rfl rfl rfl (by decide) rfl rfl
    (by
      intro c hc hne
      have hc0 : c = 0 := by simpa [demo_device] using hc
      exact absurd hc0 hne)
    rfl (by decide) (by decide)
  obtain ⟨h1, h2⟩ := h
  refine ⟨h1, ?_⟩
  obtain ⟨e0, s2, e1, e2, e3⟩ := h2 _ rfl
  exact ⟨_, s2, rfl, e0, e1, e2, e3⟩



/-! ## Withdraw -/

theorem is_live_store_eq {α : Type} (h : List (Option α)) (p q : Ptr) (a : α)
    (hp : is_live h p = true) : is_live (store h p a) q = is_live h q := by
  obtain ⟨b, hb⟩ := (is_live_iff h p).mp hp
  by_cases e : p = q
  · subst e
    rw [hp]
    exact (is_live_iff _ _).mpr ⟨a, deref_store_self a (deref_ok_lt hb)⟩
  · unfold is_live
    rw [deref_store_ne h a e]

theorem request_of_some (s : State) (r rq : Ptr) (h : request_of s r = some rq) :
    from_resource .request s r = .ok (some rq) ∧ is_live s.requests rq = true := by
  unfold request_of at h
  split at h
  · rename_i q hq
    by_cases hl : is_live s.requests q = true
    · simp only [hl, if_true] at h
      injection h with h
      subst h
      exact ⟨hq, hl⟩
    · simp [hl] at h
  · simp at h

theorem request_of_congr (s s1 : State) (r : Ptr)
    (hres : deref s1.resources r = deref s.resources r)
    (hreq : ∀ q, is_live s1.requests q = is_live s.requests q) :
    request_of s1 r = request_of s r := by
  have hfr : from_resource .request s1 r = from_resource .request s r := by
    unfold from_resource
    rw [hres]
  unfold request_of
  rw [hfr]
  cases from_resource .request s r with
  | error f => rfl
  | ok o =>
    cases o with
    | none => rfl
    | some q => simp only [hreq q]

theorem invalidate_requests_ok :
    ∀ (rs : List Ptr) (s : State), (∀ r ∈ rs, (request_of s r).isSome = true) →
      ∃ s1, invalidate_requests rs s = .ok s1 ∧
        s1.managers = s.managers ∧ s1.devices = s.devices ∧ s1.connectors = s.connectors ∧
        s1.leases = s.leases ∧ s1.resources = s.resources ∧ s1.events = s.events ∧
        (∀ r ∈ rs, ∀ rq req, request_of s r = some rq → deref s.requests rq = .ok req →
          deref s1.requests rq = .ok { req with invalid := true }) ∧
        (∀ rq, (∀ r ∈ rs, request_of s r ≠ some rq) →
          deref s1.requests rq = deref s.requests rq) := by
  intro rs
  induction rs with
  | nil =>
    intro s _
    exact ⟨s, rfl, rfl, rfl, rfl, rfl, rfl, rfl, by simp, fun _ _ => rfl⟩
  | cons r rest ih =>
    intro s hall
    have hr := hall r (List.mem_cons_self _ _)
    obtain ⟨rq, hrq⟩ := Option.isSome_iff_exists.mp hr
    obtain ⟨hfrom, hlive⟩ := request_of_some s r rq hrq
    obtain ⟨req, hreq⟩ := (is_live_iff _ _).mp hlive
    have hsame : ∀ q, request_of
        { s with requests := store s.requests rq { req with invalid := true } } q =
        request_of s q := by
      intro q
      apply request_of_congr
      · rfl
      · intro p
        exact is_live_store_eq _ _ _ _ hlive
    obtain ⟨s1, hrun, e1, e2, e3, e4, e5, e6, hset, hkeep⟩ := ih
      { s with requests := store s.requests rq { req with invalid := true } }
      (by
        intro q hq
        rw [hsame q]
        exact hall q (List.mem_cons_of_mem _ hq))
    refine ⟨s1, ?_, e1, e2, e3, e4, e5, e6, ?_, ?_⟩
    · simp only [invalidate_requests, hfrom, hreq]
      exact hrun
    · intro q hq tq treq htq hdq
      by_cases hmem : ∃ q1 ∈ rest, request_of s q1 = some tq
      · obtain ⟨q1, hq1, hq1t⟩ := hmem
        by_cases e : rq = tq
        · subst e
          rw [hreq] at hdq
          injection hdq with hdq
          subst hdq
          have := hset q1 hq1 rq { req with invalid := true }
            (by rw [hsame q1]; exact hq1t)
            (deref_store_self _ (deref_ok_lt hreq))
          simpa using this
        · exact hset q1 hq1 tq treq (by rw [hsame q1]; exact hq1t)
            (by
              show deref (store s.requests rq _) tq = _
              rw [deref_store_ne _ _ e]; exact hdq)
      · have hno : ∀ q1 ∈ rest, request_of
            { s with requests := store s.requests rq { req with invalid := true } } q1 ≠
            some tq := by
          intro q1 hq1 h
          rw [hsame q1] at h
          exact hmem ⟨q1, hq1, h⟩
        rw [hkeep tq hno]
        have hq0 : q = r := by
          rcases List.mem_cons.mp hq with h | h
          · exact h
          · exact absurd ⟨q, h, htq⟩ hmem
        subst hq0
        rw [hrq] at htq
        injection htq with htq
        subst htq
        rw [hreq] at hdq
        injection hdq with hdq
        subst hdq
        exact deref_store_self _ (deref_ok_lt hreq)
    · intro tq hno
      have hne : rq ≠ tq := by
        intro e
        subst e
        exact hno r (List.mem_cons_self _ _) hrq
      rw [hkeep tq (by
        intro q1 hq1 h
        rw [hsame q1] at h
        exact hno q1 (List.mem_cons_of_mem _ hq1) h)]
      exact deref_store_ne _ _ hne



/-- C11: when the lookup of `wlr_drm_lease_manager_withdraw_output` finds the
connector of the output in the connector list of the device and the connector
has no active lease, the call sends `withdrawn` to every handle of the
connector and clears the user data of each, sets `invalid` on every request
behind a resource of the device's request list (so on every one that targets
the connector), takes the connector out of the device's connector list and
frees it; and for an output of the same backend of which the lookup finds no
connector, the call returns the state as it is. -/
theorem withdraw_offered (s : State) (manager device connector : Ptr) (output : Output)
    (m : Manager) (dev : Device) (conn : Connector)
    (hm : deref s.managers manager = .ok m)
    (hfind : find_device s output.backend m.devices = .ok (.elem device))
    (hd : deref s.devices device = .ok dev)
    (hfc : find_connector s output.ptr dev.connectors = .ok (some connector))
    (hc : deref s.connectors connector = .ok conn)
    (hfree : conn.active_lease = none)
    (hhandles : ∀ r ∈ conn.resources, is_live s.resources r = true)
    (hreqs : ∀ r ∈ dev.requests, (request_of s r).isSome = true)
    (hdisj : ∀ r ∈ dev.requests, r ∉ conn.resources) :
    (∃ s1, wlr_drm_lease_manager_withdraw_output s manager output = .ok s1 ∧
      s1.events = s.events ++ conn.resources.map Event.withdrawn ∧
      (∀ r ∈ conn.resources, ∀ x, deref s.resources r = .ok x →
        deref s1.resources r = .ok { x with user_data := none }) ∧
      (∀ r ∈ dev.requests, ∀ rq req, request_of s r = some rq →
        deref s.requests rq = .ok req →
        deref s1.requests rq = .ok { req with invalid := true }) ∧
      deref s1.devices device =
        .ok { dev with connectors := dev.connectors.filter (fun c => c ≠ connector) } ∧
      (∀ d dev1, deref s1.devices d = .ok dev1 → connector ∉ dev1.connectors) ∧
      deref s1.connectors connector = .error Fault.use_after_free) ∧
    (∀ other : Output, other.backend = output.backend →
      find_connector s other.ptr dev.connectors = .ok none →
      wlr_drm_lease_manager_withdraw_output s manager other = .ok s) := by
  constructor
  · obtain ⟨sa, hwr, w⟩ := withdraw_resources_ok connector conn.resources s conn hc hhandles
    have hda : deref sa.devices device = .ok dev := by rw [w.devices]; exact hd
    obtain ⟨sb, hir, e1, e2, e3, e4, e5, e6, hset, _⟩ := invalidate_requests_ok dev.requests sa
      (by
        intro r hr
        rw [request_of_congr s sa r (w.resources r (hdisj r hr))
          (by intro q; rw [w.requests])]
        exact hreqs r hr)
    have hcb : deref sb.connectors connector =
        .ok { conn with
          resources := conn.resources.filter (fun x => decide (x ∉ conn.resources)) } := by
      rw [e3]; exact w.target
    have hnone : conn.active_lease.isSome = false := by rw [hfree]; rfl
    refine ⟨{ sb with
        devices := unlink_connector connector sb.devices,
        connectors := release sb.connectors connector }, ?_, ?_, ?_, ?_, ?_, ?_, ?_⟩
    · simp [wlr_drm_lease_manager_withdraw_output, hm, hfind, hd, hfc, hc, hnone, hwr, hda,
        hir, free, hcb]
    · show sb.events = _
      rw [e6, w.events]
    · intro r hr x hx
      show deref sb.resources r = _
      rw [e5]
      exact w.cleared r hr x hx
    · intro r hr rq req hrq hreq
      apply hset r hr rq req
      · rw [request_of_congr s sa r (w.resources r (hdisj r hr))
          (by intro q; rw [w.requests])]
        exact hrq
      · rw [w.requests]; exact hreq
    · show deref (unlink_connector connector sb.devices) device = _
      rw [e2, w.devices]
      exact deref_unlink_connector connector s.devices device dev hd
    · intro d dev1 h
      exact not_mem_unlink_connector connector sb.devices d dev1 h
    · exact deref_release_self (deref_ok_lt hcb)
  · intro other hb hnf
    simp [wlr_drm_lease_manager_withdraw_output, hm, hb, hfind, hd, hnf]

theorem withdraw_offered_witness :
    (∃ s1, wlr_drm_lease_manager_withdraw_output demo_targeted 0 demo_output = .ok s1 ∧
      s1.events = demo_targeted.events ++ demo_connector.resources.map Event.withdrawn ∧
      (∀ r ∈ demo_connector.resources, ∀ x, deref demo_targeted.resources r = .ok x →
        deref s1.resources r = .ok { x with user_data := none }) ∧
      (∀ r ∈ ([4] : List Ptr), ∀ rq req, request_of demo_targeted r = some rq →
        deref demo_targeted.requests rq = .ok req →
        deref s1.requests rq = .ok { req with invalid := true }) ∧
      deref s1.devices 0 =
        .ok { resources := [2, 0], global := some 0, manager := some 0, backend := 9,
              connectors := ([0] : List Ptr).filter (fun c => c ≠ 0), leases := [],
              requests := [4] } ∧
      (∀ d dev1, deref s1.devices d = .ok dev1 → 0 ∉ dev1.connectors) ∧
      deref s1.connectors 0 = .error Fault.use_after_free) ∧
    (∀ other : Output, other.backend = demo_output.backend →
      find_connector demo_targeted other.ptr [0] = .ok none →
      wlr_drm_lease_manager_withdraw_output demo_targeted 0 other = .ok demo_targeted) :=
  withdraw_offered demo_targeted 0 0 0 demo_output { devices := [0] }
    { resources := [2, 0], global := some 0, manager := some 0, backend := 9,
      connectors := [0], leases := [], requests := [4] }
    demo_connector rfl rfl rfl rfl rfl rfl (by decide) (by decide) (by decide)



theorem demo_leased_eq :
    run demo_env (demo_steps ++ [Op.submit 1 4 Decision.grant]) demo_created =
      .ok demo_leased := by
  rfl

/-- C12, evaluated: in `demo_granted` the connector of `DP-1` is held by the
active lease 0. Withdrawing `DP-1` there does not stop at the assertion: the
connector was unlinked by the grant, the lookup finds nothing, and the call
returns with the state as it was. The same happens once the submit is over
(`demo_leased`). -/
theorem withdraw_leased_returns :
    deref demo_granted.connectors 0 = .ok demo_leased_connector ∧
    demo_leased_connector.output = demo_output ∧
    demo_leased_connector.active_lease = some 0 ∧
    deref demo_granted.leases 0 = .ok demo_lease_granted ∧
    demo_lease_granted.connector = some 0 ∧
    wlr_drm_lease_manager_withdraw_output demo_granted 0 demo_output = .ok demo_granted ∧
    wlr_drm_lease_manager_withdraw_output demo_leased 0 demo_output = .ok demo_leased :=
  ⟨rfl, rfl, rfl, rfl, rfl, rfl, rfl⟩

/-- C13, evaluated: withdrawing `DP-1` in `demo_granted`, where it is leased
to client 1 through lease 0 with lessee id 5, sends nothing (no `finished`,
no call of `terminate_lease`) and leaves the connector's active lease and
the lease as they are. -/
theorem withdraw_leased_keeps_lease :
    ∃ s1, wlr_drm_lease_manager_withdraw_output demo_granted 0 demo_output = .ok s1 ∧
      s1.events = demo_granted.events ∧
      Event.lease_finished 5 ∉ s1.events ∧
      Event.terminate_lease 9 5 ∉ s1.events ∧
      deref s1.connectors 0 = .ok demo_leased_connector ∧
      demo_leased_connector.active_lease = some 0 ∧
      deref s1.leases 0 = .ok demo_lease_granted :=
  ⟨_, rfl, rfl, by decide, by decide, rfl, rfl, rfl⟩

/-! ## Submit -/

theorem store_alloc {α : Type} (h : List (Option α)) (a b : α) :
    store (alloc h a) h.length b = alloc h b := by
  simp [store, alloc]

theorem destroy_request_events (env : Env) (s s1 : State) (resource : Ptr) (x : Resource)
    (hres : deref s.resources resource = .ok x) (hif : x.iface = .request)
    (h : wl_resource_destroy env s resource = .ok s1) : s1.events = s.events := by
  unfold wl_resource_destroy at h
  simp only [hres, hif] at h
  cases hd : drm_lease_request_v1_handle_resource_destroy s resource with
  | error f => simp [hd] at h
  | ok s0 =>
    simp only [hd] at h
    have h0 : s0.events = s.events := by
      unfold drm_lease_request_v1_handle_resource_destroy at hd
      cases hf : from_resource .request s resource with
      | error f => simp [hf] at hd
      | ok req =>
        simp only [hf] at hd
        cases hq : drm_lease_request_v1_destroy s req with
        | error f => simp [hq] at hd
        | ok sq =>
          simp only [hq] at hd
          injection hd with hd
          subst hd
          show sq.events = s.events
          unfold drm_lease_request_v1_destroy at hq
          cases req with
          | none =>
            simp only at hq
            injection hq with hq
            subst hq
            rfl
          | some r =>
            simp only at hq
            cases h1 : deref s.requests r with
            | error f => simp [h1] at hq
            | ok rq =>
              simp only [h1] at hq
              cases h2 : free s.connectors rq.connector with
              | error f => simp [h2] at hq
              | ok hc =>
                simp only [h2] at hq
                split at hq
                · simp at hq
                · injection hq with hq
                  subst hq
                  rfl
    cases hfr : free s0.resources (some resource) with
    | error f => simp [hfr] at h
    | ok hh =>
      simp only [hfr] at h
      injection h with h
      subst h
      exact h0



theorem submit_valid (env : Env) (handler : State → Ptr → Except Fault State) (s : State)
    (client resource rq device manager connector : Ptr) (x : Resource) (req : Request)
    (dev : Device) (conn : Connector)
    (hres : deref s.resources resource = .ok x)
    (hif : x.iface = .request)
    (hud : x.user_data = some rq)
    (hreq : deref s.requests rq = .ok req)
    (hcal : env.calloc_ok = true)
    (hwl : env.wl_resource_ok = true)
    (hdev : req.device = some device)
    (hd : deref s.devices device = .ok dev)
    (hmgr : dev.manager = some manager)
    (hml : is_live s.managers manager = true)
    (hvalid : req.invalid = false)
    (hconn : req.connector = some connector)
    (hc : deref s.connectors connector = .ok conn)
    (hfree : conn.active_lease = none) :
    drm_lease_request_v1_handle_submit env handler s client resource =
      match handler
          { submitted s client rq device req dev with
            events := s.events ++ [Event.request_signal manager rq] } rq with
      | .error f => .error f
      | .ok s5 => wl_resource_destroy env s5 resource := by
  obtain ⟨mg, hmg⟩ := (is_live_iff _ _).mp hml
  have hfrom : from_resource .request s resource = .ok (some rq) := by
    simp [from_resource, hres, hif, hud]
  simp only [drm_lease_request_v1_handle_submit, hfrom, hcal, hwl, hreq, hdev, hd,
    invalid_or_leased, hvalid, hconn, hc, hfree, hmgr, hmg, length_alloc, store_alloc,
    submitted]
  simp

theorem submit_invalid (env : Env) (handler : State → Ptr → Except Fault State) (s : State)
    (client resource rq device : Ptr) (x : Resource) (req : Request) (dev : Device)
    (hres : deref s.resources resource = .ok x)
    (hif : x.iface = .request)
    (hud : x.user_data = some rq)
    (hreq : deref s.requests rq = .ok req)
    (hcal : env.calloc_ok = true)
    (hwl : env.wl_resource_ok = true)
    (hdev : req.device = some device)
    (hd : deref s.devices device = .ok dev)
    (hinvalid : req.invalid = true) :
    drm_lease_request_v1_handle_submit env handler s client resource =
      wl_resource_destroy env
        { submitted s client rq device req dev with
          events := s.events ++ [Event.lease_finished s.resources.length] } resource := by
  have hfrom : from_resource .request s resource = .ok (some rq) := by
    simp [from_resource, hres, hif, hud]
  have hnew : deref (alloc s.resources
      ({ iface := .lease, client := client, user_data := some s.leases.length } : Resource))
      s.resources.length = .ok _ := deref_alloc_new _ _
  simp only [drm_lease_request_v1_handle_submit, hfrom, hcal, hwl, hreq, hdev, hd,
    invalid_or_leased, hinvalid, length_alloc, store_alloc, submitted, post_event, hnew]
  simp



theorem submit_rejected (env : Env) (handler : State → Ptr → Except Fault State) (s : State)
    (client resource rq device : Ptr) (x : Resource) (req : Request) (dev : Device)
    (hres : deref s.resources resource = .ok x)
    (hif : x.iface = .request)
    (hud : x.user_data = some rq)
    (hreq : deref s.requests rq = .ok req)
    (hcal : env.calloc_ok = true)
    (hwl : env.wl_resource_ok = true)
    (hdev : req.device = some device)
    (hd : deref s.devices device = .ok dev)
    (hbad : invalid_or_leased s req = .ok true) :
    drm_lease_request_v1_handle_submit env handler s client resource =
      wl_resource_destroy env
        { submitted s client rq device req dev with
          events := s.events ++ [Event.lease_finished s.resources.length] } resource := by
  cases hinv : req.invalid with
  | true =>
    exact submit_invalid env handler s client resource rq device x req dev hres hif hud hreq
      hcal hwl hdev hd hinv
  | false =>
    unfold invalid_or_leased at hbad
    simp only [hinv] at hbad
    cases hconn : req.connector with
    | none => simp [hconn] at hbad
    | some c =>
      simp only [hconn] at hbad
      cases hc : deref s.connectors c with
      | error f => simp [hc] at hbad
      | ok conn =>
        simp only [hc] at hbad
        injection hbad with hbad
        have hfrom : from_resource .request s resource = .ok (some rq) := by
          simp [from_resource, hres, hif, hud]
        have hnew : deref (alloc s.resources
            ({ iface := .lease, client := client, user_data := some s.leases.length } :
              Resource))
            s.resources.length = .ok _ := deref_alloc_new _ _
        simp only [drm_lease_request_v1_handle_submit, hfrom, hcal, hwl, hreq, hdev, hd,
          invalid_or_leased, hinv, hconn, hc, hbad, length_alloc, store_alloc, submitted,
          post_event, hnew]
        simp

theorem not_mem_unlink_resource (resource : Ptr) (s : State) (d : Ptr) (dev : Device)
    (hd : deref (unlink_resource resource s).devices d = .ok dev) :
    resource ∉ dev.requests ∧ resource ∉ dev.leases ∧ resource ∉ dev.resources := by
  rw [deref_ok_iff] at hd
  simp only [unlink_resource, List.getElem?_map] at hd
  cases h : s.devices[d]? with
  | none => simp [h] at hd
  | some o =>
    cases o with
    | none => simp [h] at hd
    | some dev0 =>
      simp [h] at hd
      subst hd
      simp

theorem destroy_request_ok (env : Env) (s : State) (resource rq : Ptr) (x : Resource)
    (req : Request) (h : List (Option Connector))
    (hres : deref s.resources resource = .ok x)
    (hif : x.iface = .request)
    (hud : x.user_data = some rq)
    (hreq : deref s.requests rq = .ok req)
    (hfree : free s.connectors req.connector = .ok h) :
    ∃ s1, wl_resource_destroy env s resource = .ok s1 ∧
      s1.requests = release s.requests rq ∧
      s1.devices = (unlink_resource resource s).devices ∧
      s1.leases = s.leases ∧ s1.events = s.events ∧ s1.managers = s.managers ∧
      s1.resources = release s.resources resource := by
  have hfrom : from_resource .request s resource = .ok (some rq) := by
    simp [from_resource, hres, hif, hud]
  refine ⟨{ (unlink_resource resource
      { s with connectors := h, requests := release s.requests rq }) with
      resources := release s.resources resource }, ?_, rfl, rfl, rfl, rfl, rfl, rfl⟩
  simp only [wl_resource_destroy, hres, hif, drm_lease_request_v1_handle_resource_destroy,
    hfrom, drm_lease_request_v1_destroy, hreq, hfree]
  simp [free, hreq, hres, unlink_resource]



/-- C14, as stated, fails: in `demo_stale_steps` the output is withdrawn
before client 1 targets its connector handle, so the request is invalid when
it is submitted. The lease is allocated (lease 0 with resource 3), `finished`
is sent to it, and the `request` signal is never emitted. -/
theorem submit_stale_request_not_signalled :
    ∃ s, run demo_env demo_stale_steps demo_created = .ok s ∧
      deref s.leases 0 =
        .ok { resource := some 3, device := some 0, connector := none, lessee_id := 0 } ∧
      s.events =
        [ Event.drm_fd 0 3, Event.close 3, Event.connector 0 1,
          Event.name 1 [68, 80, 45, 49],
          Event.description 1 [65, 32, 66, 32, 67, 32, 40, 68, 80, 45, 49, 41],
          Event.connector_id 1 42, Event.withdrawn 1, Event.lease_finished 3 ] ∧
      (∀ manager request, Event.request_signal manager request ∉
        [ Event.drm_fd 0 3, Event.close 3, Event.connector 0 1,
          Event.name 1 [68, 80, 45, 49],
          Event.description 1 [65, 32, 66, 32, 67, 32, 40, 68, 80, 45, 49, 41],
          Event.connector_id 1 42, Event.withdrawn 1, Event.lease_finished 3 ]) :=
  ⟨_, rfl, rfl, rfl, by simp⟩

/-- C14, amended: let a client submit a request, the allocations of the lease
and of its resource succeeding. If the request is not invalid and its target
connector has no active lease, the submit emits the `request` signal of the
device's manager once, with the request, and this is the only event of the
submit before the listener runs, so it comes before any `finished` or
`lease_fd` for the new lease; after the listener the submit only destroys
the request resource, which sends nothing. If the request is invalid, or its
target connector has an active lease, the signal is not emitted: `finished`
is sent to the new lease and nothing else. -/
theorem submit_emits_request (env : Env) (handler : State → Ptr → Except Fault State)
    (s : State) (client resource rq device : Ptr) (x : Resource) (req : Request)
    (dev : Device)
    (hres : deref s.resources resource = .ok x)
    (hif : x.iface = .request)
    (hud : x.user_data = some rq)
    (hreq : deref s.requests rq = .ok req)
    (hcal : env.calloc_ok = true)
    (hwl : env.wl_resource_ok = true)
    (hdev : req.device = some device)
    (hd : deref s.devices device = .ok dev) :
    (∀ manager connector conn, dev.manager = some manager →
      is_live s.managers manager = true → req.invalid = false →
      req.connector = some connector → deref s.connectors connector = .ok conn →
      conn.active_lease = none →
      drm_lease_request_v1_handle_submit env handler s client resource =
        (match handler
            { submitted s client rq device req dev with
              events := s.events ++ [Event.request_signal manager rq] } rq with
        | .error f => .error f
        | .ok s5 => wl_resource_destroy env s5 resource) ∧
      (∀ s5 s6 x5,
        handler
          { submitted s client rq device req dev with
            events := s.events ++ [Event.request_signal manager rq] } rq = .ok s5 →
        deref s5.resources resource = .ok x5 → x5.iface = .request →
        wl_resource_destroy env s5 resource = .ok s6 → s6.events = s5.events)) ∧
    (invalid_or_leased s req = .ok true →
      drm_lease_request_v1_handle_submit env handler s client resource =
        wl_resource_destroy env
          { submitted s client rq device req dev with
            events := s.events ++ [Event.lease_finished s.resources.length] } resource ∧
      (∀ s6, drm_lease_request_v1_handle_submit env handler s client resource = .ok s6 →
        s6.events = s.events ++ [Event.lease_finished s.resources.length])) := by
  constructor
  · intro manager connector conn hmgr hml hvalid hconn hc hfree
    refine ⟨submit_valid env handler s client resource rq device manager connector x req dev
      conn hres hif hud hreq hcal hwl hdev hd hmgr hml hvalid hconn hc hfree, ?_⟩
    intro s5 s6 x5 _ h5 hif5 hdes
    exact destroy_request_events env s5 s6 resource x5 h5 hif5 hdes
  · intro hbad
    have heq := submit_rejected env handler s client resource rq device x req dev hres hif hud
      hreq hcal hwl hdev hd hbad
    refine ⟨heq, ?_⟩
    intro s6 h6
    rw [heq] at h6
    have hlive : deref
        ({ submitted s client rq device req dev with
          events := s.events ++ [Event.lease_finished s.resources.length] } : State).resources
        resource = .ok x := by
      show deref (alloc s.resources _) resource = .ok x
      rw [deref_alloc_lt _ (deref_ok_lt hres)]
      exact hres
    exact destroy_request_events env _ s6 resource x hlive hif h6

theorem submit_emits_request_witness :
    drm_lease_request_v1_handle_submit demo_env (listener demo_env Decision.ignore)
        demo_targeted 1 4 =
      (match listener demo_env Decision.ignore
          { submitted demo_targeted 1 0 0
              { resource := some 4, device := some 0, connector := some 0, invalid := false,
                lease := none }
              { resources := [2, 0], global := some 0, manager := some 0, backend := 9,
                connectors := [0], leases := [], requests := [4] } with
            events := demo_targeted.events ++ [Event.request_signal 0 0] } 0 with
      | .error f => .error f
      | .ok s5 => wl_resource_destroy demo_env s5 4) :=
  ((submit_emits_request demo_env (listener demo_env Decision.ignore) demo_targeted 1 4 0 0
    { iface := .request, client := 1, user_data := some 0 }
    { resource := some 4, device := some 0, connector := some 0, invalid := false,
      lease := none }
    { resources := [2, 0], global := some 0, manager := some 0, backend := 9,
      connectors := [0], leases := [], requests := [4] }
    rfl rfl rfl rfl rfl rfl rfl rfl).1 0 0 demo_connector rfl rfl rfl rfl rfl rfl).1

/-- C15, as stated, fails: after `demo_steps` client 1 submits and the
listener returns without deciding. When the submit is over the request is
freed and gone from the device's request list, and a grant or a reject of it
reads freed memory. -/
theorem submit_undecided_request_destroyed :
    ∃ s dev, run demo_env (demo_steps ++ [Op.submit 1 4 Decision.ignore]) demo_created =
        .ok s ∧
      deref s.requests 0 = .error Fault.use_after_free ∧
      deref s.devices 0 = .ok dev ∧
      dev.requests = [] ∧
      wlr_drm_lease_request_v1_grant demo_env s 0 = .error Fault.use_after_free ∧
      wlr_drm_lease_request_v1_reject s 0 = .error Fault.use_after_free :=
  ⟨_, _, rfl, rfl, rfl, rfl, rfl, rfl⟩

/-- C15, amended: if the listener returns without calling grant or reject,
then when the submit is over the request has been destroyed: it is freed, its
resource is in no device's request list, and a later grant or reject of it
reads freed memory. What stays behind is the lease that the submit created,
undecided: it has its resource and the device of the request, no connector
and lessee id 0, and the only event of the submit is the `request` signal. -/
theorem submit_ignored (env : Env) (s : State)
    (client resource rq device manager connector : Ptr) (x : Resource) (req : Request)
    (dev : Device) (conn : Connector)
    (hres : deref s.resources resource = .ok x)
    (hif : x.iface = .request)
    (hud : x.user_data = some rq)
    (hreq : deref s.requests rq = .ok req)
    (hcal : env.calloc_ok = true)
    (hwl : env.wl_resource_ok = true)
    (hdev : req.device = some device)
    (hd : deref s.devices device = .ok dev)
    (hmgr : dev.manager = some manager)
    (hml : is_live s.managers manager = true)
    (hvalid : req.invalid = false)
    (hconn : req.connector = some connector)
    (hc : deref s.connectors connector = .ok conn)
    (hfree : conn.active_lease = none) :
    ∃ s1, drm_lease_request_v1_handle_submit env (fun s0 _ => .ok s0) s client resource =
        .ok s1 ∧
      deref s1.requests rq = .error Fault.use_after_free ∧
      (∀ d dev1, deref s1.devices d = .ok dev1 → resource ∉ dev1.requests) ∧
      (∀ env1, wlr_drm_lease_request_v1_grant env1 s1 rq = .error Fault.use_after_free) ∧
      wlr_drm_lease_request_v1_reject s1 rq = .error Fault.use_after_free ∧
      deref s1.leases s.leases.length =
        .ok { resource := some s.resources.length, device := some device, connector := none,
              lessee_id := 0 } ∧
      s1.events = s.events ++ [Event.request_signal manager rq] := by
  have heq := submit_valid env (fun s0 _ => .ok s0) s client resource rq device manager
    connector x req dev conn hres hif hud hreq hcal hwl hdev hd hmgr hml hvalid hconn hc hfree
  simp only at heq
  have hrlt := deref_ok_lt hreq
  obtain ⟨s1, hdes, e1, e2, e3, e4, _, _⟩ := destroy_request_ok env
    { submitted s client rq device req dev with
      events := s.events ++ [Event.request_signal manager rq] }
    resource rq x { req with lease := some s.leases.length } (release s.connectors connector)
    (by
      show deref (alloc s.resources _) resource = .ok x
      rw [deref_alloc_lt _ (deref_ok_lt hres)]
      exact hres)
    hif hud
    (deref_store_self _ hrlt)
    (by simp [free, submitted, hconn, hc])
  have hgone : deref s1.requests rq = .error Fault.use_after_free := by
    rw [e1]
    exact deref_release_self (by simpa [submitted, length_store] using hrlt)
  refine ⟨s1, heq.trans hdes, hgone, ?_, ?_, ?_, ?_, ?_⟩
  · intro d dev1 h
    rw [e2] at h
    exact (not_mem_unlink_resource resource _ d dev1 h).1
  · intro env1
    simp [wlr_drm_lease_request_v1_grant, hgone]
  · simp [wlr_drm_lease_request_v1_reject, hgone]
  · rw [e3]
    show deref (alloc s.leases _) s.leases.length = _
    rw [deref_alloc_new, hdev]
  · rw [e4]

theorem submit_ignored_witness :
    ∃ s1, drm_lease_request_v1_handle_submit demo_env (fun s0 _ => .ok s0) demo_targeted 1 4 =
        .ok s1 ∧
      deref s1.requests 0 = .error Fault.use_after_free ∧
      (∀ d dev1, deref s1.devices d = .ok dev1 → 4 ∉ dev1.requests) ∧
      (∀ env1, wlr_drm_lease_request_v1_grant env1 s1 0 = .error Fault.use_after_free) ∧
      wlr_drm_lease_request_v1_reject s1 0 = .error Fault.use_after_free ∧
      deref s1.leases demo_targeted.leases.length =
        .ok { resource := some demo_targeted.resources.length, device := some 0,
              connector := none, lessee_id := 0 } ∧
      s1.events = demo_targeted.events ++ [Event.request_signal 0 0] :=
  submit_ignored demo_env demo_targeted 1 4 0 0 0 0
    { iface := .request, client := 1, user_data := some 0 }
    { resource := some 4, device := some 0, connector := some 0, invalid := false,
      lease := none }
    { resources := [2, 0], global := some 0, manager := some 0, backend := 9,
      connectors := [0], leases := [], requests := [4] }
    demo_connector rfl rfl rfl rfl rfl rfl rfl rfl rfl rfl rfl rfl rfl rfl



/-! ## Reject -/

/-- C16: rejecting a submitted request sends one `finished` to the lease
resource of the request and sets `invalid` on the request; nothing else
changes: managers, devices with their connector lists, connectors with
output, active lease and handles, leases and resources are as before. -/
theorem reject_effects (s : State) (request lease res : Ptr) (req : Request) (l : Lease)
    (hreq : deref s.requests request = .ok req)
    (hlease : req.lease = some lease)
    (hl : deref s.leases lease = .ok l)
    (hres : l.resource = some res)
    (hreslive : is_live s.resources res = true) :
    ∃ s1, wlr_drm_lease_request_v1_reject s request = .ok s1 ∧
      s1 = { s with
        events := s.events ++ [Event.lease_finished res],
        requests := store s.requests request { req with invalid := true } } ∧
      deref s1.requests request = .ok { req with invalid := true } ∧
      (∀ p, p ≠ request → deref s1.requests p = deref s.requests p) ∧
      s1.events = s.events ++ [Event.lease_finished res] ∧
      s1.devices = s.devices ∧ s1.connectors = s.connectors ∧ s1.leases = s.leases ∧
      s1.resources = s.resources ∧ s1.managers = s.managers := by
  refine ⟨_, ?_, rfl, ?_, ?_, rfl, rfl, rfl, rfl, rfl, rfl⟩
  · simp [wlr_drm_lease_request_v1_reject, hreq, hlease, hl, hres,
      post_event_ok s res _ hreslive]
  · exact deref_store_self _ (deref_ok_lt hreq)
  · intro p hp
    exact deref_store_ne _ _ (Ne.symm hp)

theorem reject_effects_witness :
    ∃ s1, wlr_drm_lease_request_v1_reject demo_submitted 0 = .ok s1 ∧
      s1 = { demo_submitted with
        events := demo_submitted.events ++ [Event.lease_finished 5],
        requests := store demo_submitted.requests 0 { demo_request with invalid := true } } ∧
      deref s1.requests 0 = .ok { demo_request with invalid := true } ∧
      (∀ p, p ≠ 0 → deref s1.requests p = deref demo_submitted.requests p) ∧
      s1.events = demo_submitted.events ++ [Event.lease_finished 5] ∧
      s1.devices = demo_submitted.devices ∧ s1.connectors = demo_submitted.connectors ∧
      s1.leases = demo_submitted.leases ∧ s1.resources = demo_submitted.resources ∧
      s1.managers = demo_submitted.managers :=
  reject_effects demo_submitted 0 0 5 demo_request demo_lease rfl rfl rfl rfl rfl

/-! ## Destruction -/

/-- C17, evaluated: in `demo_targeted` the request of client 1 targets
connector 0, which is offered to both clients. Destroying the request
resource frees the connector, which stays in the connector list of the
device; after that a client that binds faults on the freed connector. The
same `free(req->connector)` is behind the failures of C1 and C19. -/
theorem destroy_request_frees_connector :
    ∃ s1 dev1, deref demo_targeted.connectors 0 = .ok demo_connector ∧
      wl_resource_destroy demo_env demo_targeted 4 = .ok s1 ∧
      deref s1.requests 0 = .error Fault.use_after_free ∧
      deref s1.connectors 0 = .error Fault.use_after_free ∧
      deref s1.devices 0 = .ok dev1 ∧
      dev1.connectors = [0] ∧
      lease_device_bind demo_env s1 3 0 = .error Fault.use_after_free :=
  ⟨_, _, rfl, rfl, rfl, rfl, rfl, rfl, rfl⟩

/-- C18, evaluated: for a multi backend without children, and for a multi
backend whose only child is not a DRM backend, the call returns a manager
with an empty device list, not `NULL`; for a single backend that is not a
DRM backend it returns `NULL`. -/
theorem create_multi_without_drm :
    ∃ s1 s2 s3, wlr_drm_lease_manager_create demo_env State.empty demo_no_drm =
        .ok (s1, some 0) ∧
      deref s1.managers 0 = .ok { devices := [] } ∧
      wlr_drm_lease_manager_create demo_env State.empty demo_multi_other =
        .ok (s2, some 0) ∧
      deref s2.managers 0 = .ok { devices := [] } ∧
      s2.devices = [] ∧
      wlr_drm_lease_manager_create demo_env State.empty demo_other = .ok (s3, none) :=
  ⟨_, _, _, rfl, rfl, rfl, rfl, rfl, rfl⟩

/-- C19, evaluated: in `demo_leased` lease 0 is granted and holds connector
0, which was freed when the submit destroyed the request; the revoke of the
lease, and with it `handle_backend_destroy`, reads the freed connector. And
in `demo_granted`, where the request is still there and the connector still
allocated, `handle_backend_destroy` destroys the request resources first,
which frees the connector before the lease loop is reached. -/
theorem backend_destroy_revokes_after_free :
    ∃ s1 s2, deref demo_leased.leases 0 = .ok demo_lease_granted ∧
      demo_lease_granted.connector = some 0 ∧
      deref demo_leased.connectors 0 = .error Fault.use_after_free ∧
      wlr_drm_lease_v1_revoke demo_env demo_leased 0 = .error Fault.use_after_free ∧
      handle_backend_destroy demo_env demo_leased 0 = .error Fault.use_after_free ∧
      deref demo_granted.connectors 0 = .ok demo_leased_connector ∧
      destroy_resources demo_env [2, 0] demo_granted = .ok s1 ∧
      destroy_resources demo_env [4] s1 = .ok s2 ∧
      deref s2.leases 0 = .ok demo_lease_granted ∧
      deref s2.connectors 0 = .error Fault.use_after_free ∧
      handle_backend_destroy demo_env demo_granted 0 = .error Fault.use_after_free :=
  ⟨_, _, rfl, rfl, rfl, rfl, rfl, rfl, rfl, rfl, rfl, rfl, rfl⟩

/-- C20, evaluated: `handle_backend_destroy` for device 0 of `demo_created`
frees the device and leaves its address in the manager's device list;
offering or withdrawing an output of the device's backend afterwards reads
the freed device. -/
theorem backend_destroy_leaves_device_listed :
    handle_backend_destroy demo_env demo_created 0 = .ok demo_destroyed ∧
      deref demo_destroyed.managers 0 = .ok { devices := [0] } ∧
      deref demo_destroyed.devices 0 = .error Fault.use_after_free ∧
      demo_output.backend = 9 ∧
      wlr_drm_lease_manager_offer_output demo_env demo_destroyed 0 demo_output =
        .error Fault.use_after_free ∧
      wlr_drm_lease_manager_withdraw_output demo_destroyed 0 demo_output =
        .error Fault.use_after_free :=
  ⟨rfl, rfl, rfl, rfl, rfl, rfl⟩



/-! ## Handles on grant -/

/-- C21, as stated, fails: in `demo_submitted` client 1 is the requester (the
lease resource 5 is its resource) and holds handle 1 of the connector, client
2 holds handle 3. The grant sends `withdrawn` to both handles and clears the
user data of both, the requester's included. -/
theorem grant_withdraws_requester_handle :
    ∃ s1, deref demo_submitted.resources 5 =
        .ok { iface := .lease, client := 1, user_data := some 0 } ∧
      deref demo_submitted.resources 1 =
        .ok { iface := .connector, client := 1, user_data := some 0 } ∧
      demo_connector.resources = [3, 1] ∧
      wlr_drm_lease_request_v1_grant demo_env demo_submitted 0 = .ok (s1, some 0) ∧
      Event.withdrawn 1 ∈ s1.events ∧
      deref s1.resources 1 = .ok { iface := .connector, client := 1, user_data := none } ∧
      deref s1.connectors 0 = .ok demo_leased_connector ∧
      demo_leased_connector.resources = [] :=
  ⟨_, rfl, rfl, rfl, rfl, by decide, rfl, rfl, rfl⟩

/-- C21, amended: on a successful grant every handle of the target connector,
whichever client it belongs to and so the requester's own as well, is sent
`withdrawn`, has its user data cleared and is unlinked: the connector is left
without handles. -/
theorem grant_withdraws_every_handle (env : Env) (s : State) (request : Ptr) (req : Request)
    (lease connector device res : Ptr) (dev : Device) (conn : Connector) (l : Lease)
    (fd : Int) (k : Nat)
    (hreq : deref s.requests request = .ok req)
    (hlease : req.lease = some lease)
    (hvalid : req.invalid = false)
    (hconn : req.connector = some connector)
    (hdev : req.device = some device)
    (hd : deref s.devices device = .ok dev)
    (hc : deref s.connectors connector = .ok conn)
    (hfree : conn.active_lease = none)
    (hl : deref s.leases lease = .ok l)
    (hres : l.resource = some res)
    (hreslive : is_live s.resources res = true)
    (hhandles : ∀ r ∈ conn.resources, is_live s.resources r = true)
    (hbackend : env.create_lease dev.backend conn.output.ptr l.lessee_id = (fd, k))
    (hfd : 0 ≤ fd) :
    ∃ s1, wlr_drm_lease_request_v1_grant env s request = .ok (s1, some lease) ∧
      s1.events = s.events ++ [Event.create_lease dev.backend conn.output.ptr] ++
        conn.resources.map Event.withdrawn ++ [Event.lease_fd res fd, Event.close fd] ∧
      (∀ r ∈ conn.resources, Event.withdrawn r ∈ s1.events) ∧
      (∀ r ∈ conn.resources, ∀ x, deref s.resources r = .ok x →
        deref s1.resources r = .ok { x with user_data := none }) ∧
      deref s1.connectors connector =
        .ok { conn with resources := [], active_lease := some lease } := by
  obtain ⟨s1, hrun, post⟩ := grant_ok env s request req lease connector device res dev conn l
    fd k hreq hlease hvalid hconn hdev hd hc hfree hl hres hreslive hhandles hbackend hfd
  refine ⟨s1, hrun, post.events, ?_, post.cleared, post.target⟩
  intro r hr
  rw [post.events]
  simp only [List.mem_append, List.mem_map]
  exact Or.inl (Or.inr ⟨r, hr, rfl⟩)

theorem grant_withdraws_every_handle_witness :
    ∃ s1, wlr_drm_lease_request_v1_grant demo_env demo_submitted 0 = .ok (s1, some 0) ∧
      s1.events = demo_submitted.events ++ [Event.create_lease demo_device.backend 100] ++
        demo_connector.resources.map Event.withdrawn ++
        [Event.lease_fd 5 7, Event.close 7] ∧
      (∀ r ∈ demo_connector.resources, Event.withdrawn r ∈ s1.events) ∧
      (∀ r ∈ demo_connector.resources, ∀ x, deref demo_submitted.resources r = .ok x →
        deref s1.resources r = .ok { x with user_data := none }) ∧
      deref s1.connectors 0 =
        .ok { demo_connector with resources := [], active_lease := some 0 } :=
  grant_withdraws_every_handle demo_env demo_submitted 0 demo_request 0 0 0 5 demo_device
    demo_connector demo_lease 7 5 rfl rfl rfl rfl rfl rfl rfl rfl rfl rfl rfl (by decide) rfl
    (by decide)

/-! ## Destroying a lease resource -/

/-- C22, evaluated: a lease that was never granted has no connector, and the
revoke that the destruction of its resource runs writes through that null
pointer. This happens for the lease that was finished at submit
(`demo_stale_steps`), for a rejected lease and for an undecided one. For the
granted lease of `demo_leased` the connector is freed, and the revoke reads
freed memory. -/
theorem destroy_ungranted_lease_faults :
    ∃ s1 s2 s3,
      run demo_env demo_stale_steps demo_created = .ok s1 ∧
      deref s1.leases 0 =
        .ok { resource := some 3, device := some 0, connector := none, lessee_id := 0 } ∧
      wl_resource_destroy demo_env s1 3 = .error Fault.null_deref ∧
      run demo_env (demo_steps ++ [Op.submit 1 4 Decision.reject]) demo_created = .ok s2 ∧
      deref s2.leases 0 =
        .ok { resource := some 5, device := some 0, connector := none, lessee_id := 0 } ∧
      wl_resource_destroy demo_env s2 5 = .error Fault.null_deref ∧
      run demo_env (demo_steps ++ [Op.submit 1 4 Decision.ignore]) demo_created = .ok s3 ∧
      wl_resource_destroy demo_env s3 5 = .error Fault.null_deref ∧
      wl_resource_destroy demo_env demo_leased 5 = .error Fault.use_after_free :=
  ⟨_, _, _, rfl, rfl, rfl, rfl, rfl, rfl, rfl, rfl, rfl⟩

/-! ## The manager of a device, and requests without a target -/

/-- C26, evaluated: for a single DRM backend the device that the manager gets
has no manager; for the same backend inside a multi backend it has. With the
single backend, the submit of a valid request faults where the `request`
signal of the manager is to be emitted. -/
theorem create_single_leaves_manager_unset :
    ∃ s1, wlr_drm_lease_manager_create demo_env State.empty demo_single =
        .ok (demo_created_single, some 0) ∧
      deref demo_created_single.managers 0 = .ok { devices := [0] } ∧
      deref demo_created_single.devices 0 =
        .ok { resources := [], global := some 0, manager := none, backend := 9,
              connectors := [], leases := [], requests := [] } ∧
      wlr_drm_lease_manager_create demo_env State.empty demo_backend =
        .ok (demo_created, some 0) ∧
      deref demo_created.devices 0 =
        .ok { resources := [], global := some 0, manager := some 0, backend := 9,
              connectors := [], leases := [], requests := [] } ∧
      run demo_env demo_steps demo_created_single = .ok s1 ∧
      deref s1.requests 0 =
        .ok { resource := some 4, device := some 0, connector := some 0, invalid := false,
              lease := none } ∧
      drm_lease_request_v1_handle_submit demo_env (listener demo_env Decision.grant) s1 1 4 =
        .error Fault.null_deref :=
  ⟨_, rfl, rfl, rfl, rfl, rfl, rfl, rfl, rfl⟩

/-- C27, evaluated: client 1 creates a request and submits it without having
targeted a connector. The request has no connector and is not invalid, and
the submit faults on the null connector. -/
theorem submit_open_request_faults :
    ∃ s1, run demo_env (demo_open_steps.take 3) demo_created = .ok s1 ∧
      deref s1.requests 0 =
        .ok { resource := some 2, device := some 0, connector := none, invalid := false,
              lease := none } ∧
      drm_lease_request_v1_handle_submit demo_env (listener demo_env Decision.grant) s1 1 2 =
        .error Fault.null_deref ∧
      run demo_env demo_open_steps demo_created = .error Fault.null_deref :=
  ⟨_, rfl, rfl, rfl, rfl⟩



/-! ## Withdraw and the requests of the device -/

theorem demo_two_requests_eq :
    run demo_env demo_two_steps demo_created = .ok demo_two_requests := by
  rfl

theorem withdraw_found_requests (s : State) (manager device connector : Ptr) (output : Output)
    (m : Manager) (dev : Device) (conn : Connector)
    (hm : deref s.managers manager = .ok m)
    (hfind : find_device s output.backend m.devices = .ok (.elem device))
    (hd : deref s.devices device = .ok dev)
    (hfc : find_connector s output.ptr dev.connectors = .ok (some connector))
    (hc : deref s.connectors connector = .ok conn)
    (hfree : conn.active_lease = none)
    (hhandles : ∀ r ∈ conn.resources, is_live s.resources r = true)
    (hreqs : ∀ r ∈ dev.requests, (request_of s r).isSome = true)
    (hdisj : ∀ r ∈ dev.requests, r ∉ conn.resources) :
    ∃ s1, wlr_drm_lease_manager_withdraw_output s manager output = .ok s1 ∧
      (∀ r ∈ dev.requests, ∀ rq req, request_of s r = some rq →
        deref s.requests rq = .ok req →
        deref s1.requests rq = .ok { req with invalid := true }) ∧
      (∀ rq, (∀ r ∈ dev.requests, request_of s r ≠ some rq) →
        deref s1.requests rq = deref s.requests rq) := by
  obtain ⟨sa, hwr, w⟩ := withdraw_resources_ok connector conn.resources s conn hc hhandles
  have hda : deref sa.devices device = .ok dev := by rw [w.devices]; exact hd
  have hro : ∀ r ∈ dev.requests, request_of sa r = request_of s r := by
    intro r hr
    exact request_of_congr s sa r (w.resources r (hdisj r hr)) (by intro q; rw [w.requests])
  obtain ⟨sb, hir, _, _, e3, _, _, _, hset, hkeep⟩ := invalidate_requests_ok dev.requests sa
    (by
      intro r hr
      rw [hro r hr]
      exact hreqs r hr)
  have hcb : deref sb.connectors connector =
      .ok { conn with
        resources := conn.resources.filter (fun x => decide (x ∉ conn.resources)) } := by
    rw [e3]; exact w.target
  have hnone : conn.active_lease.isSome = false := by rw [hfree]; rfl
  refine ⟨{ sb with
      devices := unlink_connector connector sb.devices,
      connectors := release sb.connectors connector }, ?_, ?_, ?_⟩
  · simp [wlr_drm_lease_manager_withdraw_output, hm, hfind, hd, hfc, hc, hnone, hwr, hda,
      hir, free, hcb]
  · intro r hr rq req hrq hreq
    apply hset r hr rq req
    · rw [hro r hr]; exact hrq
    · rw [w.requests]; exact hreq
  · intro rq hno
    show deref sb.requests rq = _
    rw [hkeep rq (by
      intro r hr h
      rw [hro r hr] at h
      exact hno r hr h), w.requests]

/-- C25: when `wlr_drm_lease_manager_withdraw_output` finds the connector of
the output and it has no active lease, every request behind a resource of
the device's request list gets `invalid = true`, whatever its target
connector is (another connector, or none), and keeps every other field; a
request of no resource of that list is left as it is. -/
theorem withdraw_invalidates_all (s : State) (manager device connector : Ptr)
    (output : Output) (m : Manager) (dev : Device) (conn : Connector)
    (hm : deref s.managers manager = .ok m)
    (hfind : find_device s output.backend m.devices = .ok (.elem device))
    (hd : deref s.devices device = .ok dev)
    (hfc : find_connector s output.ptr dev.connectors = .ok (some connector))
    (hc : deref s.connectors connector = .ok conn)
    (hfree : conn.active_lease = none)
    (hhandles : ∀ r ∈ conn.resources, is_live s.resources r = true)
    (hreqs : ∀ r ∈ dev.requests, (request_of s r).isSome = true)
    (hdisj : ∀ r ∈ dev.requests, r ∉ conn.resources) :
    ∃ s1, wlr_drm_lease_manager_withdraw_output s manager output = .ok s1 ∧
      (∀ r ∈ dev.requests, ∀ rq req, request_of s r = some rq →
        deref s.requests rq = .ok req →
        deref s1.requests rq =
          .ok { resource := req.resource, device := req.device, connector := req.connector,
                invalid := true, lease := req.lease }) ∧
      (∀ rq, (∀ r ∈ dev.requests, request_of s r ≠ some rq) →
        deref s1.requests rq = deref s.requests rq) :=
  withdraw_found_requests s manager device connector output m dev conn hm hfind hd hfc hc
    hfree hhandles hreqs hdisj

theorem withdraw_invalidates_all_witness :
    ∃ s1, wlr_drm_lease_manager_withdraw_output demo_two_requests 0 demo_output2 = .ok s1 ∧
      (∀ r ∈ demo_two_device.requests, ∀ rq req, request_of demo_two_requests r = some rq →
        deref demo_two_requests.requests rq = .ok req →
        deref s1.requests rq =
          .ok { resource := req.resource, device := req.device, connector := req.connector,
                invalid := true, lease := req.lease }) ∧
      (∀ rq, (∀ r ∈ demo_two_device.requests, request_of demo_two_requests r ≠ some rq) →
        deref s1.requests rq = deref demo_two_requests.requests rq) :=
  withdraw_invalidates_all demo_two_requests 0 0 1 demo_output2 { devices := [0] }
    demo_two_device demo_two_connector rfl rfl rfl rfl rfl rfl (by decide) (by decide)
    (by decide)



/-! ## What a call leaves of the leases and the connectors -/

theorem withdraw_resources_target (connector : Ptr) :
    ∀ (rs : List Ptr) (s s1 : State) (c : Connector),
      withdraw_resources connector rs s = .ok s1 →
      deref s.connectors connector = .ok c →
      deref s1.connectors connector =
        .ok { c with resources := c.resources.filter (fun x => decide (x ∉ rs)) } := by
  intro rs
  induction rs with
  | nil =>
    intro s s1 c h hc
    simp only [withdraw_resources] at h
    injection h with h
    subst h
    simp [hc]
  | cons r rest ih =>
    intro s s1 c h hc
    simp only [withdraw_resources, hc] at h
    cases hr : deref s.resources r with
    | error f => simp [hr] at h
    | ok x =>
      simp only [hr] at h
      have hstep := ih _ s1 { c with resources := c.resources.filter (fun y => y ≠ r) } h
        (deref_store_self _ (deref_ok_lt hc))
      rw [hstep]
      simp only [List.filter_filter]
      congr 2
      apply List.filter_congr
      intro y _
      by_cases h1 : y = r <;> by_cases h2 : y ∈ rest <;> simp [h1, h2]

theorem reject_frame (s s1 : State) (request : Ptr)
    (h : wlr_drm_lease_request_v1_reject s request = .ok s1) :
    s1.leases = s.leases ∧ s1.connectors = s.connectors := by
  unfold wlr_drm_lease_request_v1_reject at h
  cases hreq : deref s.requests request with
  | error f => simp [hreq] at h
  | ok req =>
    simp only [hreq] at h
    cases hl : req.lease with
    | none => simp [hl] at h
    | some lease =>
      simp only [hl] at h
      cases h1 : deref s.leases lease with
      | error f => simp [h1] at h
      | ok l =>
        simp only [h1] at h
        cases h2 : post_event s l.resource Event.lease_finished with
        | error f => simp [h2] at h
        | ok s0 =>
          simp only [h2] at h
          injection h with h
          subst h
          obtain ⟨_, _, p3, _, p5, _⟩ := post_event_frame s s0 _ _ h2
          exact ⟨p5, p3⟩

theorem hidden_of_eq {h h1 : List (Option Connector)} (e : h1 = h) (hh : handles_hidden h) :
    handles_hidden h1 := by
  rw [e]; exact hh

theorem deref_store_cases {α : Type} (h : List (Option α)) (p q : Ptr) (a x : α)
    (e : deref (store h p a) q = .ok x) : x = a ∨ deref h q = .ok x := by
  by_cases hpq : p = q
  · subst hpq
    by_cases hlt : p < h.length
    · rw [deref_store_self a hlt] at e
      injection e with e
      exact Or.inl e.symm
    · right
      rw [deref_ok_iff] at e ⊢
      simp only [store, List.getElem?_set, if_true, hlt, if_false] at e
      exact absurd e (by simp)
  · rw [deref_store_ne h a hpq] at e
    exact Or.inr e

theorem hidden_store (h : List (Option Connector)) (p : Ptr) (a : Connector)
    (hh : handles_hidden h) (ha : a.active_lease ≠ none → a.resources = []) :
    handles_hidden (store h p a) := by
  intro c conn e hl
  rcases deref_store_cases h p c a conn e with e1 | e1
  · subst e1
    exact ha hl
  · exact hh c conn e1 hl

theorem hidden_release (h : List (Option Connector)) (p : Ptr) (hh : handles_hidden h) :
    handles_hidden (release h p) := by
  intro c conn e hl
  by_cases hpc : p = c
  · subst hpc
    rw [deref_ok_iff] at e
    simp only [release, List.getElem?_set, if_true] at e
    split at e <;> simp at e
  · rw [deref_release_ne h hpc] at e
    exact hh c conn e hl

theorem hidden_alloc (h : List (Option Connector)) (a : Connector)
    (hh : handles_hidden h) (ha : a.active_lease ≠ none → a.resources = []) :
    handles_hidden (alloc h a) := by
  intro c conn e hl
  by_cases hlt : c < h.length
  · rw [deref_alloc_lt a hlt] at e
    exact hh c conn e hl
  · by_cases heq : c = h.length
    · subst heq
      rw [deref_alloc_new] at e
      injection e with e
      subst e
      exact ha hl
    · have hlen := deref_ok_lt e
      rw [length_alloc] at hlen
      rcases Nat.lt_succ_iff_lt_or_eq.mp hlen with a | a
      · exact absurd a hlt
      · exact absurd a heq

theorem hidden_free (h h1 : List (Option Connector)) (p : Option Ptr)
    (e : free h p = .ok h1) (hh : handles_hidden h) : handles_hidden h1 := by
  unfold free at e
  cases p with
  | none =>
    simp only at e
    injection e with e
    subst e
    exact hh
  | some q =>
    simp only at e
    cases hq : deref h q with
    | error f => simp [hq] at e
    | ok a =>
      simp only [hq] at e
      injection e with e
      subst e
      exact hidden_release h q hh

theorem hidden_unlink_resource (resource : Ptr) (s : State)
    (hh : handles_hidden s.connectors) :
    handles_hidden (unlink_resource resource s).connectors := by
  intro c conn e hl
  rw [deref_ok_iff] at e
  simp only [unlink_resource, List.getElem?_map] at e
  cases h : s.connectors[c]? with
  | none => simp [h] at e
  | some o =>
    cases o with
    | none => simp [h] at e
    | some c0 =>
      simp [h] at e
      subst e
      have h0 : deref s.connectors c = .ok c0 := (deref_ok_iff _ _ _).mpr h
      have := hh c c0 h0 hl
      simp [this]



theorem send_to_client_hidden (env : Env) (s s1 : State) (connector client device : Ptr)
    (h : drm_lease_connector_v1_send_to_client env s connector client device = .ok s1)
    (hh : handles_hidden s.connectors) : handles_hidden s1.connectors := by
  unfold drm_lease_connector_v1_send_to_client at h
  cases hc : deref s.connectors connector with
  | error f => simp [hc] at h
  | ok c0 =>
    simp only [hc] at h
    split at h
    · injection h with h
      subst h
      exact hh
    · rename_i hfree
      split at h
      · injection h with h
        subst h
        exact hh
      · injection h with h
        subst h
        apply hidden_store _ _ _ hh
        intro hl
        cases ha : c0.active_lease with
        | none => exact absurd ha hl
        | some q => simp [ha] at hfree

theorem send_to_bound_hidden (env : Env) (connector : Ptr) :
    ∀ (rs : List Ptr) (s s1 : State), send_to_bound env connector rs s = .ok s1 →
      handles_hidden s.connectors → handles_hidden s1.connectors := by
  intro rs
  induction rs with
  | nil =>
    intro s s1 h hh
    simp only [send_to_bound] at h
    injection h with h
    subst h
    exact hh
  | cons r rest ih =>
    intro s s1 h hh
    simp only [send_to_bound] at h
    cases hr : deref s.resources r with
    | error f => simp [hr] at h
    | ok x =>
      simp only [hr] at h
      cases hstep : drm_lease_connector_v1_send_to_client env s connector x.client r with
      | error f => simp [hstep] at h
      | ok s0 =>
        simp only [hstep] at h
        exact ih s0 s1 h (send_to_client_hidden env s s0 connector x.client r hstep hh)

theorem send_connectors_hidden (env : Env) (client resource : Ptr) :
    ∀ (cs : List Ptr) (s s1 : State), send_connectors env client resource cs s = .ok s1 →
      handles_hidden s.connectors → handles_hidden s1.connectors := by
  intro cs
  induction cs with
  | nil =>
    intro s s1 h hh
    simp only [send_connectors] at h
    injection h with h
    subst h
    exact hh
  | cons c rest ih =>
    intro s s1 h hh
    simp only [send_connectors] at h
    cases hstep : drm_lease_connector_v1_send_to_client env s c client resource with
    | error f => simp [hstep] at h
    | ok s0 =>
      simp only [hstep] at h
      exact ih s0 s1 h (send_to_client_hidden env s s0 c client resource hstep hh)

theorem revoke_frame (env : Env) (s s1 : State) (lease : Ptr)
    (h : wlr_drm_lease_v1_revoke env s lease = .ok s1) :
    s1.leases = s.leases ∧ (handles_hidden s.connectors → handles_hidden s1.connectors) := by
  unfold wlr_drm_lease_v1_revoke at h
  cases hl : deref s.leases lease with
  | error f => simp [hl] at h
  | ok l =>
    simp only [hl] at h
    split at h
    · simp at h
    · rename_i sa hsa
      have ha : sa.leases = s.leases ∧ sa.connectors = s.connectors := by
        split at hsa
        · injection hsa with hsa
          subst hsa
          exact ⟨rfl, rfl⟩
        · obtain ⟨_, _, p3, _, p5, _⟩ := post_event_frame _ _ _ _ hsa
          exact ⟨p5, p3⟩
      split at h
      · simp at h
      · rename_i sb hsb
        have hb : sb.leases = sa.leases ∧ sb.connectors = sa.connectors := by
          split at hsb
          · cases hdv : l.device with
            | none => simp [hdv] at hsb
            | some device =>
              simp only [hdv] at hsb
              cases hd : deref sa.devices device with
              | error f => simp [hd] at hsb
              | ok dev =>
                simp only [hd] at hsb
                injection hsb with hsb
                subst hsb
                exact ⟨rfl, rfl⟩
          · injection hsb with hsb
            subst hsb
            exact ⟨rfl, rfl⟩
        cases hcn : l.connector with
        | none => simp [hcn] at h
        | some connector =>
          simp only [hcn] at h
          cases hc : deref sb.connectors connector with
          | error f => simp [hc] at h
          | ok conn =>
            simp only [hc] at h
            cases hdv : l.device with
            | none => simp [hdv] at h
            | some device =>
              simp only [hdv] at h
              cases hd : deref sb.devices device with
              | error f => simp [hd] at h
              | ok dev =>
                simp only [hd] at h
                obtain ⟨_, _, _, f4, _⟩ := send_to_bound_frame env connector dev.resources _ s1 h
                refine ⟨?_, ?_⟩
                · rw [f4]
                  show sb.leases = _
                  rw [hb.1, ha.1]
                · intro hh
                  apply send_to_bound_hidden env connector dev.resources _ s1 h
                  show handles_hidden (store sb.connectors connector _)
                  apply hidden_store
                  · rw [hb.2, ha.2]; exact hh
                  · intro hl2
                    exact absurd rfl hl2



theorem grant_some (env : Env) (s s1 : State) (request lease : Ptr)
    (hg : wlr_drm_lease_request_v1_grant env s request = .ok (s1, some lease)) :
    ∃ req connector conn l k,
      deref s.requests request = .ok req ∧ req.lease = some lease ∧
      req.connector = some connector ∧
      deref s.connectors connector = .ok conn ∧ conn.active_lease = none ∧
      deref s.leases lease = .ok l ∧
      deref s1.leases lease = .ok { l with lessee_id := k, connector := some connector } ∧
      (∀ p, p ≠ lease → deref s1.leases p = deref s.leases p) ∧
      deref s1.connectors connector =
        .ok { conn with resources := [], active_lease := some lease } ∧
      (∀ p, p ≠ connector → deref s1.connectors p = deref s.connectors p) := by
  unfold wlr_drm_lease_request_v1_grant at hg
  cases hreq : deref s.requests request with
  | error f => simp [hreq] at hg
  | ok req =>
    simp only [hreq] at hg
    cases hl : req.lease with
    | none => simp [hl] at hg
    | some lease0 =>
      simp only [hl] at hg
      cases hv : invalid_or_leased s req with
      | error f => simp [hv] at hg
      | ok bad =>
        cases bad with
        | true =>
          simp only [hv] at hg
          cases h1 : deref s.leases lease0 with
          | error f => simp [h1] at hg
          | ok l =>
            simp only [h1] at hg
            cases h2 : post_event s l.resource Event.lease_finished with
            | error f => simp [h2] at hg
            | ok s0 => simp [h2] at hg
        | false =>
          simp only [hv] at hg
          cases hconn : req.connector with
          | none => simp [hconn] at hg
          | some connector =>
            cases hdv : req.device with
            | none => simp [hconn, hdv] at hg
            | some device =>
              simp only [hconn, hdv] at hg
              cases h1 : deref (unlink_connector connector s.devices) device with
              | error f => simp [h1] at hg
              | ok dev =>
                cases h2 : deref s.connectors connector with
                | error f => simp [h1, h2] at hg
                | ok conn =>
                  cases h3 : deref s.leases lease0 with
                  | error f => simp [h1, h2, h3] at hg
                  | ok l =>
                    simp only [h1, h2, h3] at hg
                    have hfree : conn.active_lease = none := by
                      unfold invalid_or_leased at hv
                      cases hi : req.invalid with
                      | true => simp [hi] at hv
                      | false =>
                        simp only [hi, hconn, h2] at hv
                        cases ha : conn.active_lease with
                        | none => rfl
                        | some q => simp [ha] at hv
                    split at hg
                    · split at hg
                      · simp at hg
                      · simp at hg
                    · cases h4 : withdraw_resources connector conn.resources
                          { s with
                            devices := unlink_connector connector s.devices,
                            leases := store (store s.leases lease0
                              { l with
                                lessee_id :=
                                  (env.create_lease dev.backend conn.output.ptr
                                    l.lessee_id).2 })
                              lease0
                              { l with
                                lessee_id :=
                                  (env.create_lease dev.backend conn.output.ptr
                                    l.lessee_id).2,
                                connector := some connector },
                            events := s.events ++ [.create_lease dev.backend conn.output.ptr],
                            connectors := store s.connectors connector
                              { conn with active_lease := some lease0 } } with
                      | error f => simp [h4] at hg
                      | ok s4 =>
                        simp only [h4] at hg
                        split at hg
                        · simp at hg
                        · rename_i s5 h5
                          simp at hg
                          obtain ⟨hs, hlease⟩ := hg
                          subst hs hlease
                          obtain ⟨_, _, p3, _, p5, _⟩ := post_event_frame s4 s5 _ _ h5
                          obtain ⟨_, _, _, a4, _, a6, _, _⟩ :=
                            withdraw_resources_frame connector conn.resources _ s4 h4
                          have ht := withdraw_resources_target connector conn.resources _ s4
                            { conn with active_lease := some lease0 } h4
                            (deref_store_self _ (deref_ok_lt h2))
                          refine ⟨req, connector, conn, l,
                            (env.create_lease dev.backend conn.output.ptr l.lessee_id).2,
                            rfl, hl, hconn, h2, hfree, h3, ?_, ?_, ?_, ?_⟩
                          · show deref s5.leases lease0 = _
                            rw [p5, a4]
                            exact deref_store_self _
                              (by simpa [length_store] using deref_ok_lt h3)
                          · intro p hp
                            show deref s5.leases p = _
                            rw [p5, a4]
                            show deref (store (store s.leases lease0 _) lease0 _) p = _
                            rw [deref_store_ne _ _ (Ne.symm hp), deref_store_ne _ _ (Ne.symm hp)]
                          · show deref s5.connectors connector = _
                            rw [p3, ht]
                            simp
                          · intro p hp
                            show deref s5.connectors p = _
                            rw [p3, a6 p hp]
                            exact deref_store_ne _ _ (Ne.symm hp)

theorem grant_none (env : Env) (s s1 : State) (request : Ptr)
    (hg : wlr_drm_lease_request_v1_grant env s request = .ok (s1, none)) :
    s1.connectors = s.connectors ∧
      ∀ p l0, deref s.leases p = .ok l0 →
        ∃ l1, deref s1.leases p = .ok l1 ∧ l1.connector = l0.connector := by
  unfold wlr_drm_lease_request_v1_grant at hg
  cases hreq : deref s.requests request with
  | error f => simp [hreq] at hg
  | ok req =>
    simp only [hreq] at hg
    cases hl : req.lease with
    | none => simp [hl] at hg
    | some lease0 =>
      simp only [hl] at hg
      cases hv : invalid_or_leased s req with
      | error f => simp [hv] at hg
      | ok bad =>
        cases bad with
        | true =>
          simp only [hv] at hg
          cases h1 : deref s.leases lease0 with
          | error f => simp [h1] at hg
          | ok l =>
            simp only [h1] at hg
            cases h2 : post_event s l.resource Event.lease_finished with
            | error f => simp [h2] at hg
            | ok s0 =>
              simp [h2] at hg
              subst hg
              obtain ⟨_, _, p3, _, p5, _⟩ := post_event_frame s s0 _ _ h2
              exact ⟨p3, fun p l0 e => ⟨l0, by rw [p5]; exact e, rfl⟩⟩
        | false =>
          simp only [hv] at hg
          cases hconn : req.connector with
          | none => simp [hconn] at hg
          | some connector =>
            cases hdv : req.device with
            | none => simp [hconn, hdv] at hg
            | some device =>
              simp only [hconn, hdv] at hg
              cases h1 : deref (unlink_connector connector s.devices) device with
              | error f => simp [h1] at hg
              | ok dev =>
                cases h2 : deref s.connectors connector with
                | error f => simp [h1, h2] at hg
                | ok conn =>
                  cases h3 : deref s.leases lease0 with
                  | error f => simp [h1, h2, h3] at hg
                  | ok l =>
                    simp only [h1, h2, h3] at hg
                    split at hg
                    · split at hg
                      · simp at hg
                      · rename_i s3 h5
                        simp at hg
                        subst hg
                        obtain ⟨_, _, p3, _, p5, _⟩ := post_event_frame _ s3 _ _ h5
                        refine ⟨p3, ?_⟩
                        intro p l0 e
                        rw [p5]
                        by_cases hp : lease0 = p
                        · subst hp
                          rw [h3] at e
                          injection e with e
                          subst e
                          exact ⟨_, deref_store_self _ (deref_ok_lt h3), rfl⟩
                        · exact ⟨l0, by
                            show deref (store s.leases lease0 _) p = _
                            rw [deref_store_ne _ _ hp]; exact e, rfl⟩
                    · split at hg
                      · simp at hg
                      · split at hg
                        · simp at hg
                        · simp at hg



/-! ## The connector of a lease -/

/-- C23, as stated, fails: after `demo_steps` client 1 submits and the
listener rejects. Lease 0 is then in the lease list of the device (through
its resource 5) and has no connector. -/
theorem rejected_lease_has_no_connector :
    ∃ s dev, run demo_env (demo_steps ++ [Op.submit 1 4 Decision.reject]) demo_created =
        .ok s ∧
      deref s.devices 0 = .ok dev ∧
      dev.leases = [5] ∧
      deref s.resources 5 = .ok { iface := .lease, client := 1, user_data := some 0 } ∧
      deref s.leases 0 =
        .ok { resource := some 5, device := some 0, connector := none, lessee_id := 0 } ∧
      Event.lease_finished 5 ∈ s.events :=
  ⟨_, _, rfl, rfl, rfl, rfl, rfl, by decide⟩

/-- C23, amended: a lease has at most one connector, and has none until it is
granted. When the listener is called for a submitted request, the new lease is
in the lease list of the device and its connector is null; a reject leaves
every lease as it is; a grant that returns `NULL` leaves the connector of
every lease as it is; a grant that returns the lease sets its connector to
the target connector of the request; and a revoke leaves every lease as it
is, so the connector, once set, stays. -/
theorem lease_connector_history (env : Env) (handler : State → Ptr → Except Fault State)
    (s : State) (client resource rq device manager connector : Ptr) (x : Resource)
    (req : Request) (dev : Device) (conn : Connector)
    (hres : deref s.resources resource = .ok x)
    (hif : x.iface = .request)
    (hud : x.user_data = some rq)
    (hreq : deref s.requests rq = .ok req)
    (hcal : env.calloc_ok = true)
    (hwl : env.wl_resource_ok = true)
    (hdev : req.device = some device)
    (hd : deref s.devices device = .ok dev)
    (hmgr : dev.manager = some manager)
    (hml : is_live s.managers manager = true)
    (hvalid : req.invalid = false)
    (hconn : req.connector = some connector)
    (hc : deref s.connectors connector = .ok conn)
    (hfree : conn.active_lease = none) :
    (∃ s4, drm_lease_request_v1_handle_submit env handler s client resource =
        (match handler s4 rq with
        | .error f => .error f
        | .ok s5 => wl_resource_destroy env s5 resource) ∧
      deref s4.leases s.leases.length =
        .ok { resource := some s.resources.length, device := some device, connector := none,
              lessee_id := 0 } ∧
      deref s4.resources s.resources.length =
        .ok { iface := .lease, client := client, user_data := some s.leases.length } ∧
      deref s4.devices device =
        .ok { dev with leases := s.resources.length :: dev.leases }) ∧
    (∀ s0 s1 request, wlr_drm_lease_request_v1_reject s0 request = .ok s1 →
      s1.leases = s0.leases) ∧
    (∀ env0 s0 s1 request, wlr_drm_lease_request_v1_grant env0 s0 request = .ok (s1, none) →
      ∀ p l0, deref s0.leases p = .ok l0 →
        ∃ l1, deref s1.leases p = .ok l1 ∧ l1.connector = l0.connector) ∧
    (∀ env0 s0 s1 request lease,
      wlr_drm_lease_request_v1_grant env0 s0 request = .ok (s1, some lease) →
      ∃ req0 l1 c, deref s0.requests request = .ok req0 ∧ req0.connector = some c ∧
        deref s1.leases lease = .ok l1 ∧ l1.connector = some c ∧
        ∀ p, p ≠ lease → deref s1.leases p = deref s0.leases p) ∧
    (∀ env0 s0 s1 lease, wlr_drm_lease_v1_revoke env0 s0 lease = .ok s1 →
      s1.leases = s0.leases) := by
  refine ⟨⟨{ submitted s client rq device req dev with
      events := s.events ++ [Event.request_signal manager rq] }, ?_, ?_, ?_, ?_⟩, ?_, ?_, ?_, ?_⟩
  · exact submit_valid env handler s client resource rq device manager connector x req dev
      conn hres hif hud hreq hcal hwl hdev hd hmgr hml hvalid hconn hc hfree
  · show deref (alloc s.leases _) s.leases.length = _
    rw [deref_alloc_new, hdev]
  · show deref (alloc s.resources _) s.resources.length = _
    rw [deref_alloc_new]
  · show deref (store s.devices device _) device = _
    exact deref_store_self _ (deref_ok_lt hd)
  · intro s0 s1 request h
    exact (reject_frame s0 s1 request h).1
  · intro env0 s0 s1 request h
    exact (grant_none env0 s0 s1 request h).2
  · intro env0 s0 s1 request lease h
    obtain ⟨req0, c, _, l, k, g1, _, g3, _, _, _, g7, g8, _, _⟩ :=
      grant_some env0 s0 s1 request lease h
    exact ⟨req0, _, c, g1, g3, g7, rfl, g8⟩
  · intro env0 s0 s1 lease h
    exact (revoke_frame env0 s0 s1 lease h).1

theorem lease_connector_history_witness :
    (∃ s4, drm_lease_request_v1_handle_submit demo_env (listener demo_env Decision.reject)
        demo_targeted 1 4 =
        (match listener demo_env Decision.reject s4 0 with
        | .error f => .error f
        | .ok s5 => wl_resource_destroy demo_env s5 4) ∧
      deref s4.leases demo_targeted.leases.length =
        .ok { resource := some demo_targeted.resources.length, device := some 0,
              connector := none, lessee_id := 0 } ∧
      deref s4.resources demo_targeted.resources.length =
        .ok { iface := .lease, client := 1, user_data := some demo_targeted.leases.length } ∧
      deref s4.devices 0 =
        .ok { resources := [2, 0], global := some 0, manager := some 0, backend := 9,
              connectors := [0], leases := demo_targeted.resources.length :: [],
              requests := [4] }) ∧
    (∃ s1, wlr_drm_lease_request_v1_reject demo_submitted 0 = .ok s1 ∧
      s1.leases = demo_submitted.leases) ∧
    (∃ s1 l1, wlr_drm_lease_request_v1_grant demo_env_refused demo_submitted 0 =
        .ok (s1, none) ∧
      deref s1.leases 0 = .ok l1 ∧ l1.connector = demo_lease.connector) ∧
    (∃ s1 l1, wlr_drm_lease_request_v1_grant demo_env demo_submitted 0 = .ok (s1, some 0) ∧
      deref s1.leases 0 = .ok l1 ∧ l1.connector = some 0) ∧
    (∃ s1, wlr_drm_lease_v1_revoke demo_env demo_granted 0 = .ok s1 ∧
      s1.leases = demo_granted.leases) := by
  have h := lease_connector_history demo_env (listener demo_env Decision.reject)
    demo_targeted 1 4 0 0 0 0
    { iface := .request, client := 1, user_data := some 0 }
    { resource := some 4, device := some 0, connector := some 0, invalid := false,
      lease := none }
    { resources := [2, 0], global := some 0, manager := some 0, backend := 9,
      connectors := [0], leases := [], requests := [4] }
    demo_connector rfl rfl rfl rfl rfl rfl rfl rfl rfl rfl rfl rfl rfl rfl
  obtain ⟨h1, h2, h3, h4, h5⟩ := h
  refine ⟨h1, ?_, ?_, ?_, ?_⟩
  · obtain ⟨s1, e⟩ : ∃ s1, wlr_drm_lease_request_v1_reject demo_submitted 0 = .ok s1 :=
      ⟨_, rfl⟩
    exact ⟨s1, e, h2 _ _ _ e⟩
  · obtain ⟨s1, e⟩ : ∃ s1, wlr_drm_lease_request_v1_grant demo_env_refused demo_submitted 0 =
        .ok (s1, none) := ⟨_, rfl⟩
    obtain ⟨l1, e1, e2⟩ := h3 demo_env_refused demo_submitted s1 0 e 0 demo_lease rfl
    exact ⟨s1, l1, e, e1, e2⟩
  · obtain ⟨s1, e⟩ : ∃ s1, wlr_drm_lease_request_v1_grant demo_env demo_submitted 0 =
        .ok (s1, some 0) := ⟨_, rfl⟩
    obtain ⟨req0, l1, c, e1, e2, e3, e4, _⟩ := h4 demo_env demo_submitted s1 0 0 e
    refine ⟨s1, l1, e, e3, ?_⟩
    rw [e4]
    have hc0 : c = 0 := by
      have e1' : deref demo_submitted.requests 0 = .ok demo_request := rfl
      rw [e1'] at e1
      injection e1 with e1
      subst e1
      have e2' : demo_request.connector = some 0 := rfl
      rw [e2'] at e2
      injection e2 with e2
      exact e2.symm
    rw [hc0]
  · obtain ⟨s1, e⟩ : ∃ s1, wlr_drm_lease_v1_revoke demo_env demo_granted 0 = .ok s1 :=
      ⟨_, rfl⟩
    exact ⟨s1, e, h5 _ _ _ _ e⟩



/-! ## Leased connectors have no handles -/

theorem send_to_client_leased (env : Env) (s : State) (connector client device : Ptr)
    (conn : Connector) (hc : deref s.connectors connector = .ok conn)
    (hl : conn.active_lease ≠ none) :
    drm_lease_connector_v1_send_to_client env s connector client device = .ok s := by
  unfold drm_lease_connector_v1_send_to_client
  rw [hc]
  cases h : conn.active_lease with
  | none => exact absurd h hl
  | some l => simp [h]

theorem grant_hidden (env : Env) (s s1 : State) (request : Ptr) (r : Option Ptr)
    (hg : wlr_drm_lease_request_v1_grant env s request = .ok (s1, r))
    (hh : handles_hidden s.connectors) : handles_hidden s1.connectors := by
  cases r with
  | none => exact hidden_of_eq (grant_none env s s1 request hg).1 hh
  | some lease =>
    obtain ⟨req, connector, conn, l, k, _, _, _, _, _, _, _, _, g9, g10⟩ :=
      grant_some env s s1 request lease hg
    intro c x hx hne
    by_cases e : c = connector
    · subst e
      rw [g9] at hx
      injection hx with hx
      subst hx
      rfl
    · rw [g10 c e] at hx
      exact hh c x hx hne

theorem listener_hidden (env : Env) (d : Decision) (s s1 : State) (request : Ptr)
    (h : listener env d s request = .ok s1)
    (hh : handles_hidden s.connectors) : handles_hidden s1.connectors := by
  cases d with
  | grant =>
    simp only [listener] at h
    cases hg : wlr_drm_lease_request_v1_grant env s request with
    | error f => rw [hg] at h; simp at h
    | ok r =>
      rw [hg] at h
      simp at h
      subst h
      exact grant_hidden env s r.1 request r.2 hg hh
  | reject =>
    simp only [listener] at h
    exact hidden_of_eq (reject_frame s s1 request h).2 hh
  | ignore =>
    simp only [listener] at h
    injection h with h
    subst h
    exact hh

theorem withdraw_resources_hidden (connector : Ptr) :
    ∀ (rs : List Ptr) (s s1 : State), withdraw_resources connector rs s = .ok s1 →
      handles_hidden s.connectors → handles_hidden s1.connectors := by
  intro rs
  induction rs with
  | nil =>
    intro s s1 h hh
    simp only [withdraw_resources] at h
    injection h with h
    subst h
    exact hh
  | cons r rest ih =>
    intro s s1 h hh
    simp only [withdraw_resources] at h
    cases hr : deref s.resources r with
    | error f => rw [hr] at h; simp at h
    | ok x =>
      rw [hr] at h
      cases hc : deref s.connectors connector with
      | error f => rw [hc] at h; simp at h
      | ok c =>
        rw [hc] at h
        simp only at h
        have := ih _ _ h
        apply this
        apply hidden_store _ _ _ hh
        intro hne
        have e := hh connector c hc hne
        show List.filter _ c.resources = []
        rw [e]
        rfl

theorem withdraw_hidden (s s1 : State) (manager : Ptr) (output : Output)
    (h : wlr_drm_lease_manager_withdraw_output s manager output = .ok s1)
    (hh : handles_hidden s.connectors) : handles_hidden s1.connectors := by
  unfold wlr_drm_lease_manager_withdraw_output at h
  cases hm : deref s.managers manager with
  | error f => rw [hm] at h; simp at h
  | ok m =>
    rw [hm] at h
    simp only at h
    cases hf : find_device s output.backend m.devices with
    | error f => rw [hf] at h; simp at h
    | ok cur =>
      rw [hf] at h
      cases cur with
      | head => simp at h
      | elem device =>
        simp only at h
        cases hd : deref s.devices device with
        | error f => rw [hd] at h; simp at h
        | ok dev =>
          rw [hd] at h
          simp only at h
          cases hfc : find_connector s output.ptr dev.connectors with
          | error f => rw [hfc] at h; simp at h
          | ok oc =>
            rw [hfc] at h
            cases oc with
            | none =>
              simp only at h
              injection h with h
              subst h
              exact hh
            | some connector =>
              simp only at h
              cases hc : deref s.connectors connector with
              | error f => rw [hc] at h; simp at h
              | ok conn =>
                rw [hc] at h
                simp only at h
                split at h
                · simp at h
                · cases hw : withdraw_resources connector conn.resources s with
                  | error f => rw [hw] at h; simp at h
                  | ok sa =>
                    rw [hw] at h
                    simp only at h
                    have ha := withdraw_resources_hidden connector _ _ _ hw hh
                    cases hd1 : deref sa.devices device with
                    | error f => rw [hd1] at h; simp at h
                    | ok dev1 =>
                      rw [hd1] at h
                      simp only at h
                      cases hi : invalidate_requests dev1.requests sa with
                      | error f => rw [hi] at h; simp at h
                      | ok sb =>
                        rw [hi] at h
                        simp only at h
                        have hb : handles_hidden sb.connectors :=
                          hidden_of_eq (invalidate_requests_frame _ _ _ hi).2.2.1 ha
                        cases hfr : free sb.connectors (some connector) with
                        | error f => rw [hfr] at h; simp at h
                        | ok hp =>
                          rw [hfr] at h
                          simp only at h
                          injection h with h
                          subst h
                          exact hidden_free _ _ _ hfr hb

theorem offer_hidden (env : Env) (s s1 : State) (manager : Ptr) (output : Output) (b : Bool)
    (h : wlr_drm_lease_manager_offer_output env s manager output = .ok (s1, b))
    (hh : handles_hidden s.connectors) : handles_hidden s1.connectors := by
  unfold wlr_drm_lease_manager_offer_output at h
  cases hm : deref s.managers manager with
  | error f => rw [hm] at h; simp at h
  | ok m =>
    rw [hm] at h
    simp only at h
    cases hf : find_device s output.backend m.devices with
    | error f => rw [hf] at h; simp at h
    | ok cur =>
      rw [hf] at h
      cases cur with
      | head => simp at h
      | elem device =>
        simp only at h
        cases hd : deref s.devices device with
        | error f => rw [hd] at h; simp at h
        | ok dev =>
          rw [hd] at h
          simp only at h
          cases hce : connector_exists s output.ptr dev.connectors with
          | error f => rw [hce] at h; simp at h
          | ok e =>
            rw [hce] at h
            cases e with
            | true =>
              simp only at h
              injection h with h
              injection h with h1 h2
              subst h1
              exact hh
            | false =>
              simp only at h
              split at h
              · injection h with h
                injection h with h1 h2
                subst h1
                exact hh
              · cases hs : send_to_bound env s.connectors.length dev.resources
                    { s with
                      connectors := alloc s.connectors
                        { resources := [], output := output, active_lease := none },
                      devices := store s.devices device
                        { dev with connectors := s.connectors.length :: dev.connectors } } with
                | error f => rw [hs] at h; simp at h
                | ok s2 =>
                  rw [hs] at h
                  simp only at h
                  injection h with h
                  injection h with h1 h2
                  subst h1
                  apply send_to_bound_hidden env _ _ _ _ hs
                  apply hidden_alloc _ _ hh
                  intro _
                  rfl

theorem bind_hidden (env : Env) (s s1 : State) (client data : Ptr)
    (h : lease_device_bind env s client data = .ok s1)
    (hh : handles_hidden s.connectors) : handles_hidden s1.connectors := by
  unfold lease_device_bind at h
  split at h
  · injection h with h
    subst h
    exact hh
  · simp only at h
    split at h
    · simp at h
    · rename_i dev hd
      split at h
      · simp at h
      · rename_i s2 hcl
        have h2 : s2.connectors = s.connectors := by
          split at hcl
          · injection hcl with hcl
            subst hcl
            rfl
          · split at hcl
            · simp at hcl
            · injection hcl with hcl
              subst hcl
              rfl
        apply send_connectors_hidden env _ _ _ _ _ h
        exact hidden_of_eq h2 hh

theorem create_lease_request_hidden (env : Env) (s s1 : State) (client resource : Ptr)
    (h : drm_lease_device_v1_handle_create_lease_request env s client resource = .ok s1)
    (hh : handles_hidden s.connectors) : handles_hidden s1.connectors := by
  unfold drm_lease_device_v1_handle_create_lease_request at h
  split at h
  · simp at h
  · split at h
    · exact hidden_of_eq (post_event_frame _ _ _ _ h).2.2.1 hh
    · simp only at h
      split at h
      · split at h
        · simp at h
        · rename_i s2 hp
          injection h with h
          subst h
          exact hidden_of_eq (post_event_frame _ _ _ _ hp).2.2.1 hh
      · split at h
        · simp at h
        · split at h
          · simp at h
          · injection h with h
            subst h
            exact hh

theorem request_connector_hidden (s s1 : State) (rr cr : Ptr)
    (h : drm_lease_request_v1_handle_request_connector s rr cr = .ok s1)
    (hh : handles_hidden s.connectors) : handles_hidden s1.connectors := by
  unfold drm_lease_request_v1_handle_request_connector at h
  split at h
  · simp at h
  · simp at h
  · simp at h
  · split at h
    · simp at h
    · split at h
      · injection h with h
        subst h
        exact hh
      · injection h with h
        subst h
        exact hh

theorem destroy_hidden (env : Env) (s s1 : State) (resource : Ptr)
    (h : wl_resource_destroy env s resource = .ok s1)
    (hh : handles_hidden s.connectors) : handles_hidden s1.connectors := by
  unfold wl_resource_destroy at h
  split at h
  · simp at h
  · rename_i r hr
    simp only at h
    split at h
    · simp at h
    · rename_i sa hd
      have ha : handles_hidden sa.connectors := by
        cases hi : r.iface with
        | device =>
          rw [hi] at hd
          simp only [drm_lease_device_v1_handle_resource_destroy] at hd
          injection hd with hd
          subst hd
          exact hidden_unlink_resource resource s hh
        | connector =>
          rw [hi] at hd
          simp only [drm_connector_v1_handle_resource_destroy] at hd
          injection hd with hd
          subst hd
          exact hidden_unlink_resource resource s hh
        | request =>
          rw [hi] at hd
          simp only [drm_lease_request_v1_handle_resource_destroy] at hd
          split at hd
          · simp at hd
          · rename_i req hfr
            split at hd
            · simp at hd
            · rename_i sb hb
              injection hd with hd
              subst hd
              apply hidden_unlink_resource
              unfold drm_lease_request_v1_destroy at hb
              split at hb
              · injection hb with hb
                subst hb
                exact hh
              · split at hb
                · simp at hb
                · split at hb
                  · simp at hb
                  · rename_i hp hfree
                    simp only at hb
                    split at hb
                    · simp at hb
                    · injection hb with hb
                      subst hb
                      exact hidden_free _ _ _ hfree hh
        | lease =>
          rw [hi] at hd
          simp only [drm_lease_v1_handle_resource_destroy] at hd
          split at hd
          · simp at hd
          · simp at hd
          · split at hd
            · simp at hd
            · unfold drm_lease_v1_destroy at hd
              split at hd
              · simp at hd
              · rename_i sb hrev
                split at hd
                · simp at hd
                · injection hd with hd
                  subst hd
                  exact (revoke_frame _ _ _ _ hrev).2 (hidden_unlink_resource resource s hh)
      split at h
      · simp at h
      · injection h with h
        subst h
        exact ha

theorem submit_hidden (env : Env) (handler : State → Ptr → Except Fault State)
    (hhandler : ∀ s0 s1 request, handler s0 request = .ok s1 →
      handles_hidden s0.connectors → handles_hidden s1.connectors)
    (s s1 : State) (client resource : Ptr)
    (h : drm_lease_request_v1_handle_submit env handler s client resource = .ok s1)
    (hh : handles_hidden s.connectors) : handles_hidden s1.connectors := by
  unfold drm_lease_request_v1_handle_submit at h
  split at h
  · simp at h
  · split at h
    · exact hidden_of_eq (post_event_frame _ _ _ _ h).2.2.1 hh
    · simp only at h
      split at h
      · split at h
        · simp at h
        · rename_i s2 hp
          injection h with h
          subst h
          exact hidden_of_eq (post_event_frame _ _ _ _ hp).2.2.1 hh
      · split at h
        · simp at h
        · split at h
          · simp at h
          · split at h
            · simp at h
            · split at h
              · simp at h
              · split at h
                · simp at h
                · rename_i s5 hdec
                  apply destroy_hidden env _ _ _ h
                  split at hdec
                  · simp at hdec
                  · exact hidden_of_eq (post_event_frame _ _ _ _ hdec).2.2.1 hh
                  · split at hdec
                    · simp at hdec
                    · split at hdec
                      · simp at hdec
                      · exact hhandler _ _ _ hdec hh

theorem exec_hidden (env : Env) (s s1 : State) (op : Op)
    (h : exec env s op = .ok s1)
    (hh : handles_hidden s.connectors) : handles_hidden s1.connectors := by
  cases op with
  | offer_output manager output =>
    simp only [exec] at h
    cases ho : wlr_drm_lease_manager_offer_output env s manager output with
    | error f => rw [ho] at h; simp at h
    | ok r =>
      rw [ho] at h
      simp at h
      subst h
      exact offer_hidden env s r.1 manager output r.2 ho hh
  | withdraw_output manager output => exact withdraw_hidden s s1 manager output h hh
  | bind client device => exact bind_hidden env s s1 client device h hh
  | create_lease_request client resource =>
    exact create_lease_request_hidden env s s1 client resource h hh
  | request_connector rr cr => exact request_connector_hidden s s1 rr cr h hh
  | submit client resource decision =>
    exact submit_hidden env (listener env decision)
      (fun s0 s2 request => listener_hidden env decision s0 s2 request) s s1 client resource h hh
  | grant request =>
    simp only [exec] at h
    cases hg : wlr_drm_lease_request_v1_grant env s request with
    | error f => rw [hg] at h; simp at h
    | ok r =>
      rw [hg] at h
      simp at h
      subst h
      exact grant_hidden env s r.1 request r.2 hg hh
  | reject request => exact hidden_of_eq (reject_frame s s1 request h).2 hh
  | revoke lease => exact (revoke_frame env s s1 lease h).2 hh
  | destroy resource => exact destroy_hidden env s s1 resource h hh



theorem device_create_connectors (env : Env) (s : State) (backend : Ptr) :
    (drm_lease_device_v1_create env s backend).1.connectors = s.connectors := by
  unfold drm_lease_device_v1_create
  split
  · rfl
  · simp only
    split <;> rfl

theorem multi_backend_cb_connectors (env : Env) (manager : Ptr) (s s1 : State)
    (b : Ptr × Bool) (h : multi_backend_cb env manager s b = .ok s1) :
    s1.connectors = s.connectors := by
  unfold multi_backend_cb at h
  split at h
  · injection h with h
    subst h
    rfl
  · have e := device_create_connectors env s b.1
    split at h
    · simp at h
    · rename_i sa device hc
      rw [hc] at e
      split at h
      · simp at h
      · simp at h
      · injection h with h
        subst h
        exact e

theorem for_each_backend_connectors (env : Env) (manager : Ptr) :
    ∀ (bs : List (Ptr × Bool)) (s s1 : State),
      wlr_multi_for_each_backend env manager bs s = .ok s1 → s1.connectors = s.connectors := by
  intro bs
  induction bs with
  | nil =>
    intro s s1 h
    simp only [wlr_multi_for_each_backend] at h
    injection h with h
    subst h
    rfl
  | cons b rest ih =>
    intro s s1 h
    simp only [wlr_multi_for_each_backend] at h
    cases hb : multi_backend_cb env manager s b with
    | error f => rw [hb] at h; simp at h
    | ok sa =>
      rw [hb] at h
      simp only at h
      have e1 := ih _ _ h
      rw [e1]
      exact multi_backend_cb_connectors env manager s sa b hb

theorem create_connectors (env : Env) (s s1 : State) (backend : Backend) (m : Option Ptr)
    (h : wlr_drm_lease_manager_create env s backend = .ok (s1, m)) :
    s1.connectors = s.connectors := by
  unfold wlr_drm_lease_manager_create at h
  split at h
  · injection h with h
    injection h with h1 h2
    subst h1
    rfl
  · simp only at h
    split at h
    · split at h
      · simp at h
      · rename_i s2 hf
        injection h with h
        injection h with h1 h2
        subst h1
        have e := for_each_backend_connectors env _ _ _ _ hf
        exact e
    · split at h
      · have e := device_create_connectors env
          { s with managers := alloc s.managers { devices := [] } } backend.ptr
        split at h
        · simp at h
        · rename_i sa device hc
          rw [hc] at e
          split at h
          · simp at h
          · injection h with h
            injection h with h1 h2
            subst h1
            exact e
      · injection h with h
        injection h with h1 h2
        subst h1
        rfl

theorem stop_hidden (env : Env) (s s1 : State) (resource : Ptr)
    (h : drm_lease_device_v1_handle_stop env s resource = .ok s1)
    (hh : handles_hidden s.connectors) : handles_hidden s1.connectors := by
  unfold drm_lease_device_v1_handle_stop at h
  split at h
  · simp at h
  · rename_i sa hp
    exact destroy_hidden env sa s1 resource h
      (hidden_of_eq (post_event_frame _ _ _ _ hp).2.2.1 hh)

theorem destroy_resources_hidden (env : Env) :
    ∀ (rs : List Ptr) (s s1 : State), destroy_resources env rs s = .ok s1 →
      handles_hidden s.connectors → handles_hidden s1.connectors := by
  intro rs
  induction rs with
  | nil =>
    intro s s1 h hh
    simp only [destroy_resources] at h
    injection h with h
    subst h
    exact hh
  | cons r rest ih =>
    intro s s1 h hh
    simp only [destroy_resources] at h
    cases hd : wl_resource_destroy env s r with
    | error f => rw [hd] at h; simp at h
    | ok sa =>
      rw [hd] at h
      simp only at h
      exact ih _ _ h (destroy_hidden env s sa r hd hh)

theorem revoke_leases_hidden (env : Env) :
    ∀ (rs : List Ptr) (s s1 : State), revoke_leases env rs s = .ok s1 →
      handles_hidden s.connectors → handles_hidden s1.connectors := by
  intro rs
  induction rs with
  | nil =>
    intro s s1 h hh
    simp only [revoke_leases] at h
    injection h with h
    subst h
    exact hh
  | cons r rest ih =>
    intro s s1 h hh
    simp only [revoke_leases] at h
    split at h
    · simp at h
    · simp at h
    · rename_i lease hfr
      split at h
      · simp at h
      · rename_i sa hrev
        exact ih _ _ h ((revoke_frame env s sa lease hrev).2 hh)

theorem free_connectors_hidden :
    ∀ (cs : List Ptr) (s s1 : State), free_connectors cs s = .ok s1 →
      handles_hidden s.connectors → handles_hidden s1.connectors := by
  intro cs
  induction cs with
  | nil =>
    intro s s1 h hh
    simp only [free_connectors] at h
    injection h with h
    subst h
    exact hh
  | cons c rest ih =>
    intro s s1 h hh
    simp only [free_connectors] at h
    cases hf : free s.connectors (some c) with
    | error f => rw [hf] at h; simp at h
    | ok hp =>
      rw [hf] at h
      simp only at h
      have := ih _ _ h
      exact this (hidden_free _ _ _ hf hh)

theorem backend_destroy_hidden (env : Env) (s s1 : State) (device : Ptr)
    (h : handle_backend_destroy env s device = .ok s1)
    (hh : handles_hidden s.connectors) : handles_hidden s1.connectors := by
  unfold handle_backend_destroy at h
  split at h
  · simp at h
  · split at h
    · simp at h
    · rename_i sa ha
      have h1 := destroy_resources_hidden env _ _ _ ha hh
      split at h
      · simp at h
      · split at h
        · simp at h
        · rename_i sb hb
          have h2 := destroy_resources_hidden env _ _ _ hb h1
          split at h
          · simp at h
          · split at h
            · simp at h
            · rename_i sc hc
              have h3 := revoke_leases_hidden env _ _ _ hc h2
              split at h
              · simp at h
              · split at h
                · simp at h
                · rename_i sd hd
                  have h4 := free_connectors_hidden _ _ _ hd h3
                  split at h
                  · simp at h
                  · injection h with h
                    subst h
                    exact h4

theorem call_hidden (env : Env) (s s1 : State) (c : Call)
    (h : call env s c = .ok s1)
    (hh : handles_hidden s.connectors) : handles_hidden s1.connectors := by
  cases c with
  | create backend =>
    simp only [call] at h
    cases hc : wlr_drm_lease_manager_create env s backend with
    | error f => rw [hc] at h; simp at h
    | ok r =>
      rw [hc] at h
      simp at h
      subst h
      exact hidden_of_eq (create_connectors env s r.1 backend r.2 hc) hh
  | step op => exact exec_hidden env s s1 op h hh
  | stop resource => exact stop_hidden env s s1 resource h hh
  | backend_destroy device => exact backend_destroy_hidden env s s1 device h hh

theorem run_each_hidden :
    ∀ (calls : List (Env × Call)) (s s1 : State), run_each calls s = .ok s1 →
      handles_hidden s.connectors → handles_hidden s1.connectors := by
  intro calls
  induction calls with
  | nil =>
    intro s s1 h hh
    simp only [run_each] at h
    injection h with h
    subst h
    exact hh
  | cons c rest ih =>
    intro s s1 h hh
    obtain ⟨env, c⟩ := c
    simp only [run_each] at h
    cases hc : call env s c with
    | error f => rw [hc] at h; simp at h
    | ok sa =>
      rw [hc] at h
      simp only at h
      exact ih _ _ h (call_hidden env s sa c hc hh)

theorem hidden_empty : handles_hidden State.empty.connectors := by
  intro c conn h
  simp [State.empty, deref] at h

/-- C24: in every state reached by calls into the file (creating a manager,
the compositor's offer, withdraw, grant, reject and revoke, the clients' bind,
create_lease_request, request_connector, submit with a listener that grants,
rejects or ignores, stop and resource destruction, and the destruction of a
backend) from a state in which no leased connector has a handle, such as the
empty state, a connector whose `active_lease` is set has no client handle, and
`drm_lease_connector_v1_send_to_client` for it changes nothing: no handle is
created and nothing is sent, whoever calls it. -/
theorem leased_connector_hidden (calls : List (Env × Call)) (s s1 : State)
    (h0 : handles_hidden s.connectors)
    (hrun : run_each calls s = .ok s1) :
    (∀ c conn, deref s1.connectors c = .ok conn → conn.active_lease ≠ none →
      conn.resources = []) ∧
    (∀ env c conn client device, deref s1.connectors c = .ok conn →
      conn.active_lease ≠ none →
      drm_lease_connector_v1_send_to_client env s1 c client device = .ok s1) ∧
    handles_hidden State.empty.connectors := by
  refine ⟨run_each_hidden calls s s1 hrun h0, ?_, hidden_empty⟩
  intro env c conn client device hc hl
  exact send_to_client_leased env s1 c client device conn hc hl

theorem leased_connector_hidden_witness :
    handles_hidden demo_submitted.connectors ∧
    run_each [(demo_env, Call.step (Op.grant 0))] demo_submitted = .ok demo_granted ∧
    (∃ conn, deref demo_granted.connectors 0 = .ok conn ∧ conn.active_lease = some 0) ∧
    (∀ c conn, deref demo_granted.connectors c = .ok conn → conn.active_lease ≠ none →
      conn.resources = []) ∧
    (∀ env c conn client device, deref demo_granted.connectors c = .ok conn →
      conn.active_lease ≠ none →
      drm_lease_connector_v1_send_to_client env demo_granted c client device =
        .ok demo_granted) := by
  have h0 : handles_hidden demo_submitted.connectors := by
    intro c conn h hl
    cases c with
    | zero =>
      have e : deref demo_submitted.connectors 0 = .ok demo_connector := rfl
      rw [e] at h
      injection h with h
      subst h
      exact absurd rfl hl
    | succ n =>
      have e : deref demo_submitted.connectors (n + 1) = .error .invalid_pointer := rfl
      rw [e] at h
      simp at h
  have h := leased_connector_hidden [(demo_env, Call.step (Op.grant 0))] demo_submitted
    demo_granted h0 rfl
  exact ⟨h0, rfl, ⟨_, rfl, rfl⟩, h.1, h.2.1⟩


end DrmLease
